import Mathlib

/-!
# formvalidator.js: a shallow embedding

The JavaScript of `src/formvalidator.js` is embedded as pure Lean functions.

* JavaScript values are the type `JSVal`. The numbers of options and requirement
  tables are integers, each standing for the double of that value. The Number value
  of a string is a double that need not be an integer (`Num`, with `NaN` and the
  infinities). Strings are Lean strings (lone surrogates are outside the model) and
  their `.length` is the UTF-16 length.
* Plain objects (`reqs`, `msgs`, `options`) are association lists of their own
  enumerable properties in `for .. in` order; every plain object inherits the
  properties of `Object.prototype` (the key `__proto__` is outside the model).
* The document is a map from control handles to `Control` records; a validator
  reads and writes it explicitly.
* The controls are the platform's, not the repository's. What an assignment
  `element[key] = value` does to a control, or that it throws, is a parameter
  (`PropertyWrite`) of the constructors that make such assignments.
* A call either returns a boolean or throws (`Outcome`).
-/

namespace FormValidator

/-! ## JavaScript values -/

/-- The JavaScript values that occur in options objects and requirement tables. -/
inductive JSVal where
  | undefined
  | null
  | bool (b : Bool)
  | num (n : Int)
  | str (s : String)
  /-- A reference to a form control of the document. -/
  | control (id : Nat)
  /-- An array of strings. -/
  | arr (ids : List String)
  /-- A built-in function, named by its `name` property. -/
  | native (name : String)
  deriving DecidableEq

/-- The `typeof` operator. -/
def typeof : JSVal → String
  | .undefined => "undefined"
  | .null => "object"
  | .bool _ => "boolean"
  | .num _ => "number"
  | .str _ => "string"
  | .control _ => "object"
  | .arr _ => "object"
  | .native _ => "function"

/-- ToBoolean: the truthiness used by `||`, `!` and `if`. -/
def truthy : JSVal → Bool
  | .undefined => false
  | .null => false
  | .bool b => b
  | .num n => n != 0
  | .str s => s != ""
  | .control _ => true
  | .arr _ => true
  | .native _ => true

/-- UTF-16 code units of a string: the sequence JavaScript indexes and compares. -/
def utf16 : List Char → List Nat
  | [] => []
  | c :: cs =>
    if c.toNat < 65536 then c.toNat :: utf16 cs
    else (55296 + (c.toNat - 65536) / 1024) :: (56320 + (c.toNat - 65536) % 1024) :: utf16 cs

/-- The `.length` of a string. -/
def jsLength (cs : List Char) : Nat := (utf16 cs).length

/-- Array.prototype.join for an array of strings. -/
def joinWith (sep : String) : List String → String
  | [] => ""
  | [s] => s
  | s :: t => s ++ sep ++ joinWith sep t

/-! ## Numbers -/

/-- A Number value: NaN, an infinity, or the finite value `mant * 2 ^ exp`. -/
inductive Num where
  | nan
  | inf (negative : Bool)
  | fin (mant : Int) (exp : Int)
  deriving DecidableEq

/-- The comparison `x < y` of two Number values; `none` when one of them is NaN. -/
def Num.lt : Num → Num → Option Bool
  | .nan, _ => none
  | _, .nan => none
  | .inf n1, .inf n2 => some (n1 && !n2)
  | .inf n1, .fin _ _ => some n1
  | .fin _ _, .inf n2 => some (!n2)
  | .fin m1 e1, .fin m2 e2 =>
    some (decide (m1 * 2 ^ (e1 - min e1 e2).toNat < m2 * 2 ^ (e2 - min e1 e2).toNat))

/-- Negation of a Number value. -/
def Num.neg : Num → Num
  | .nan => .nan
  | .inf negative => .inf (!negative)
  | .fin mant exp => .fin (-mant) exp

/-- The comparison `x == y` of two Number values. -/
def Num.eq : Num → Num → Bool
  | .inf n1, .inf n2 => n1 == n2
  | .fin m1 e1, .fin m2 e2 =>
    decide (m1 * 2 ^ (e1 - min e1 e2).toNat = m2 * 2 ^ (e2 - min e1 e2).toNat)
  | _, _ => false

/-- Number of binary digits of `n`, given fuel of at least that many. -/
def bitLength : Nat → Nat → Nat
  | 0, _ => 0
  | fuel + 1, n => if n = 0 then 0 else bitLength fuel (n / 2) + 1

/-- The exponent of the greatest power of two that is at most `n / d`, for positive `n` and `d`. -/
def floorLog2 (n d : Nat) : Int :=
  let k : Int := (bitLength n n : Int) - (bitLength d d : Int)
  if (if 0 ≤ k then d * 2 ^ k.toNat ≤ n else d ≤ n * 2 ^ (-k).toNat) then k else k - 1

/-- The Number value for the rational `n / d`. -/
def roundToDouble (n d : Nat) : Num :=
  if n = 0 then .fin 0 0
  else
    let e := floorLog2 n d
    if 1024 ≤ e then .inf false
    else
      let u := max (e - 52) (-1074)
      let num := if 0 ≤ u then n else n * 2 ^ (-u).toNat
      let den := if 0 ≤ u then d * 2 ^ u.toNat else d
      let q := num / den
      let r := num % den
      let m := if den < 2 * r then q + 1 else if den = 2 * r ∧ q % 2 = 1 then q + 1 else q
      if u = 971 ∧ m = 2 ^ 53 then .inf false else .fin m u


/-- The double nearest to the natural number `c`, when it is finite. From `2 ^ 53` up
every double is an integer. -/
def nearestDouble (c : Nat) : Option Nat :=
  if c < 2 ^ 53 then some c
  else
    match roundToDouble c 1 with
    | .fin m u => some (m.toNat * 2 ^ u.toNat)
    | _ => none

/-- The decimals of `k` significant digits next to `v`, a number of `len` digits, that read back
as `v`; when both do, the nearer one comes first, the one with the even last digit on a tie. -/
def decimalsAt (v len k : Nat) : List Nat :=
  let p := 10 ^ (len - k)
  let lo := v / p * p
  let hi := lo + p
  let ordered :=
    if v - lo < hi - v then [lo, hi]
    else if hi - v < v - lo then [hi, lo]
    else if v / p % 2 = 0 then [lo, hi] else [hi, lo]
  ordered.filter fun c => nearestDouble c == some v

/-- The decimal with the fewest significant digits that reads back as the double `v`, the one
nearest to `v` among those. -/
def shortestDecimal (v : Nat) : Nat :=
  let len := (Nat.toDigits 10 v).length
  (((List.range len).map fun i => decimalsAt v len (i + 1)).flatten.head?).getD v

/-- The text of a positive integer from `2 ^ 53` up, given its shortest decimal `c`: all digits
below `10 ^ 21`, exponent form from there. -/
def largeToString (c : Nat) : String :=
  let ds := Nat.toDigits 10 c
  if ds.length ≤ 21 then String.mk ds
  else
    let sig := (ds.reverse.dropWhile fun d => d = '0').reverse
    match sig with
    | [] => String.mk ds
    | [d] => String.mk [d] ++ "e+" ++ toString (ds.length - 1)
    | d :: more => String.mk (d :: '.' :: more) ++ "e+" ++ toString (ds.length - 1)

/-- ToString of an integer Number value: all digits below `2 ^ 53`, where every integer is a
double; from there the shortest decimal that reads back as the same double. -/
def numToString (n : Int) : String :=
  if n.natAbs < 2 ^ 53 then toString n
  else (if n < 0 then "-" else "") ++ largeToString (shortestDecimal n.natAbs)

/-- ToString. A control prints as a host object; its class name is not modelled. -/
def toStr : JSVal → String
  | .undefined => "undefined"
  | .null => "null"
  | .bool b => if b then "true" else "false"
  | .num n => numToString n
  | .str s => s
  | .control _ => "[object HTMLElement]"
  | .arr ids => joinWith "," ids
  | .native name => "function " ++ name ++ "() { [native code] }"

/-- White space and line terminators stripped by ToNumber. -/
def isJsSpace (c : Char) : Bool :=
  c.toNat ∈ [9, 10, 11, 12, 13, 32, 160, 5760, 8232, 8233, 8239, 8287, 12288, 65279]
    || (8192 ≤ c.toNat && c.toNat ≤ 8202)

/-- Value of a digit of the given radix, `none` for any other character. -/
def digitOf (radix : Nat) (c : Char) : Option Nat :=
  let d :=
    if 48 ≤ c.toNat ∧ c.toNat ≤ 57 then some (c.toNat - 48)
    else if 97 ≤ c.toNat ∧ c.toNat ≤ 102 then some (c.toNat - 87)
    else if 65 ≤ c.toNat ∧ c.toNat ≤ 70 then some (c.toNat - 55)
    else none
  d.filter fun n => n < radix

/-- Value of a run of digits of the given radix, `none` when a character is not such a digit. -/
def digitsValue (radix : Nat) : List Char → Nat → Option Nat
  | [], acc => some acc
  | c :: cs, acc => (digitOf radix c).bind fun d => digitsValue radix cs (radix * acc + d)

/-- A decimal digit. -/
def isDecimalDigit (c : Char) : Bool := 48 ≤ c.toNat && c.toNat ≤ 57

/-- The exponent part of a decimal literal: empty, or `e` or `E` followed by an optionally
signed nonempty run of decimal digits. -/
def exponentPart : List Char → Option Int
  | [] => some 0
  | e :: t =>
    if e = 'e' ∨ e = 'E' then
      match t with
      | [] => none
      | '-' :: d :: ds => (digitsValue 10 (d :: ds) 0).map fun n => -(n : Int)
      | '+' :: d :: ds => (digitsValue 10 (d :: ds) 0).map fun n => (n : Int)
      | ds => (digitsValue 10 ds 0).map fun n => (n : Int)
    else none

/-- An unsigned decimal literal other than `Infinity`, read as a pair `(m, x)` that stands for
`m * 10 ^ x`: digits with an optional fraction or a fraction alone, then an optional
exponent part. -/
def decimalLiteral (cs : List Char) : Option (Nat × Int) :=
  let whole := cs.takeWhile isDecimalDigit
  let rest := cs.dropWhile isDecimalDigit
  let fraction := match rest with
    | '.' :: t => t.takeWhile isDecimalDigit
    | _ => []
  let tail := match rest with
    | '.' :: t => t.dropWhile isDecimalDigit
    | _ => rest
  if whole.isEmpty && fraction.isEmpty then none
  else
    match digitsValue 10 (whole ++ fraction) 0, exponentPart tail with
    | some m, some x => some (m, x - (fraction.length : Int))
    | _, _ => none

/-- The Number value of an unsigned decimal literal, `NaN` when the text is not one. -/
def unsignedDecimal (cs : List Char) : Num :=
  if cs = "Infinity".toList then .inf false
  else
    match decimalLiteral cs with
    | some (m, x) =>
      if 0 ≤ x then roundToDouble (m * 10 ^ x.toNat) 1 else roundToDouble m (10 ^ (-x).toNat)
    | none => .nan

/-- The Number value of a hexadecimal, octal or binary literal after its prefix. -/
def radixLiteral (radix : Nat) (ds : List Char) : Num :=
  if ds.isEmpty then .nan
  else
    match digitsValue radix ds 0 with
    | some n => roundToDouble n 1
    | none => .nan

/-- ToNumber on a string. -/
def strToNumber (s : String) : Num :=
  let body := ((s.toList.dropWhile isJsSpace).reverse.dropWhile isJsSpace).reverse
  match body with
  | [] => .fin 0 0
  | '-' :: t => (unsignedDecimal t).neg
  | '+' :: t => unsignedDecimal t
  | '0' :: x :: ds =>
    if x = 'x' ∨ x = 'X' then radixLiteral 16 ds
    else if x = 'o' ∨ x = 'O' then radixLiteral 8 ds
    else if x = 'b' ∨ x = 'B' then radixLiteral 2 ds
    else unsignedDecimal body
  | _ => unsignedDecimal body


/-- ToPrimitive with hint number: objects become their string form. -/
def toPrimitive : JSVal → JSVal
  | .control id => .str (toStr (.control id))
  | .arr ids => .str (toStr (.arr ids))
  | .native name => .str (toStr (.native name))
  | v => v

/-- ToNumber. -/
def toNumber : JSVal → Num
  | .undefined => .nan
  | .null => .fin 0 0
  | .bool b => .fin (if b then 1 else 0) 0
  | .num n => .fin n 0
  | .str s => strToNumber s
  | .control id => strToNumber (toStr (.control id))
  | .arr ids => strToNumber (toStr (.arr ids))
  | .native name => strToNumber (toStr (.native name))

/-- Lexicographic order on code unit sequences. -/
def unitsLt : List Nat → List Nat → Bool
  | _, [] => false
  | [], _ :: _ => true
  | a :: as, b :: bs => a < b || (a == b && unitsLt as bs)

/-- The abstract relational comparison `a < b`; `none` is its `undefined` result. -/
def jsLess (a b : JSVal) : Option Bool :=
  match toPrimitive a, toPrimitive b with
  | .str s, .str t => some (unitsLt (utf16 s.toList) (utf16 t.toList))
  | pa, pb => (toNumber pa).lt (toNumber pb)

/-- The operator `a < b`. -/
def jsLt (a b : JSVal) : Bool := jsLess a b == some true

/-- The operator `a > b`. -/
def jsGt (a b : JSVal) : Bool := jsLess b a == some true

/-- The operator `a >= b`. -/
def jsGe (a b : JSVal) : Bool := jsLess a b == some false

/-! ## Plain objects -/

/-- Own enumerable properties of a plain object, in enumeration order. -/
abbrev Obj := List (String × JSVal)

/-- The properties every plain object inherits from `Object.prototype`. -/
def objectPrototype : Obj :=
  [("constructor", .native "Object"),
   ("toString", .native "toString"),
   ("toLocaleString", .native "toLocaleString"),
   ("valueOf", .native "valueOf"),
   ("hasOwnProperty", .native "hasOwnProperty"),
   ("isPrototypeOf", .native "isPrototypeOf"),
   ("propertyIsEnumerable", .native "propertyIsEnumerable"),
   ("__defineGetter__", .native "__defineGetter__"),
   ("__defineSetter__", .native "__defineSetter__"),
   ("__lookupGetter__", .native "__lookupGetter__"),
   ("__lookupSetter__", .native "__lookupSetter__")]

/-- Property read `o[k]`: own property, else inherited, else `undefined`. -/
def Obj.get (o : Obj) (k : String) : JSVal :=
  match o.lookup k with
  | some v => v
  | none =>
    match objectPrototype.lookup k with
    | some v => v
    | none => .undefined

/-- The operator `k in o`. -/
def Obj.has (o : Obj) (k : String) : Bool :=
  (o.lookup k).isSome || (objectPrototype.lookup k).isSome

/-- Property write `o[k] = v`: an own property keeps its place, a new one is added last. -/
def Obj.set : Obj → String → JSVal → Obj
  | [], k, v => [(k, v)]
  | (k', v') :: rest, k, v =>
    if k' == k then (k', v) :: rest else (k', v') :: Obj.set rest k v

/-- Own enumerable keys in `for .. in` order. -/
def Obj.keys (o : Obj) : List String := o.map Prod.fst

/-! ## String helpers -/

/-- The test `s.indexOf(pat) >= 0`. -/
def containsStr (pat : List Char) : List Char → Bool
  | [] => pat.isEmpty
  | c :: cs => pat.isPrefixOf (c :: cs) || containsStr pat cs

/-- The call `s.replace(pat, "")` with a string pattern: the first occurrence is removed. -/
def removeFirst (pat : List Char) : List Char → List Char
  | [] => []
  | c :: cs => if pat.isPrefixOf (c :: cs) then (c :: cs).drop pat.length else c :: removeFirst pat cs

/-- The message key of an option key: `key.replace("Msg", "")`. -/
def stripMsg (key : String) : String := String.mk (removeFirst "Msg".toList key.toList)

/-- The test `key.indexOf("Msg") >= 0`. -/
def hasMsg (key : String) : Bool := containsStr "Msg".toList key.toList

/-! ## The document -/

/-- A form control, as far as the validators observe it. `assigned` holds the plain
properties that a platform keeps for the control. -/
structure Control where
  name : String
  id : String
  type : String
  value : String
  checked : Bool
  required : Bool
  /-- Whether the platform's own constraints (pattern, required, type) hold. -/
  nativeValid : Bool
  /-- The message last given to `setCustomValidity`. -/
  customValidity : String
  assigned : Obj
  deriving DecidableEq

/-- The controls of the document, by handle. -/
abbrev Dom := Nat → Control

/-- The call `element.setCustomValidity(msg)`. -/
def setCustomValidity (dom : Dom) (el : Nat) (msg : String) : Dom :=
  Function.update dom el { dom el with customValidity := msg }

/-- The call `element.checkValidity()`: no native constraint is violated and no
custom validity message is set. -/
def checkValidity (dom : Dom) (el : Nat) : Bool :=
  (dom el).nativeValid && (dom el).customValidity == ""

/-- The platform's part in an assignment `element[key] = value`: the control after the
assignment, or `none` when the setter throws. The controls are not code of this
repository, so the constructors take it as a parameter. -/
abbrev PropertyWrite := Control → String → JSVal → Option Control

/-- The assignment `element[key] = value` on the platform `write`: the document after
it, or `none` when it throws. -/
def assignProp (write : PropertyWrite) (dom : Dom) (el : Nat) (key : String) (v : JSVal) :
    Option Dom :=
  (write (dom el) key v).map fun c => Function.update dom el c

/-- The assignments `element[key] = value` for the given pairs, in order; the first that
throws ends the sequence. -/
def assignAll (write : PropertyWrite) (dom : Dom) (el : Nat) : Obj → Option Dom
  | [] => some dom
  | o :: rest =>
    match assignProp write dom el o.1 o.2 with
    | some dom1 => assignAll write dom1 el rest
    | none => none

/-- Result of a call: a returned boolean, or a thrown `TypeError`. -/
inductive Outcome where
  | returned (b : Bool)
  | threw
  deriving DecidableEq

/-- The property `.name` of a value. -/
def propName (dom : Dom) : JSVal → JSVal
  | .control id => .str (dom id).name
  | .native name => .str name
  | _ => .undefined

/-- The property `.value` of a value. -/
def propValue (dom : Dom) : JSVal → JSVal
  | .control id => .str (dom id).value
  | _ => .undefined

/-! ## FormTextField -/

/-- A text field validator: the bound control, the control to match, the
requirements and the messages. -/
structure FormTextField where
  element : Nat
  «matches» : JSVal
  reqs : Obj
  msgs : Obj
  deriving DecidableEq

/-- The default requirements; `matchesName` is `this.matches.name`. -/
def FormTextField.defaultReqs (matchesName : JSVal) : Obj :=
  [("minLength", .num 0), ("maxLength", .num (-1)),
   ("minLetters", .num 0), ("maxLetters", .num (-1)),
   ("minUpperCase", .num 0), ("maxUpperCase", .num (-1)),
   ("minLowerCase", .num 0), ("maxLowerCase", .num (-1)),
   ("minNums", .num 0), ("maxNums", .num (-1)),
   ("minSymbols", .num 0), ("maxSymbols", .num (-1)),
   ("matches", matchesName)]

/-- The default error messages. -/
def FormTextField.defaultMsgs : Obj :=
  [("minLength", .str "This field must contain at least {minLength} character{s-minLength}."),
   ("maxLength", .str "This field cannot contain more than {maxLength} character{s-maxLength}."),
   ("minLetters", .str "This field must contain at least {minLetters} letter{s-minLetters}."),
   ("maxLetters", .str "This field cannot contain more than {maxLetters} letter{s-maxLetters}."),
   ("minUpperCase", .str "This field must contain at least {minUpperCase} uppercase letter{s-minUpperCase}."),
   ("maxUpperCase", .str "This field cannot contain more than {maxUpperCase} uppercase letter{s-maxUpperCase}."),
   ("minLowerCase", .str "This field must contain at least {minLowerCase} lowercase letter{s-minLowerCase}."),
   ("maxLowerCase", .str "This field cannot contain more than {maxLowerCase} lowercase letter{s-maxLowerCase}."),
   ("minNums", .str "This field must contain at least {minNums} digit{s-minNums}."),
   ("maxNums", .str "This field cannot contain more than {maxNums} digit{s-maxNums}."),
   ("minSymbols", .str "This field must contain at least {minSymbols} of the following: !@#$%^&*)(+=._-:"),
   ("maxSymbols", .str "This field cannot contain more than {maxSymbols} of the following: !@#$%^&*)(+=._-:"),
   ("matches", .str "This field must match the {matches} field.")]

/-- One turn of the constructor's `for (var key in options)` loop. The state is the
validator and the assignments `this.element[key] = options[key]` made so far; the
third branch makes one more. -/
def FormTextField.loadOption (st : FormTextField × Obj) (opt : String × JSVal) :
    FormTextField × Obj :=
  if typeof opt.2 == "number" && st.1.reqs.get opt.1 != .undefined && jsGe opt.2 (.num 0) then
    ({ st.1 with reqs := st.1.reqs.set opt.1 opt.2 }, st.2)
  else if typeof opt.2 == "string" && hasMsg opt.1
      && st.1.msgs.get (stripMsg opt.1) != .undefined then
    ({ st.1 with msgs := st.1.msgs.set (stripMsg opt.1) opt.2 }, st.2)
  else
    (st.1, st.2 ++ [opt])

/-- The object the constructor holds before it reads the options. -/
def FormTextField.init (dom : Dom) (element : Nat) (options : Obj) : FormTextField :=
  let target := if truthy (options.get "matches") then options.get "matches" else .control element
  { element := element
    «matches» := target
    reqs := FormTextField.defaultReqs (propName dom target)
    msgs := FormTextField.defaultMsgs }

/-- The constructor `new FormTextField(element, options, parent)`: the validator it
builds, and the assignments `element[key] = value` that it makes onto the control on
the way, in order. -/
def FormTextField.new (dom : Dom) (element : Nat) (options : Obj) : FormTextField × Obj :=
  options.foldl FormTextField.loadOption (FormTextField.init dom element options, [])

/-- The call `new FormTextField(element, options, parent)` on the platform `write`: the
validator and the document after its assignments, or `none` when one of them throws,
which ends the constructor. Nothing in the loop reads the control between two
assignments, so they are carried out here in their order. -/
def FormTextField.construct (write : PropertyWrite) (dom : Dom) (element : Nat)
    (options : Obj) : Option (FormTextField × Dom) :=
  (assignAll write dom element (FormTextField.new dom element options).2).map fun dom1 =>
    ((FormTextField.new dom element options).1, dom1)

/-! ### Message interpolation -/

/-- The class `[a-zA-Z\-]` of the placeholder pattern. -/
def isKeyChar (c : Char) : Bool :=
  ('a'.toNat ≤ c.toNat && c.toNat ≤ 'z'.toNat) || ('A'.toNat ≤ c.toNat && c.toNat ≤ 'Z'.toNat)
    || c == '-'

/-- A match of `/\{([a-zA-Z\-]*)\}/` at the start of the input: the captured key. -/
def matchPlaceholder : List Char → Option (List Char)
  | [] => none
  | c :: t =>
    if c == '{' then
      match t.dropWhile isKeyChar with
      | d :: _ => if d == '}' then some (t.takeWhile isKeyChar) else none
      | [] => none
    else none

/-- The call `s.replace(/\{([a-zA-Z\-]*)\}/g, cb)`: one pass from the left; `skip`
is the number of characters left in the match found last, so the search resumes
behind it. -/
def replacePlaceholders (cb : List Char → List Char) : List Char → Nat → List Char
  | [], _ => []
  | _ :: t, skip + 1 => replacePlaceholders cb t skip
  | c :: t, 0 =>
    match matchPlaceholder (c :: t) with
    | some key => cb key ++ replacePlaceholders cb t (key.length + 1)
    | none => c :: replacePlaceholders cb t 0

/-- The replace callback of `parseMsg`; running off its end returns `undefined`. -/
def resolveKey (reqs : Obj) (key : List Char) : JSVal :=
  if reqs.has (String.mk key) then reqs.get (String.mk key)
  else if "s-".toList.isPrefixOf key then
    (if jsGt (reqs.get (String.mk (key.drop 2))) (.num 1) then .str "s" else .str "")
  else .undefined

/-- The template with every placeholder replaced by the string form of what the
callback returns. -/
def interpolate (reqs : Obj) (template : List Char) : List Char :=
  replacePlaceholders (fun key => (toStr (resolveKey reqs key)).toList) template 0

/-- The method `parseMsg(setting)` of the three validators that have one; `none`
is the `TypeError` of calling `.replace` on a message that is not a string. -/
def parseMsg (reqs msgs : Obj) (setting : String) : Option String :=
  match msgs.get setting with
  | .str template => some (String.mk (interpolate reqs template.toList))
  | _ => none

/-! ### Validation of a text field -/

/-- The class `[A-Z]`. -/
def isUpperCase (c : Char) : Bool := 'A'.toNat ≤ c.toNat && c.toNat ≤ 'Z'.toNat

/-- The class `[a-z]`. -/
def isLowerCase (c : Char) : Bool := 'a'.toNat ≤ c.toNat && c.toNat ≤ 'z'.toNat

/-- The class `[a-zA-Z]`. -/
def isLetter (c : Char) : Bool := isLowerCase c || isUpperCase c

/-- The class `[0-9]`. -/
def isNum (c : Char) : Bool := '0'.toNat ≤ c.toNat && c.toNat ≤ '9'.toNat

/-- The class `[!@#:\$%\^\&*\)\(+=_-]`. -/
def isSymbol (c : Char) : Bool :=
  c ∈ ['!', '@', '#', ':', '$', '%', '^', '&', '*', ')', '(', '+', '=', '_', '-']

/-- The effect of `val.replace(/^[.]/g, "")`: a dot at the very start is removed. -/
def stripLeadingDot : List Char → List Char
  | [] => []
  | c :: t => if c == '.' then t else c :: t

/-- The table `this.regex`, each pattern given by what `val.replace(pattern, "")` keeps. -/
def FormTextField.regex : List (String × (List Char → List Char)) :=
  [("Length", stripLeadingDot),
   ("Letters", List.filter isLetter),
   ("UpperCase", List.filter isUpperCase),
   ("LowerCase", List.filter isLowerCase),
   ("Nums", List.filter isNum),
   ("Symbols", List.filter isSymbol)]

/-- The loop `for (var key in this.regex)` of `validate`: the requirement that
fails first, if any. -/
def FormTextField.checkClasses (f : FormTextField) (val : List Char) :
    List (String × (List Char → List Char)) → Option String
  | [] => none
  | (key, keep) :: rest =>
    if jsLt (.num (jsLength (keep val))) (f.reqs.get ("min" ++ key)) then some ("min" ++ key)
    else if jsGt (.num (jsLength (keep val))) (f.reqs.get ("max" ++ key))
        && jsGt (f.reqs.get ("max" ++ key)) (.num (-1)) then some ("max" ++ key)
    else FormTextField.checkClasses f val rest

/-- The method `FormTextField.prototype.parseMsg`. -/
def FormTextField.parseMsg (f : FormTextField) (setting : String) : Option String :=
  FormValidator.parseMsg f.reqs f.msgs setting

/-- The statements `this.element.setCustomValidity(this.parseMsg(setting)); return false`. -/
def FormTextField.fail (f : FormTextField) (dom : Dom) (setting : String) : Outcome × Dom :=
  match f.parseMsg setting with
  | some msg => (.returned false, setCustomValidity dom f.element msg)
  | none => (.threw, dom)

/-- The comparison `s == v` for a string `s`. -/
def strLooseEq (s : String) : JSVal → Bool
  | .undefined => false
  | .null => false
  | .bool b => (strToNumber s).eq (.fin (if b then 1 else 0) 0)
  | .num n => (strToNumber s).eq (.fin n 0)
  | .str t => s == t
  | .control id => s == toStr (.control id)
  | .arr ids => s == toStr (.arr ids)
  | .native name => s == toStr (.native name)

/-- The method `FormTextField.prototype.validate`. -/
def FormTextField.validate (f : FormTextField) (dom : Dom) : Outcome × Dom :=
  let val := (dom f.element).value
  let dom1 := setCustomValidity dom f.element ""
  if !checkValidity dom1 f.element then (.returned false, dom1)
  else
    match f.checkClasses val.toList FormTextField.regex with
    | some setting => f.fail dom1 setting
    | none =>
      if !strLooseEq val (propValue dom1 f.«matches») then f.fail dom1 "matches"
      else (.returned true, dom1)

/-! ## Groups of controls -/

/-- The loop `for (i = 0; i < this.element.length; i++) this.element.item(i).setCustomValidity(msg)`
of both `setValidity` methods. -/
def setValidityAll (dom : Dom) (members : List Nat) (msg : String) : Dom :=
  members.foldl (fun d i => setCustomValidity d i msg) dom

/-! ## FormRadioButton -/

/-- A radio group validator: the members of the group in document order, the
assignments `this.element[key] = options[key]` made onto the group object, and the
settings. -/
structure FormRadioButton where
  element : List Nat
  assigned : Obj
  settings : Obj
  deriving DecidableEq

/-- The default settings of a radio group. -/
def FormRadioButton.defaultSettings : Obj :=
  [("required", .bool false), ("requiredMsg", .str "Please select an option")]

/-- One turn of the constructor's options loop. -/
def FormRadioButton.loadOption (f : FormRadioButton) (opt : String × JSVal) : FormRadioButton :=
  if f.settings.has opt.1 then { f with settings := f.settings.set opt.1 opt.2 }
  else { f with assigned := f.assigned.set opt.1 opt.2 }

/-- The constructor `new FormRadioButton(element, options, parent)`; `none` is the
`TypeError` of `this.element.item(0).name` on an empty group. -/
def FormRadioButton.new (element : List Nat) (options : Obj) : Option FormRadioButton :=
  match element with
  | [] => none
  | _ :: _ =>
    some (options.foldl FormRadioButton.loadOption
      { element := element, assigned := [], settings := FormRadioButton.defaultSettings })

/-- The method `FormRadioButton.prototype.setValidity`. -/
def FormRadioButton.setValidity (f : FormRadioButton) (dom : Dom) (msg : String) : Dom :=
  setValidityAll dom f.element msg

/-- The method `FormRadioButton.prototype.validate`. The log line before the
failure reads `this.element.item(0).name`, which throws on an empty group. -/
def FormRadioButton.validate (f : FormRadioButton) (dom : Dom) : Outcome × Dom :=
  let dom1 := f.setValidity dom ""
  if !truthy (f.settings.get "required") then (.returned true, dom1)
  else if f.element.any (fun i => (dom1 i).checked) then (.returned true, dom1)
  else
    match f.element with
    | [] => (.threw, dom1)
    | _ :: _ => (.returned false, f.setValidity dom1 (toStr (f.settings.get "requiredMsg")))

/-! ## FormCheckbox -/

/-- A checkbox group validator: the members of the group in document order, the
assignments `this.element[key] = options[key]` made onto the group object, the
requirements and the messages. -/
structure FormCheckbox where
  element : List Nat
  assigned : Obj
  reqs : Obj
  msgs : Obj
  deriving DecidableEq

/-- The default requirements of a checkbox group. -/
def FormCheckbox.defaultReqs : Obj :=
  [("required", .bool false), ("minSelect", .num 0), ("maxSelect", .num (-1))]

/-- The default messages of a checkbox group. -/
def FormCheckbox.defaultMsgs : Obj :=
  [("required", .str "Please select this checkbox."),
   ("minSelect", .str "You must select at least {minSelect} option{s-minSelect}."),
   ("maxSelect", .str "You cannot select more than {maxSelect} option{s-maxSelect}.")]

/-- One turn of the constructor's options loop. -/
def FormCheckbox.loadOption (f : FormCheckbox) (opt : String × JSVal) : FormCheckbox :=
  if f.reqs.has opt.1 then { f with reqs := f.reqs.set opt.1 opt.2 }
  else if hasMsg opt.1 && f.msgs.get (stripMsg opt.1) != .undefined then
    { f with msgs := f.msgs.set (stripMsg opt.1) opt.2 }
  else { f with assigned := f.assigned.set opt.1 opt.2 }

/-- The constructor `new FormCheckbox(element, options, parent)`; `none` is the
`TypeError` of `this.element.item(0).name` on an empty group. -/
def FormCheckbox.new (element : List Nat) (options : Obj) : Option FormCheckbox :=
  match element with
  | [] => none
  | _ :: _ =>
    some (options.foldl FormCheckbox.loadOption
      { element := element, assigned := [], reqs := FormCheckbox.defaultReqs,
        msgs := FormCheckbox.defaultMsgs })

/-- The method `FormCheckbox.prototype.parseMsg`; its log line reads
`this.element.item(0).name`. -/
def FormCheckbox.parseMsg (f : FormCheckbox) (setting : String) : Option String :=
  match FormValidator.parseMsg f.reqs f.msgs setting, f.element with
  | some msg, _ :: _ => some msg
  | _, _ => none

/-- The method `FormCheckbox.prototype.setValidity`. -/
def FormCheckbox.setValidity (f : FormCheckbox) (dom : Dom) (msg : String) : Dom :=
  setValidityAll dom f.element msg

/-- What the scan of the boxes does at an unchecked box: `none` to go on, or the
way the scan ends there. With `required` a string equal to the id of the box the
message goes onto that box; with `required` an array that lists the id the log
line calls `this.validator.item(0)`, which no validator has, and throws; with
`required` null, reading `.length` throws. -/
def FormCheckbox.atUnchecked (f : FormCheckbox) (dom : Dom) (box : Nat) : Option (Outcome × Dom) :=
  match f.reqs.get "required" with
  | .str r =>
    if r == (dom box).id then
      match f.parseMsg "required" with
      | some msg => some (.returned false, setCustomValidity dom box msg)
      | none => some (.threw, dom)
    else none
  | .arr ids => if ids.any (fun r => r == (dom box).id) then some (.threw, dom) else none
  | .null => some (.threw, dom)
  | _ => none

/-- The loop over the boxes in `validate`: the number of checked boxes, or the
way the scan ended early. -/
def FormCheckbox.scan (f : FormCheckbox) (dom : Dom) : List Nat → Nat → Sum (Outcome × Dom) Nat
  | [], numChecked => .inr numChecked
  | box :: rest, numChecked =>
    if (dom box).checked then FormCheckbox.scan f dom rest (numChecked + 1)
    else
      match f.atUnchecked dom box with
      | some stop => .inl stop
      | none => FormCheckbox.scan f dom rest numChecked

/-- The statements `this.setValidity(this.parseMsg(setting)); return false`,
after a log line that reads `this.element.item(0).name`. -/
def FormCheckbox.fail (f : FormCheckbox) (dom : Dom) (setting : String) : Outcome × Dom :=
  match f.parseMsg setting with
  | some msg => (.returned false, f.setValidity dom msg)
  | none => (.threw, dom)

/-- The method `FormCheckbox.prototype.validate`. -/
def FormCheckbox.validate (f : FormCheckbox) (dom : Dom) : Outcome × Dom :=
  let dom1 := f.setValidity dom ""
  match f.scan dom1 f.element 0 with
  | .inl stop => stop
  | .inr numChecked =>
    if jsLt (.num numChecked) (f.reqs.get "minSelect") then f.fail dom1 "minSelect"
    else if jsGe (f.reqs.get "maxSelect") (.num 0)
        && jsGt (.num numChecked) (f.reqs.get "maxSelect") then f.fail dom1 "maxSelect"
    else (.returned true, dom1)

/-! ## FormSelect -/

/-- A drop-down list validator. -/
structure FormSelect where
  element : Nat
  «matches» : JSVal
  reqs : Obj
  msgs : Obj
  deriving DecidableEq

/-- The default requirements of a drop-down list. -/
def FormSelect.defaultReqs : Obj := [("minVal", .num 0), ("maxVal", .num (-1))]

/-- The default messages of a drop-down list. -/
def FormSelect.defaultMsgs : Obj :=
  [("minVal", .str "The selected value is too low."),
   ("maxVal", .str "The selected value is too high.")]

/-- One turn of the constructor's options loop. The state is the validator and the
assignments `this.element[key] = options[key]` made so far. -/
def FormSelect.loadOption (st : FormSelect × Obj) (opt : String × JSVal) : FormSelect × Obj :=
  if st.1.reqs.has opt.1 then ({ st.1 with reqs := st.1.reqs.set opt.1 opt.2 }, st.2)
  else if hasMsg opt.1 && st.1.msgs.get (stripMsg opt.1) != .undefined then
    ({ st.1 with msgs := st.1.msgs.set (stripMsg opt.1) opt.2 }, st.2)
  else (st.1, st.2 ++ [opt])

/-- The constructor `new FormSelect(element, options, parent)`: the validator it builds,
and the assignments `element[key] = value` that it makes onto the control, in order.
The document is an argument as for the other constructors; this one reads nothing
from it. -/
def FormSelect.new (_dom : Dom) (element : Nat) (options : Obj) : FormSelect × Obj :=
  options.foldl FormSelect.loadOption
    ({ element := element
       «matches» := if truthy (options.get "matches") then options.get "matches" else .control element
       reqs := FormSelect.defaultReqs
       msgs := FormSelect.defaultMsgs }, [])

/-- The call `new FormSelect(element, options, parent)` on the platform `write`: the
validator and the document after its assignments, or `none` when one of them throws. -/
def FormSelect.construct (write : PropertyWrite) (dom : Dom) (element : Nat)
    (options : Obj) : Option (FormSelect × Dom) :=
  (assignAll write dom element (FormSelect.new dom element options).2).map fun dom1 =>
    ((FormSelect.new dom element options).1, dom1)

/-- The method `FormSelect.prototype.parseMsg`. -/
def FormSelect.parseMsg (f : FormSelect) (setting : String) : Option String :=
  FormValidator.parseMsg f.reqs f.msgs setting

/-- The statements `this.element.setCustomValidity(this.parseMsg(setting)); return false`. -/
def FormSelect.fail (f : FormSelect) (dom : Dom) (setting : String) : Outcome × Dom :=
  match f.parseMsg setting with
  | some msg => (.returned false, setCustomValidity dom f.element msg)
  | none => (.threw, dom)

/-- The method `FormSelect.prototype.validate`. -/
def FormSelect.validate (f : FormSelect) (dom : Dom) : Outcome × Dom :=
  let dom1 := setCustomValidity dom f.element ""
  let value := (dom1 f.element).value
  if (dom1 f.element).required && value == "" then
    (.returned false, setCustomValidity dom1 f.element "Please select an item in the list.")
  else if jsLt (.str value) (f.reqs.get "minVal") then f.fail dom1 "minVal"
  else if jsGe (f.reqs.get "maxVal") (.num 0) && jsGt (.str value) (f.reqs.get "maxVal") then
    f.fail dom1 "maxVal"
  else (.returned true, dom1)

/-! ## FormValidator -/

/-- A field validator of one of the four classes, as held in `this.items`. -/
inductive FieldValidator where
  | text (f : FormTextField)
  | radio (f : FormRadioButton)
  | checkbox (f : FormCheckbox)
  | select (f : FormSelect)
  deriving DecidableEq

/-- The call `this.items[item].validate()`. -/
def FieldValidator.validate : FieldValidator → Dom → Outcome × Dom
  | .text f, dom => f.validate dom
  | .radio f, dom => f.validate dom
  | .checkbox f, dom => f.validate dom
  | .select f, dom => f.validate dom

/-- The controls a field validator is bound to: `this.element`, or the members of
the group `this.element`. -/
def FieldValidator.controls : FieldValidator → List Nat
  | .text f => [f.element]
  | .radio f => f.element
  | .checkbox f => f.element
  | .select f => [f.element]

/-- What `form[key]` is when a control of the form has that name: a single element
without an `item` method (input, textarea, button), a single select element with
its number of options, or the node list of the controls sharing the name. Other
properties of the form object are outside the model. -/
inductive Bound where
  | input (c : Nat)
  | dropdown (c : Nat) (optionCount : Nat)
  | group (members : List Nat)
  deriving DecidableEq

/-- The property `.type` of `form[key]`; a node list has none. -/
def Bound.type (dom : Dom) : Bound → JSVal
  | .input c => .str (dom c).type
  | .dropdown c _ => .str (dom c).type
  | .group _ => .undefined

/-- The expression `form[key].item(0).type`. The outer `none` is the `TypeError` of
calling `item` on an element that has no such method, or of reading `.type` of the
null that `item(0)` returns on an empty list; an option element has no `type`. -/
def Bound.firstItemType (dom : Dom) : Bound → Option JSVal
  | .input _ => none
  | .dropdown _ 0 => none
  | .dropdown _ (_ + 1) => some .undefined
  | .group [] => none
  | .group (m :: _) => some (.str (dom m).type)

/-- The form validator: the logging threshold and the field validators in the
order of their creation. -/
structure FormValidator where
  state : Nat
  items : List FieldValidator
  deriving DecidableEq

/-- One turn of the loop `for (var key in options)` of the constructor of
FormValidator: the items and the document after it, or `none` when it throws. -/
def FormValidator.addField (write : PropertyWrite) (form : String → Option Bound)
    (st : List FieldValidator × Dom) (entry : String × Obj) :
    Option (List FieldValidator × Dom) :=
  match form entry.1 with
  | none => some st
  | some (.input c) =>
    if (st.2 c).type ∈ ["text", "email", "url", "password", "textarea"] then
      (FormTextField.construct write st.2 c entry.2).map fun r => (st.1 ++ [.text r.1], r.2)
    else none
  | some (.dropdown c optionCount) =>
    if (st.2 c).type ∈ ["text", "email", "url", "password", "textarea"] then
      (FormTextField.construct write st.2 c entry.2).map fun r => (st.1 ++ [.text r.1], r.2)
    else
      match Bound.firstItemType st.2 (.dropdown c optionCount) with
      | none => none
      | some _ =>
        if (st.2 c).type == "select-one" then
          (FormSelect.construct write st.2 c entry.2).map fun r => (st.1 ++ [.select r.1], r.2)
        else some st
  | some (.group members) =>
    match Bound.firstItemType st.2 (.group members) with
    | none => none
    | some t =>
      if t == .str "radio" then
        (FormRadioButton.new members entry.2).map fun f => (st.1 ++ [.radio f], st.2)
      else if t == .str "checkbox" then
        (FormCheckbox.new members entry.2).map fun f => (st.1 ++ [.checkbox f], st.2)
      else some st

/-- The loop `for (var key in options)` of the constructor of FormValidator. -/
def FormValidator.loadFields (write : PropertyWrite) (form : String → Option Bound) :
    List (String × Obj) → List FieldValidator × Dom → Option (List FieldValidator × Dom)
  | [], st => some st
  | entry :: rest, st =>
    match FormValidator.addField write form st entry with
    | some st' => FormValidator.loadFields write form rest st'
    | none => none

/-- The constructor `new FormValidator(element, options)` on the platform `write`: the
validator and the document after the constructors of the fields ran, or `none` when
it throws. -/
def FormValidator.new (write : PropertyWrite) (form : String → Option Bound) (dom : Dom)
    (options : List (String × Obj)) : Option (FormValidator × Dom) :=
  (FormValidator.loadFields write form options ([], dom)).map fun st =>
    ({ state := 0, items := st.1 }, st.2)

/-- The loop of `FormValidator.prototype.validate` over `this.items`. -/
def FormValidator.validateItems : List FieldValidator → Dom → Outcome × Dom
  | [], dom => (.returned true, dom)
  | item :: rest, dom =>
    match item.validate dom with
    | (.returned true, dom1) => FormValidator.validateItems rest dom1
    | (.returned false, dom1) => (.returned false, dom1)
    | (.threw, dom1) => (.threw, dom1)

/-- The method `FormValidator.prototype.validate`. -/
def FormValidator.validate (v : FormValidator) (dom : Dom) : Outcome × Dom :=
  FormValidator.validateItems v.items dom

/-- A control with its custom validity message forgotten: what is left are the
attributes a validator reads. -/
def eraseValidity (c : Control) : Control := { c with customValidity := "" }

/-- Two documents whose controls agree in every attribute except, possibly, the
custom validity message. -/
def sameInputs (d1 d2 : Dom) : Prop := ∀ i, eraseValidity (d1 i) = eraseValidity (d2 i)

/-- The document in which the controls `cs` carry the custom validity messages
`msgOf` and everything else is as in `dom`. -/
def withValidity (dom : Dom) (cs : List Nat) (msgOf : Nat → String) : Dom :=
  fun i => if i ∈ cs then { dom i with customValidity := msgOf i } else dom i

/-- The requirements of a text field in the order of the specification: classes
in declaration order, the minimum before the maximum, `matches` last. -/
def FormTextField.requirementOrder : List String :=
  ["minLength", "maxLength", "minLetters", "maxLetters", "minUpperCase", "maxUpperCase",
   "minLowerCase", "maxLowerCase", "minNums", "maxNums", "minSymbols", "maxSymbols", "matches"]

/-- Whether the value of the bound control violates the named requirement, in the
words of the specification: a minimum is violated when the measured length of the
class is below it, a maximum when it is bounded (greater than -1) and the measured
length exceeds it, `matches` when the value differs from that of the matched
control. The length of a class is measured as `validate` measures it. -/
def FormTextField.violated (f : FormTextField) (dom : Dom) (requirement : String) : Bool :=
  if requirement == "matches" then
    !strLooseEq (dom f.element).value (propValue dom f.«matches»)
  else
    match FormTextField.regex.find? (fun C => requirement == "min" ++ C.1) with
    | some C => jsLt (.num (jsLength (C.2 (dom f.element).value.toList))) (f.reqs.get requirement)
    | none =>
      match FormTextField.regex.find? (fun C => requirement == "max" ++ C.1) with
      | some C =>
        jsGt (f.reqs.get requirement) (.num (-1))
          && jsGt (.num (jsLength (C.2 (dom f.element).value.toList))) (f.reqs.get requirement)
      | none => false

/-- The first violated requirement in the order of the specification. -/
def FormTextField.firstViolation (f : FormTextField) (dom : Dom) : Option String :=
  FormTextField.requirementOrder.find? (f.violated dom)

/-- Whether the constructor of FormTextField, holding the validator `f`, takes the
option as a numeric override of a requirement or as a string override of a
message; every other option is passed through to the control. -/
def FormTextField.accepts (f : FormTextField) (opt : String × JSVal) : Bool :=
  (typeof opt.2 == "number" && f.reqs.get opt.1 != .undefined && jsGe opt.2 (.num 0))
    || (typeof opt.2 == "string" && hasMsg opt.1 && f.msgs.get (stripMsg opt.1) != .undefined)

/-- The five character classes in the words of the specification: the name of
each with the characters it counts. -/
def charClasses : List (String × (Char → Bool)) :=
  [("Letters", isLetter), ("UpperCase", isUpperCase), ("LowerCase", isLowerCase),
   ("Nums", isNum), ("Symbols", isSymbol)]

/-- The number of checked members of a group. -/
def checkedCount (dom : Dom) (members : List Nat) : Nat :=
  members.countP (fun i => (dom i).checked)

/-- An empty, valid text input. -/
def blankControl : Control :=
  { name := "", id := "", type := "text", value := "", checked := false, required := false,
    nativeValid := true, customValidity := "", assigned := [] }

/-- A document in which every control is a valid text input holding `value`. -/
def textDom (value : String) : Dom := fun _ => { blankControl with value := value }

/-- A document with the field `password` at handle 0 and the field `confirm` at
every other handle. -/
def pairDom (password confirm : String) : Dom := fun i =>
  match i with
  | 0 => { blankControl with name := "password", value := password }
  | _ => { blankControl with name := "confirm", value := confirm }

/-- A document with the boxes `opt1`, `opt2`, `opt3` at the handles 0, 1 and 2. -/
def boxDom (a b c : Bool) : Dom := fun i =>
  match i with
  | 0 => { blankControl with id := "opt1", type := "checkbox", checked := a }
  | 1 => { blankControl with id := "opt2", type := "checkbox", checked := b }
  | _ => { blankControl with id := "opt3", type := "checkbox", checked := c }

/-- A form with the control `age` of type `number` at handle 0 and the text
control `name` at every other handle. -/
def mixedDom : Dom := fun i =>
  match i with
  | 0 => { blankControl with name := "age", type := "number" }
  | _ => { blankControl with name := "name" }

/-- The lookup of `mixedDom` by name: `age` and `name` are single controls. -/
def mixedForm : String → Option Bound := fun key =>
  if key == "age" then some (.input 0) else if key == "name" then some (.input 1) else none

/-- A form whose only control, named `agree`, is a lone checkbox at handle 0. -/
def agreeForm : String → Option Bound := fun key =>
  if key == "agree" then some (.input 0) else none

/-- A platform for the examples. As on an HTML input element, the setters of `maxLength`
and `minLength` throw when the number, taken as a 32 bit integer, is negative; every
other assignment is kept as a plain property of the control. It says nothing of the
setters of other attributes. -/
def strictLengths : PropertyWrite := fun c key v =>
  match v with
  | .num n =>
    if (key == "maxLength" || key == "minLength") && decide (2147483648 ≤ n % 4294967296) then none
    else some { c with assigned := c.assigned.set key v }
  | _ => some { c with assigned := c.assigned.set key v }

/-- The twelve numeric requirement keys with their defaults. -/
def FormTextField.numericDefaults : List (String × Int) :=
  [("minLength", 0), ("maxLength", -1), ("minLetters", 0), ("maxLetters", -1),
   ("minUpperCase", 0), ("maxUpperCase", -1), ("minLowerCase", 0), ("maxLowerCase", -1),
   ("minNums", 0), ("maxNums", -1), ("minSymbols", 0), ("maxSymbols", -1)]

/-- The merge rule in the words of the specification: a numeric override that is
at least 0 replaces the default, anything else leaves it. -/
def mergedReq (options : Obj) (k : String) (dflt : JSVal) : JSVal :=
  match options.lookup k with
  | some (.num n) => if 0 ≤ n then .num n else dflt
  | _ => dflt

end FormValidator

/-! # Theorems -/

namespace FormValidator

/-! ## Values and plain objects -/

theorem typeof_number_iff (v : JSVal) : (typeof v == "number") = true ↔ ∃ n, v = .num n := by
  cases v <;> simp [typeof]

theorem typeof_string_iff (v : JSVal) : (typeof v == "string") = true ↔ ∃ s, v = .str s := by
  cases v <;> simp [typeof]

theorem Num.lt_integers (a b : Int) : (Num.fin a 0).lt (.fin b 0) = some (decide (a < b)) := by
  simp [Num.lt]

theorem Num.eq_integers (a b : Int) : (Num.fin a 0).eq (.fin b 0) = decide (a = b) := by
  simp [Num.eq]

theorem jsGe_num (a b : Int) : jsGe (.num a) (.num b) = decide (b ≤ a) := by
  by_cases h : b ≤ a
  · have h' : ¬ a < b := not_lt.mpr h
    simp [jsGe, jsLess, toPrimitive, toNumber, Num.lt_integers, h, h']
  · have h' : a < b := not_le.mp h
    simp [jsGe, jsLess, toPrimitive, toNumber, Num.lt_integers, h, h']

theorem jsLt_num (a b : Int) : jsLt (.num a) (.num b) = decide (a < b) := by
  simp [jsLt, jsLess, toPrimitive, toNumber, Num.lt_integers]

theorem jsGt_num (a b : Int) : jsGt (.num a) (.num b) = decide (b < a) := by
  simp [jsGt, jsLess, toPrimitive, toNumber, Num.lt_integers]

theorem lookup_cons_ne {k' k0 : String} (v0 : JSVal) (rest : Obj) (h : ¬ k' = k0) :
    List.lookup k' ((k0, v0) :: rest) = List.lookup k' rest := by
  have hb : (k' == k0) = false := by simp [h]
  simp [List.lookup_cons, hb]

theorem lookup_cons_eq (k0 : String) (v0 : JSVal) (rest : Obj) :
    List.lookup k0 ((k0, v0) :: rest) = some v0 := by
  simp [List.lookup_cons]

theorem lookup_none_of_not_mem (o : Obj) (k : String) (h : k ∉ o.keys) : o.lookup k = none := by
  induction o with
  | nil => rfl
  | cons p rest ih =>
    obtain ⟨k0, v0⟩ := p
    simp only [Obj.keys, List.map_cons, List.mem_cons, not_or] at h
    rw [lookup_cons_ne _ _ h.1]
    exact ih h.2

theorem Obj.lookup_set (o : Obj) (k : String) (v : JSVal) (k' : String) :
    (Obj.set o k v).lookup k' = if k' = k then some v else o.lookup k' := by
  induction o with
  | nil =>
    by_cases h : k' = k
    · subst h; simp [Obj.set, lookup_cons_eq]
    · simp [Obj.set, lookup_cons_ne _ _ h, h]
  | cons p rest ih =>
    obtain ⟨k0, v0⟩ := p
    by_cases h0 : k0 = k
    · subst h0
      by_cases h : k' = k0
      · subst h; simp [Obj.set, lookup_cons_eq]
      · simp [Obj.set, lookup_cons_ne _ _ h, h]
    · by_cases h1 : k' = k0
      · subst h1
        simp [Obj.set, lookup_cons_eq, h0]
      · simp [Obj.set, lookup_cons_ne _ _ h1, h0, ih]

theorem Obj.get_set (o : Obj) (k : String) (v : JSVal) (k' : String) :
    (Obj.set o k v).get k' = if k' = k then v else o.get k' := by
  unfold Obj.get
  rw [Obj.lookup_set]
  by_cases h : k' = k <;> simp [h]

theorem Obj.has_set (o : Obj) (k : String) (v : JSVal) (k' : String) :
    (Obj.set o k v).has k' = (o.has k' || k' == k) := by
  unfold Obj.has
  rw [Obj.lookup_set]
  by_cases h : k' = k <;> simp [h]

theorem Obj.has_of_get_ne_undefined (o : Obj) (k : String) (h : o.get k ≠ .undefined) :
    o.has k = true := by
  unfold Obj.get at h
  unfold Obj.has
  cases h1 : o.lookup k with
  | some v => simp
  | none =>
    rw [h1] at h
    cases h2 : objectPrototype.lookup k with
    | some v => simp
    | none => rw [h2] at h; exact absurd rfl h

/-! ## The constructor of FormTextField -/

theorem accepts_iff (v g : JSVal) :
    (typeof v == "number" && g != .undefined && jsGe v (.num 0)) = true ↔
      g ≠ .undefined ∧ ∃ n, v = .num n ∧ 0 ≤ n := by
  constructor
  · intro h
    simp only [Bool.and_eq_true, bne_iff_ne, ne_eq] at h
    obtain ⟨⟨h1, h2⟩, h3⟩ := h
    obtain ⟨n, rfl⟩ := (typeof_number_iff v).mp h1
    rw [jsGe_num] at h3
    exact ⟨h2, n, rfl, of_decide_eq_true h3⟩
  · rintro ⟨h2, n, rfl, hn⟩
    simp only [Bool.and_eq_true, bne_iff_ne, ne_eq]
    exact ⟨⟨(typeof_number_iff _).mpr ⟨n, rfl⟩, h2⟩, by rw [jsGe_num]; exact decide_eq_true hn⟩

theorem FormTextField.loadOption_reqs_pos (st : FormTextField × Obj) (opt : String × JSVal)
    (h : st.1.reqs.get opt.1 ≠ .undefined ∧ ∃ n, opt.2 = .num n ∧ 0 ≤ n) :
    (FormTextField.loadOption st opt).1.reqs = st.1.reqs.set opt.1 opt.2 := by
  unfold FormTextField.loadOption
  rw [if_pos ((accepts_iff _ _).mpr h)]

theorem FormTextField.loadOption_reqs_neg (st : FormTextField × Obj) (opt : String × JSVal)
    (h : ¬ (st.1.reqs.get opt.1 ≠ .undefined ∧ ∃ n, opt.2 = .num n ∧ 0 ≤ n)) :
    (FormTextField.loadOption st opt).1.reqs = st.1.reqs := by
  unfold FormTextField.loadOption
  rw [if_neg (fun h' => h ((accepts_iff _ _).mp h'))]
  split <;> rfl

theorem FormTextField.loadOption_reqs_get_ne (st : FormTextField × Obj) (opt : String × JSVal)
    (k : String) (hk : ¬ k = opt.1) :
    (FormTextField.loadOption st opt).1.reqs.get k = st.1.reqs.get k := by
  by_cases h : st.1.reqs.get opt.1 ≠ .undefined ∧ ∃ n, opt.2 = .num n ∧ 0 ≤ n
  · rw [FormTextField.loadOption_reqs_pos st opt h, Obj.get_set, if_neg hk]
  · rw [FormTextField.loadOption_reqs_neg st opt h]

theorem FormTextField.fold_reqs_get (opts : Obj) (st : FormTextField × Obj) (k : String)
    (hnd : opts.keys.Nodup) (hdef : st.1.reqs.get k ≠ .undefined) :
    (opts.foldl FormTextField.loadOption st).1.reqs.get k = mergedReq opts k (st.1.reqs.get k) := by
  induction opts generalizing st with
  | nil => simp [mergedReq]
  | cons p t ih =>
    obtain ⟨k0, v0⟩ := p
    simp only [Obj.keys, List.map_cons, List.nodup_cons] at hnd
    rw [List.foldl_cons]
    by_cases hk : k0 = k
    · subst hk
      have hnone : t.lookup k0 = none := lookup_none_of_not_mem t k0 hnd.1
      by_cases hacc : ∃ n, v0 = JSVal.num n ∧ 0 ≤ n
      · have hstep := FormTextField.loadOption_reqs_pos st (k0, v0) ⟨hdef, hacc⟩
        obtain ⟨n, rfl, hn⟩ := hacc
        have hget : (FormTextField.loadOption st (k0, .num n)).1.reqs.get k0 = .num n := by
          rw [hstep, Obj.get_set, if_pos rfl]
        rw [ih _ hnd.2 (by rw [hget]; simp), hget]
        simp [mergedReq, hnone, lookup_cons_eq, hn]
      · have hstep := FormTextField.loadOption_reqs_neg st (k0, v0) (fun h => hacc h.2)
        have hget : (FormTextField.loadOption st (k0, v0)).1.reqs.get k0 = st.1.reqs.get k0 := by
          rw [hstep]
        rw [ih _ hnd.2 (by rw [hget]; exact hdef), hget]
        simp only [mergedReq, hnone, lookup_cons_eq]
        cases v0 with
        | num n =>
          have hn : ¬ 0 ≤ n := fun h => hacc ⟨n, rfl, h⟩
          simp [hn]
        | _ => rfl
    · have hk' : ¬ k = k0 := fun h => hk h.symm
      have hget := FormTextField.loadOption_reqs_get_ne st (k0, v0) k hk'
      rw [ih _ hnd.2 (by rw [hget]; exact hdef), hget]
      simp only [mergedReq, lookup_cons_ne _ _ hk']

theorem FormTextField.init_reqs_get (dom : Dom) (el : Nat) (options : Obj) (k : String) (d : Int)
    (hk : (k, d) ∈ FormTextField.numericDefaults) :
    (FormTextField.init dom el options).reqs.get k = .num d := by
  simp only [FormTextField.numericDefaults, List.mem_cons, Prod.mk.injEq, List.mem_singleton,
    List.not_mem_nil, or_false] at hk
  rcases hk with h | h | h | h | h | h | h | h | h | h | h | h <;> obtain ⟨rfl, rfl⟩ := h <;> rfl

/-- The merge of the constructor on the twelve numeric requirement keys: with
pairwise distinct option keys, `reqs[k]` ends as the override when that is a
number at least 0 and as the default in every other case. -/
theorem FormTextField.new_reqs_get (dom : Dom) (el : Nat) (options : Obj) (k : String) (d : Int)
    (hk : (k, d) ∈ FormTextField.numericDefaults) (hnd : options.keys.Nodup) :
    (FormTextField.new dom el options).1.reqs.get k = mergedReq options k (.num d) := by
  unfold FormTextField.new
  have h0 := FormTextField.init_reqs_get dom el options k d hk
  rw [FormTextField.fold_reqs_get options _ k hnd (by rw [h0]; simp), h0]

/-- C1 (code defect): the key set of `reqs` does not stay the default key set.
The test `this.reqs[key] !== undefined` also succeeds for a name inherited from
`Object.prototype`, so the option `toString: 1` is stored as a fourteenth
requirement key. -/
theorem C1_inherited_name_adds_requirement_key :
    (FormTextField.new (textDom "") 0 [("toString", .num 1)]).1.reqs.keys
        = (FormTextField.defaultReqs (.str "")).keys ++ ["toString"]
      ∧ "toString" ∉ (FormTextField.defaultReqs (.str "")).keys
      ∧ (FormTextField.new (textDom "") 0 [("toString", .num 1)]).1.reqs.get "toString"
        = .num 1 := by
  decide

/-! ## The constructors of FormCheckbox and FormSelect -/

/-- C2 (code defect): with a negative override the constructors of FormCheckbox and
FormSelect do not retain the default. Their merge `if (key in this.reqs)
this.reqs[key] = options[key]` stores -1 under `minSelect` and `minVal` in place of
the default 0, and -2 under `maxSelect` and `maxVal` in place of the default -1,
whereas the merge of FormTextField, which tests `options[key] >= 0`, keeps the
default 0 of `minLength` for the override -1. -/
theorem C2_negative_override_is_stored :
    (FormCheckbox.new [0] [("minSelect", .num (-1))]).map (fun f => f.reqs.get "minSelect")
        = some (.num (-1))
      ∧ (FormCheckbox.new [0] [("maxSelect", .num (-2))]).map (fun f => f.reqs.get "maxSelect")
        = some (.num (-2))
      ∧ (FormSelect.new (textDom "") 0 [("minVal", .num (-1))]).1.reqs.get "minVal"
        = .num (-1)
      ∧ (FormSelect.new (textDom "") 0 [("maxVal", .num (-2))]).1.reqs.get "maxVal"
        = .num (-2)
      ∧ FormCheckbox.defaultReqs.get "minSelect" = .num 0
      ∧ FormCheckbox.defaultReqs.get "maxSelect" = .num (-1)
      ∧ FormSelect.defaultReqs.get "minVal" = .num 0
      ∧ FormSelect.defaultReqs.get "maxVal" = .num (-1)
      ∧ (FormTextField.new (textDom "") 0 [("minLength", .num (-1))]).1.reqs.get "minLength"
        = .num 0 := by
  decide

/-! ## Message interpolation -/

theorem replacePlaceholders_skip (cb : List Char → List Char) (xs rest : List Char) :
    replacePlaceholders cb (xs ++ rest) xs.length = replacePlaceholders cb rest 0 := by
  induction xs with
  | nil => rfl
  | cons x xs ih => simpa [replacePlaceholders] using ih

theorem matchPlaceholder_braced (key rest : List Char) (hkey : ∀ c ∈ key, isKeyChar c = true) :
    matchPlaceholder ('{' :: (key ++ '}' :: rest)) = some key := by
  have hd : List.dropWhile isKeyChar (key ++ '}' :: rest) = '}' :: rest := by
    rw [List.dropWhile_append_of_pos hkey]
    rfl
  have ht : List.takeWhile isKeyChar (key ++ '}' :: rest) = key := by
    rw [List.takeWhile_append_of_pos hkey]
    simp [List.takeWhile_cons, show isKeyChar '}' = false from by decide]
  simp [matchPlaceholder, hd, ht]

theorem matchPlaceholder_some (s key : List Char) (h : matchPlaceholder s = some key) :
    ∃ rest, (∀ c ∈ key, isKeyChar c = true) ∧ s = '{' :: (key ++ '}' :: rest) := by
  cases s with
  | nil => simp [matchPlaceholder] at h
  | cons c t =>
    unfold matchPlaceholder at h
    by_cases hc : c = '{'
    · subst hc
      simp only [beq_self_eq_true, if_true] at h
      cases hd : List.dropWhile isKeyChar t with
      | nil => rw [hd] at h; simp at h
      | cons d r =>
        rw [hd] at h
        by_cases hdc : d = '}'
        · subst hdc
          simp only [beq_self_eq_true, if_true, Option.some.injEq] at h
          refine ⟨r, ?_, ?_⟩
          · intro x hx
            rw [← h] at hx
            exact List.mem_takeWhile_imp hx
          · rw [← h, ← hd, List.takeWhile_append_dropWhile]
        · simp [hdc] at h
    · simp [hc] at h

theorem replacePlaceholders_braced (cb : List Char → List Char) (key rest : List Char)
    (hkey : ∀ c ∈ key, isKeyChar c = true) :
    replacePlaceholders cb ('{' :: (key ++ '}' :: rest)) 0
      = cb key ++ replacePlaceholders cb rest 0 := by
  have hskip := replacePlaceholders_skip cb (key ++ ['}']) rest
  simp only [List.append_assoc, List.singleton_append, List.length_append, List.length_singleton]
    at hskip
  rw [replacePlaceholders, matchPlaceholder_braced key rest hkey]
  simp only [hskip]

theorem replacePlaceholders_plain (cb : List Char → List Char) (c : Char) (rest : List Char)
    (h : ¬ ∃ key rest', (∀ x ∈ key, isKeyChar x = true) ∧ c :: rest = '{' :: (key ++ '}' :: rest')) :
    replacePlaceholders cb (c :: rest) 0 = c :: replacePlaceholders cb rest 0 := by
  cases hm : matchPlaceholder (c :: rest) with
  | none => rw [replacePlaceholders, hm]
  | some key =>
    obtain ⟨rest', hk, hs⟩ := matchPlaceholder_some _ _ hm
    exact absurd ⟨key, rest', hk, hs⟩ h

theorem replacePlaceholders_no_brace (cb : List Char → List Char) (t : List Char)
    (h : '{' ∉ t) : replacePlaceholders cb t 0 = t := by
  induction t with
  | nil => rfl
  | cons c rest ih =>
    simp only [List.mem_cons, not_or] at h
    rw [replacePlaceholders_plain cb c rest, ih h.2]
    rintro ⟨key, rest', -, hs⟩
    simp only [List.cons.injEq] at hs
    exact h.1 hs.1.symm

theorem replacePlaceholders_no_placeholder (cb : List Char → List Char) (t : List Char)
    (h : ∀ pre key post, (∀ x ∈ key, isKeyChar x = true) → t ≠ pre ++ '{' :: (key ++ '}' :: post)) :
    replacePlaceholders cb t 0 = t := by
  induction t with
  | nil => rfl
  | cons c rest ih =>
    rw [replacePlaceholders_plain cb c rest, ih]
    · intro pre key post hk hs
      exact h (c :: pre) key post hk (by rw [hs]; rfl)
    · rintro ⟨key, rest', hk, hs⟩
      exact h [] key rest' hk hs

/-- C3: `parseMsg` interpolates the message template in one pass from the left.
A placeholder `{id}` whose id is a key of `reqs` becomes the string form of
`reqs[id]`; otherwise, when the id starts with `s-`, it becomes `s` when the
requirement named behind the prefix is greater than 1 (2 gives `s`; 1, 0, -1 and
an absent key give nothing); a character that starts no placeholder is copied;
so a template without a placeholder is returned unchanged. -/
theorem C3_parseMsg_resolves_placeholders (reqs : Obj) :
    (∀ msgs setting template, Obj.get msgs setting = .str template →
        parseMsg reqs msgs setting = some (String.mk (interpolate reqs template.toList)))
    ∧ (∀ key rest : List Char, (∀ c ∈ key, isKeyChar c = true) →
        reqs.has (String.mk key) = true →
        interpolate reqs ('{' :: (key ++ '}' :: rest))
          = (toStr (reqs.get (String.mk key))).toList ++ interpolate reqs rest)
    ∧ (∀ name rest : List Char, (∀ c ∈ name, isKeyChar c = true) →
        reqs.has (String.mk ('s' :: '-' :: name)) = false →
        interpolate reqs ('{' :: ('s' :: '-' :: name ++ '}' :: rest))
          = (if jsGt (reqs.get (String.mk name)) (.num 1) then "s" else "").toList
              ++ interpolate reqs rest)
    ∧ (∀ n : Int, jsGt (.num n) (.num 1) = decide (1 < n))
    ∧ (∀ name : String, reqs.has name = false → jsGt (reqs.get name) (.num 1) = false)
    ∧ (∀ c rest, (¬ ∃ key rest', (∀ x ∈ key, isKeyChar x = true)
          ∧ c :: rest = '{' :: (key ++ '}' :: rest')) →
        interpolate reqs (c :: rest) = c :: interpolate reqs rest)
    ∧ interpolate reqs [] = []
    ∧ (∀ t, (∀ pre key post, (∀ x ∈ key, isKeyChar x = true) →
          t ≠ pre ++ '{' :: (key ++ '}' :: post)) →
        interpolate reqs t = t) := by
  refine ⟨?_, ?_, ?_, ?_, ?_, ?_, rfl, ?_⟩
  · intro msgs setting template h
    simp only [parseMsg, h]
  · intro key rest hkey hhas
    unfold interpolate
    rw [replacePlaceholders_braced _ key rest hkey]
    simp only [resolveKey, hhas, if_true]
  · intro name rest hname hhas
    have hkey : ∀ c ∈ 's' :: '-' :: name, isKeyChar c = true := by
      intro c hc
      simp only [List.mem_cons] at hc
      rcases hc with rfl | rfl | hc
      · decide
      · decide
      · exact hname c hc
    unfold interpolate
    have hb := replacePlaceholders_braced
      (fun key => (toStr (resolveKey reqs key)).toList) ('s' :: '-' :: name) rest hkey
    simp only [List.cons_append] at hb ⊢
    rw [hb]
    have hpre : "s-".toList.isPrefixOf ('s' :: '-' :: name) = true := by
      simp [List.isPrefixOf]
    congr 1
    by_cases hg : jsGt (reqs.get (String.mk name)) (.num 1) = true
    · simp [resolveKey, hhas, hpre, hg, toStr]
    · simp [resolveKey, hhas, hpre, hg, toStr]
  · intro n
    exact jsGt_num n 1
  · intro name hhas
    have h1 : reqs.lookup name = none := by
      unfold Obj.has at hhas
      cases h : reqs.lookup name <;> simp_all
    have h2 : objectPrototype.lookup name = none := by
      unfold Obj.has at hhas
      cases h : objectPrototype.lookup name <;> simp_all
    simp [Obj.get, h1, h2, jsGt, jsLess, toPrimitive, toNumber, Num.lt]
  · intro c rest h
    exact replacePlaceholders_plain _ c rest h
  · intro t h
    exact replacePlaceholders_no_placeholder _ t h

theorem C3_parseMsg_resolves_placeholders_witness :
    (∀ c ∈ "minLength".toList, isKeyChar c = true)
      ∧ Obj.has [("minLength", .num 2)] (String.mk "minLength".toList) = true
      ∧ interpolate [("minLength", .num 2)] ('{' :: ("minLength".toList ++ '}' :: " units".toList))
          = (toStr (Obj.get [("minLength", .num 2)] (String.mk "minLength".toList))).toList
              ++ interpolate [("minLength", .num 2)] " units".toList :=
  ⟨by decide, by decide,
    (C3_parseMsg_resolves_placeholders [("minLength", .num 2)]).2.1 "minLength".toList
      " units".toList (by decide) (by decide)⟩

/-- C4 (code defect): a placeholder that resolves to nothing is not removed. The
replace callback runs off its end and returns `undefined`, which `replace` inserts
as the text `undefined`: the template `a{foo}b` resolves to `aundefinedb`, and a
text field failing `minLength` under that message shows it to the user. -/
theorem C4_unresolvable_placeholder_prints_undefined :
    interpolate (FormTextField.defaultReqs (.str "")) "a{foo}b".toList = "aundefinedb".toList
      ∧ interpolate (FormTextField.defaultReqs (.str "")) "a{}b".toList = "aundefinedb".toList
      ∧ interpolate FormCheckbox.defaultReqs "a{foo}b".toList = "aundefinedb".toList
      ∧ (FormTextField.validate
            (FormTextField.new (textDom "") 0
              [("minLength", .num 8), ("minLengthMsg", .str "a{foo}b")]).1
            (textDom "pw")).1 = .returned false
      ∧ ((FormTextField.validate
            (FormTextField.new (textDom "") 0
              [("minLength", .num 8), ("minLengthMsg", .str "a{foo}b")]).1
            (textDom "pw")).2 0).customValidity
          = "aundefinedb" := by
  decide

/-! ## Validation of a text field -/

/-- C5 (code defect): the Length rule does not count the raw length. Its pattern
`/^[.]/g` removes a dot at the start of the value before the length is taken:
`.a` fails `minLength = 2` although its length is 2, and `.ab` passes
`maxLength = 2` although its length is 3. The two examples of the specification
behave as it says. -/
theorem C5_length_rule_drops_leading_dot :
    (jsLength ".a".toList = 2
      ∧ (FormTextField.validate
          (FormTextField.new (textDom "") 0 [("minLength", .num 2)]).1
          (textDom ".a")).1 = .returned false)
    ∧ (jsLength ".ab".toList = 3
      ∧ (FormTextField.validate
          (FormTextField.new (textDom "") 0 [("maxLength", .num 2)]).1
          (textDom ".ab")).1 = .returned true)
    ∧ (FormTextField.validate
          (FormTextField.new (textDom "") 0
            [("minLength", .num 8), ("minUpperCase", .num 1), ("minNums", .num 1),
             ("minSymbols", .num 1)]).1
          (textDom "Password1!")).1 = .returned true
    ∧ (FormTextField.validate
          (FormTextField.new (textDom "") 0 [("minLength", .num 8)]).1
          (textDom "pw")).1 = .returned false := by
  decide

theorem FormTextField.loadOption_reqs_has (st : FormTextField × Obj) (opt : String × JSVal)
    (k : String) : (FormTextField.loadOption st opt).1.reqs.has k = st.1.reqs.has k := by
  by_cases h : st.1.reqs.get opt.1 ≠ .undefined ∧ ∃ n, opt.2 = .num n ∧ 0 ≤ n
  · rw [FormTextField.loadOption_reqs_pos st opt h, Obj.has_set]
    by_cases hk : k = opt.1
    · subst hk
      simp [Obj.has_of_get_ne_undefined _ _ h.1]
    · simp [hk]
  · rw [FormTextField.loadOption_reqs_neg st opt h]

theorem FormTextField.fold_reqs_has (opts : Obj) (st : FormTextField × Obj) (k : String) :
    (opts.foldl FormTextField.loadOption st).1.reqs.has k = st.1.reqs.has k := by
  induction opts generalizing st with
  | nil => rfl
  | cons p t ih => rw [List.foldl_cons, ih, FormTextField.loadOption_reqs_has]

theorem FormTextField.loadOption_element (st : FormTextField × Obj) (opt : String × JSVal) :
    (FormTextField.loadOption st opt).1.element = st.1.element
      ∧ (FormTextField.loadOption st opt).1.«matches» = st.1.«matches» := by
  unfold FormTextField.loadOption
  split
  · exact ⟨rfl, rfl⟩
  · split
    · exact ⟨rfl, rfl⟩
    · exact ⟨rfl, rfl⟩

theorem FormTextField.fold_element (opts : Obj) (st : FormTextField × Obj) :
    (opts.foldl FormTextField.loadOption st).1.element = st.1.element
      ∧ (opts.foldl FormTextField.loadOption st).1.«matches» = st.1.«matches» := by
  induction opts generalizing st with
  | nil => exact ⟨rfl, rfl⟩
  | cons p t ih =>
    rw [List.foldl_cons]
    exact ⟨(ih _).1.trans (FormTextField.loadOption_element st p).1,
      (ih _).2.trans (FormTextField.loadOption_element st p).2⟩

theorem FormTextField.new_element (dom : Dom) (el : Nat) (options : Obj) :
    (FormTextField.new dom el options).1.element = el :=
  (FormTextField.fold_element options _).1

theorem setCustomValidity_twice (dom : Dom) (el : Nat) (a b : String) :
    setCustomValidity (setCustomValidity dom el a) el b = setCustomValidity dom el b := by
  unfold setCustomValidity
  simp [Function.update_same]

theorem checkValidity_cleared (dom : Dom) (el : Nat) :
    checkValidity (setCustomValidity dom el "") el = (dom el).nativeValid := by
  simp [checkValidity, setCustomValidity]

theorem interpolate_minLength_default (reqs : Obj) :
    replacePlaceholders (fun key => (toStr (resolveKey reqs key)).toList)
        "This field must contain at least {minLength} character{s-minLength}.".toList 0
      = "This field must contain at least ".toList
          ++ ((toStr (resolveKey reqs "minLength".toList)).toList
            ++ (" character".toList
              ++ ((toStr (resolveKey reqs "s-minLength".toList)).toList ++ ".".toList))) := by
  rfl

theorem FormTextField.new_reqs_has (dom : Dom) (el : Nat) (options : Obj) (k : String) :
    (FormTextField.new dom el options).1.reqs.has k
      = (FormTextField.defaultReqs .undefined).has k := by
  unfold FormTextField.new
  rw [FormTextField.fold_reqs_has]
  simp only [FormTextField.init, FormTextField.defaultReqs, Obj.has, List.lookup_cons,
    List.lookup_nil]
  repeat' split
  all_goals rfl

/-- C6: for every FormTextField whose `minLength` message is the default one and whose
`minLength` is the number `n`, a call of `validate` that fails the `minLength` check
returns false and sets the custom validity of the control to
"This field must contain at least " + n + " character" + ("s" if n > 1) + ".",
where `+ n +` is the text of the number `n`; below `2 ^ 53` that text is the decimal
digits of `n`. -/
theorem C6_minLength_failure_message (dom0 : Dom) (el : Nat) (options : Obj) (dom : Dom) (n : Int)
    (hmsg : (FormTextField.new dom0 el options).1.msgs.get "minLength"
      = .str "This field must contain at least {minLength} character{s-minLength}.")
    (hreq : (FormTextField.new dom0 el options).1.reqs.get "minLength" = .num n)
    (hvalid : (dom el).nativeValid = true)
    (hfail : (jsLength (stripLeadingDot (dom el).value.toList) : Int) < n) :
    (FormTextField.new dom0 el options).1.validate dom
        = (.returned false, setCustomValidity dom el
            ("This field must contain at least " ++ toStr (.num n) ++ " character"
              ++ (if 1 < n then "s" else "") ++ "."))
      ∧ (n < 2 ^ 53 →
          (FormTextField.new dom0 el options).1.validate dom
            = (.returned false, setCustomValidity dom el
                ("This field must contain at least " ++ toString n ++ " character"
                  ++ (if 1 < n then "s" else "") ++ "."))) := by
  have hel := FormTextField.new_element dom0 el options
  have hhas : (FormTextField.new dom0 el options).1.reqs.has "minLength" = true :=
    Obj.has_of_get_ne_undefined _ _ (by rw [hreq]; simp)
  have hnots : (FormTextField.new dom0 el options).1.reqs.has "s-minLength" = false := by
    rw [FormTextField.new_reqs_has]; decide
  have hmin : ("min" ++ "Length" : String) = "minLength" := by decide
  have hlt : jsLt (.num (jsLength (stripLeadingDot (dom el).value.toList)))
      (Obj.get (FormTextField.new dom0 el options).1.reqs "minLength") = true := by
    rw [hreq, jsLt_num]; exact decide_eq_true hfail
  have hr1 : resolveKey (FormTextField.new dom0 el options).1.reqs "minLength".toList = .num n := by
    have : String.mk "minLength".toList = "minLength" := rfl
    simp only [resolveKey, this, hhas, if_true, hreq]
  have hr2 : resolveKey (FormTextField.new dom0 el options).1.reqs "s-minLength".toList
      = .str (if 1 < n then "s" else "") := by
    have h1 : String.mk "s-minLength".toList = "s-minLength" := rfl
    have h2 : String.mk (List.drop 2 "s-minLength".toList) = "minLength" := rfl
    have h3 : "s-".toList.isPrefixOf "s-minLength".toList = true := by decide
    simp only [resolveKey, h1, h2, h3, hnots, hreq, jsGt_num, if_true]
    by_cases h : 1 < n <;> simp [h]
  have hmain : (FormTextField.new dom0 el options).1.validate dom
      = (.returned false, setCustomValidity dom el
          ("This field must contain at least " ++ toStr (.num n) ++ " character"
            ++ (if 1 < n then "s" else "") ++ ".")) := by
    unfold FormTextField.validate
    simp only [hel, checkValidity_cleared, hvalid, Bool.not_true, FormTextField.regex,
      FormTextField.checkClasses, hmin, hlt, if_true]
    simp only [FormTextField.fail, FormTextField.parseMsg, parseMsg, hmsg, hel,
      setCustomValidity_twice, interpolate]
    rw [interpolate_minLength_default, hr1, hr2]
    simp only [Bool.false_eq_true, if_false]
    have hs : (String.mk ("This field must contain at least ".toList
        ++ ((toStr (JSVal.num n)).toList ++ (" character".toList
          ++ ((toStr (JSVal.str (if 1 < n then "s" else ""))).toList ++ ".".toList)))))
        = "This field must contain at least " ++ toStr (.num n) ++ " character"
              ++ (if 1 < n then "s" else "") ++ "." := by
      apply String.ext
      simp [toStr, String.data_append]
    rw [hs]
  refine ⟨hmain, fun hn => ?_⟩
  have hpos : 0 ≤ n := le_trans (Int.ofNat_nonneg _) (le_of_lt hfail)
  have hdigits : toStr (.num n) = toString n := by
    have habs : n.natAbs < 2 ^ 53 := by omega
    simp only [toStr, numToString, habs, if_true]
  rw [hmain, hdigits]

theorem C6_minLength_failure_message_witness :
    ((FormTextField.new (textDom "") 0 [("minLength", .num 8)]).1.msgs.get "minLength"
        = .str "This field must contain at least {minLength} character{s-minLength}."
      ∧ (FormTextField.new (textDom "") 0 [("minLength", .num 8)]).1.reqs.get "minLength" = .num 8
      ∧ (textDom "pw" 0).nativeValid = true
      ∧ (jsLength (stripLeadingDot (textDom "pw" 0).value.toList) : Int) < 8
      ∧ (8 : Int) < 2 ^ 53)
    ∧ (FormTextField.new (textDom "") 0 [("minLength", .num 8)]).1.validate (textDom "pw")
        = (.returned false, setCustomValidity (textDom "pw") 0
            ("This field must contain at least " ++ toString (8 : Int) ++ " character"
              ++ (if 1 < (8 : Int) then "s" else "") ++ "."))
    ∧ ("This field must contain at least " ++ toString (8 : Int) ++ " character"
          ++ (if 1 < (8 : Int) then "s" else "") ++ ".")
        = "This field must contain at least 8 characters." :=
  ⟨by decide,
    (C6_minLength_failure_message (textDom "") 0 [("minLength", .num 8)] (textDom "pw") 8
      (by decide) (by decide) (by decide) (by decide)).2 (by decide),
    by decide⟩

theorem jsLength_filter (p : Char → Bool) (hp : ∀ c, p c = true → c.toNat < 65536)
    (l : List Char) : jsLength (l.filter p) = l.countP p := by
  induction l with
  | nil => rfl
  | cons c t ih =>
    unfold jsLength at ih ⊢
    by_cases h : p c = true
    · simp [List.filter_cons, List.countP_cons, h, utf16, hp c h, ih]
    · simp [List.filter_cons, List.countP_cons, h, ih]

theorem charClasses_bmp (C : String × (Char → Bool)) (hC : C ∈ charClasses) (c : Char)
    (h : C.2 c = true) : c.toNat < 65536 := by
  simp only [charClasses, List.mem_cons, List.mem_singleton, List.not_mem_nil, or_false] at hC
  rcases hC with rfl | rfl | rfl | rfl | rfl
  · simp only [isLetter, isLowerCase, isUpperCase, Bool.or_eq_true, Bool.and_eq_true,
      decide_eq_true_eq] at h
    have h1 : 'z'.toNat = 122 := rfl
    have h2 : 'Z'.toNat = 90 := rfl
    omega
  · simp only [isUpperCase, Bool.and_eq_true, decide_eq_true_eq] at h
    have h2 : 'Z'.toNat = 90 := rfl
    omega
  · simp only [isLowerCase, Bool.and_eq_true, decide_eq_true_eq] at h
    have h1 : 'z'.toNat = 122 := rfl
    omega
  · simp only [isNum, Bool.and_eq_true, decide_eq_true_eq] at h
    have h1 : '9'.toNat = 57 := rfl
    omega
  · simp only [isSymbol, decide_eq_true_eq, List.mem_cons, List.mem_singleton,
      List.not_mem_nil, or_false] at h
    rcases h with rfl | rfl | rfl | rfl | rfl | rfl | rfl | rfl | rfl | rfl | rfl | rfl | rfl
      | rfl | rfl <;> decide

theorem FormTextField.checkClasses_cons (f : FormTextField) (val : List Char) (key : String)
    (keep : List Char → List Char) (rest : List (String × (List Char → List Char)))
    (lo hi : Int) (hlo : f.reqs.get ("min" ++ key) = .num lo)
    (hhi : f.reqs.get ("max" ++ key) = .num hi) :
    f.checkClasses val ((key, keep) :: rest) = none ↔
      (lo ≤ (jsLength (keep val) : Int) ∧ (hi ≤ -1 ∨ (jsLength (keep val) : Int) ≤ hi))
        ∧ f.checkClasses val rest = none := by
  rw [FormTextField.checkClasses, hlo, hhi, jsLt_num, jsGt_num, jsGt_num]
  by_cases h1 : (jsLength (keep val) : Int) < lo
  · simp only [h1, decide_True, if_true]
    constructor
    · intro h; cases h
    · intro h; omega
  · by_cases h2 : hi < (jsLength (keep val) : Int) ∧ -1 < hi
    · have : (decide (hi < (jsLength (keep val) : Int)) && decide (-1 < hi)) = true := by
        simp [h2.1, h2.2]
      simp only [h1, decide_False, Bool.false_eq_true, if_false, this, if_true]
      constructor
      · intro h; cases h
      · intro h; omega
    · have : (decide (hi < (jsLength (keep val) : Int)) && decide (-1 < hi)) = false := by
        simp only [Bool.and_eq_false_imp, decide_eq_true_eq, decide_eq_false_iff_not]
        intro h; exact fun h' => h2 ⟨h, h'⟩
      simp only [h1, decide_False, Bool.false_eq_true, if_false, this]
      constructor
      · intro h; exact ⟨by omega, h⟩
      · intro h; exact h.2

theorem FormTextField.checkClasses_none_iff (f : FormTextField) (val : List Char)
    (cls : List (String × (List Char → List Char)))
    (hnum : ∀ C ∈ cls, ∃ lo hi : Int, f.reqs.get ("min" ++ C.1) = .num lo
      ∧ f.reqs.get ("max" ++ C.1) = .num hi ∧ (hi = -1 ∨ 0 ≤ hi)) :
    f.checkClasses val cls = none ↔
      ∀ C ∈ cls, ∃ lo hi : Int, f.reqs.get ("min" ++ C.1) = .num lo
        ∧ f.reqs.get ("max" ++ C.1) = .num hi
        ∧ lo ≤ (jsLength (C.2 val) : Int) ∧ (hi = -1 ∨ (jsLength (C.2 val) : Int) ≤ hi) := by
  induction cls with
  | nil => simp [FormTextField.checkClasses]
  | cons C rest ih =>
    obtain ⟨key, keep⟩ := C
    obtain ⟨lo, hi, hlo, hhi, hinv⟩ := hnum (key, keep) (List.mem_cons_self _ _)
    have ih' := ih (fun C hC => hnum C (List.mem_cons_of_mem _ hC))
    rw [FormTextField.checkClasses_cons f val key keep rest lo hi hlo hhi, ih',
      List.forall_mem_cons]
    dsimp only
    constructor
    · rintro ⟨⟨h1, h2⟩, h3⟩
      exact ⟨⟨lo, hi, hlo, hhi, h1, by omega⟩, h3⟩
    · rintro ⟨⟨lo', hi', hlo', hhi', h1, h2⟩, h3⟩
      rw [hlo] at hlo'
      rw [hhi] at hhi'
      have e1 : lo = lo' := by injection hlo'
      have e2 : hi = hi' := by injection hhi'
      subst e1 e2
      exact ⟨⟨h1, by omega⟩, h3⟩

theorem mergedReq_num (options : Obj) (k : String) (d : Int) :
    ∃ n : Int, mergedReq options k (.num d) = .num n ∧ (n = d ∨ 0 ≤ n) := by
  unfold mergedReq
  cases h : options.lookup k with
  | none => exact ⟨d, rfl, Or.inl rfl⟩
  | some v =>
    cases v with
    | num m =>
      by_cases hm : 0 ≤ m
      · exact ⟨m, by simp [hm], Or.inr hm⟩
      · exact ⟨d, by simp [hm], Or.inl rfl⟩
    | _ => exact ⟨d, rfl, Or.inl rfl⟩

theorem FormTextField.regex_keys (C : String × (List Char → List Char))
    (hC : C ∈ FormTextField.regex) :
    ("min" ++ C.1, (0 : Int)) ∈ FormTextField.numericDefaults
      ∧ ("max" ++ C.1, (-1 : Int)) ∈ FormTextField.numericDefaults := by
  simp only [FormTextField.regex, List.mem_cons, List.mem_singleton, List.not_mem_nil,
    or_false] at hC
  rcases hC with rfl | rfl | rfl | rfl | rfl | rfl <;> exact ⟨by decide, by decide⟩

theorem FormTextField.new_regex_num (dom0 : Dom) (el : Nat) (options : Obj)
    (hnd : options.keys.Nodup) :
    ∀ C ∈ FormTextField.regex, ∃ lo hi : Int,
      (FormTextField.new dom0 el options).1.reqs.get ("min" ++ C.1) = .num lo
      ∧ (FormTextField.new dom0 el options).1.reqs.get ("max" ++ C.1) = .num hi
      ∧ (hi = -1 ∨ 0 ≤ hi) := by
  intro C hC
  obtain ⟨h1, h2⟩ := FormTextField.regex_keys C hC
  obtain ⟨lo, hlo, -⟩ := mergedReq_num options ("min" ++ C.1) 0
  obtain ⟨hi, hhi, hinv⟩ := mergedReq_num options ("max" ++ C.1) (-1)
  exact ⟨lo, hi, by rw [FormTextField.new_reqs_get dom0 el options _ _ h1 hnd, hlo],
    by rw [FormTextField.new_reqs_get dom0 el options _ _ h2 hnd, hhi], hinv⟩

theorem FormTextField.fail_ne_true (f : FormTextField) (dom : Dom) (setting : String) :
    (f.fail dom setting).1 ≠ .returned true := by
  unfold FormTextField.fail
  split <;> simp

theorem FormTextField.new_matches_absent (dom0 : Dom) (el : Nat) (options : Obj)
    (hno : options.lookup "matches" = none) :
    (FormTextField.new dom0 el options).1.«matches» = .control el := by
  have hget : Obj.get options "matches" = .undefined := by
    unfold Obj.get
    rw [hno]
    rfl
  unfold FormTextField.new
  rw [(FormTextField.fold_element options _).2]
  simp [FormTextField.init, hget, truthy]

theorem strLooseEq_self (s : String) : strLooseEq s (.str s) = true := by
  simp [strLooseEq]

theorem FormTextField.validate_self (f : FormTextField) (dom : Dom)
    (hm : f.«matches» = .control f.element) (hvalid : (dom f.element).nativeValid = true) :
    f.validate dom =
      match f.checkClasses (dom f.element).value.toList FormTextField.regex with
      | some setting => f.fail (setCustomValidity dom f.element "") setting
      | none => (.returned true, setCustomValidity dom f.element "") := by
  unfold FormTextField.validate
  simp only [checkValidity_cleared, hvalid, Bool.not_true, Bool.false_eq_true, if_false, hm,
    propValue]
  have hv : (setCustomValidity dom f.element "" f.element).value = (dom f.element).value := by
    simp [setCustomValidity]
  rw [hv, strLooseEq_self]
  rfl

/-- C7: a text field built from options with pairwise distinct keys, with
`minLength` and `maxLength` at their defaults, with no `matches` option, on a
control whose native check passes, validates true exactly when for each of the
classes Letters, UpperCase, LowerCase, Nums and Symbols the number of characters
of the value in the class is at least `min<Class>` and, unless `max<Class>` is
-1, at most `max<Class>`. A dot and white space are in no class. -/
theorem C7_character_class_checks (dom0 : Dom) (el : Nat) (options : Obj) (dom : Dom)
    (hnd : options.keys.Nodup)
    (hminL : (FormTextField.new dom0 el options).1.reqs.get "minLength" = .num 0)
    (hmaxL : (FormTextField.new dom0 el options).1.reqs.get "maxLength" = .num (-1))
    (hvalid : (dom el).nativeValid = true)
    (hno : options.lookup "matches" = none) :
    (((FormTextField.new dom0 el options).1.validate dom).1 = .returned true ↔
      ∀ C ∈ charClasses, ∃ lo hi : Int,
        (FormTextField.new dom0 el options).1.reqs.get ("min" ++ C.1) = .num lo
        ∧ (FormTextField.new dom0 el options).1.reqs.get ("max" ++ C.1) = .num hi
        ∧ lo ≤ (List.countP C.2 (dom el).value.toList : Int)
        ∧ (hi = -1 ∨ (List.countP C.2 (dom el).value.toList : Int) ≤ hi))
    ∧ (∀ C ∈ charClasses, C.2 '.' = false ∧ C.2 ' ' = false ∧ C.2 '\t' = false
        ∧ C.2 '\n' = false) := by
  refine ⟨?_, by decide⟩
  have hel := FormTextField.new_element dom0 el options
  have hm : (FormTextField.new dom0 el options).1.«matches»
      = .control (FormTextField.new dom0 el options).1.element := by
    rw [hel]; exact FormTextField.new_matches_absent dom0 el options hno
  have hvalid' : (dom (FormTextField.new dom0 el options).1.element).nativeValid = true := by
    rw [hel]; exact hvalid
  rw [FormTextField.validate_self _ dom hm hvalid', hel]
  have hiff := FormTextField.checkClasses_none_iff (FormTextField.new dom0 el options).1
    (dom el).value.toList FormTextField.regex (FormTextField.new_regex_num dom0 el options hnd)
  have hstep : ((match (FormTextField.new dom0 el options).1.checkClasses (dom el).value.toList
        FormTextField.regex with
      | some setting => (FormTextField.new dom0 el options).1.fail
          (setCustomValidity dom el "") setting
      | none => (Outcome.returned true, setCustomValidity dom el "")).1 = .returned true)
      ↔ (FormTextField.new dom0 el options).1.checkClasses (dom el).value.toList
        FormTextField.regex = none := by
    cases h : (FormTextField.new dom0 el options).1.checkClasses (dom el).value.toList
        FormTextField.regex with
    | none => simp
    | some setting =>
      simp only [reduceCtorEq, iff_false]
      exact FormTextField.fail_ne_true _ _ _
  rw [hstep, hiff]
  have hreg : FormTextField.regex
      = ("Length", stripLeadingDot) :: charClasses.map (fun C => (C.1, List.filter C.2)) := rfl
  rw [hreg, List.forall_mem_cons, List.forall_mem_map]
  have hmin : ("min" ++ "Length" : String) = "minLength" := by decide
  have hmax : ("max" ++ "Length" : String) = "maxLength" := by decide
  constructor
  · rintro ⟨-, h⟩ C hC
    obtain ⟨lo, hi, h1, h2, h3, h4⟩ := h C hC
    dsimp only at h1 h2 h3 h4
    rw [jsLength_filter C.2 (charClasses_bmp C hC)] at h3 h4
    exact ⟨lo, hi, h1, h2, h3, h4⟩
  · intro h
    refine ⟨⟨0, -1, by rw [hmin]; exact hminL, by rw [hmax]; exact hmaxL, ?_, Or.inl rfl⟩, ?_⟩
    · exact Int.ofNat_nonneg _
    · intro C hC
      obtain ⟨lo, hi, h1, h2, h3, h4⟩ := h C hC
      dsimp only
      rw [jsLength_filter C.2 (charClasses_bmp C hC)]
      exact ⟨lo, hi, h1, h2, h3, h4⟩

theorem C7_character_class_checks_witness :
    (Obj.keys [("minUpperCase", .num 1), ("minNums", .num 1), ("maxSymbols", .num 0)]).Nodup
    ∧ (FormTextField.new (textDom "") 0
        [("minUpperCase", .num 1), ("minNums", .num 1), ("maxSymbols", .num 0)]).1.reqs.get
          "minLength" = .num 0
    ∧ (FormTextField.new (textDom "") 0
        [("minUpperCase", .num 1), ("minNums", .num 1), ("maxSymbols", .num 0)]).1.reqs.get
          "maxLength" = .num (-1)
    ∧ (textDom "Password1!" 0).nativeValid = true
    ∧ List.lookup "matches"
        [("minUpperCase", JSVal.num 1), ("minNums", .num 1), ("maxSymbols", .num 0)] = none
    ∧ (((FormTextField.new (textDom "") 0
          [("minUpperCase", .num 1), ("minNums", .num 1), ("maxSymbols", .num 0)]).1.validate
            (textDom "Password1!")).1 = .returned true ↔
        ∀ C ∈ charClasses, ∃ lo hi : Int,
          (FormTextField.new (textDom "") 0
            [("minUpperCase", .num 1), ("minNums", .num 1), ("maxSymbols", .num 0)]).1.reqs.get
              ("min" ++ C.1) = .num lo
          ∧ (FormTextField.new (textDom "") 0
            [("minUpperCase", .num 1), ("minNums", .num 1), ("maxSymbols", .num 0)]).1.reqs.get
              ("max" ++ C.1) = .num hi
          ∧ lo ≤ (List.countP C.2 (textDom "Password1!" 0).value.toList : Int)
          ∧ (hi = -1 ∨ (List.countP C.2 (textDom "Password1!" 0).value.toList : Int) ≤ hi))
    ∧ ((FormTextField.new (textDom "") 0
          [("minUpperCase", .num 1), ("minNums", .num 1), ("maxSymbols", .num 0)]).1.validate
            (textDom "Password1!")).1 = .returned false :=
  ⟨by decide, by decide, by decide, by decide, by decide,
    (C7_character_class_checks (textDom "") 0
      [("minUpperCase", .num 1), ("minNums", .num 1), ("maxSymbols", .num 0)]
      (textDom "Password1!") (by decide) (by decide) (by decide) (by decide) (by decide)).1,
    by decide⟩

theorem FormTextField.loadOption_msgs_str (st : FormTextField × Obj) (opt : String × JSVal)
    (k : String) (h : ∃ t, st.1.msgs.get k = .str t) :
    ∃ t, (FormTextField.loadOption st opt).1.msgs.get k = .str t := by
  unfold FormTextField.loadOption
  split
  · exact h
  · split
    · rename_i hc
      simp only [Bool.and_eq_true] at hc
      obtain ⟨s, hs⟩ := (typeof_string_iff _).mp hc.1.1
      simp only [Obj.get_set]
      split
      · exact ⟨s, hs⟩
      · exact h
    · exact h

theorem FormTextField.fold_msgs_str (opts : Obj) (st : FormTextField × Obj) (k : String)
    (h : ∃ t, st.1.msgs.get k = .str t) :
    ∃ t, (opts.foldl FormTextField.loadOption st).1.msgs.get k = .str t := by
  induction opts generalizing st with
  | nil => exact h
  | cons p t ih =>
    rw [List.foldl_cons]
    exact ih _ (FormTextField.loadOption_msgs_str st p k h)

theorem FormTextField.new_matches_control (dom0 : Dom) (el : Nat) (options : Obj) (b : Nat)
    (hm : options.lookup "matches" = some (.control b)) :
    (FormTextField.new dom0 el options).1.«matches» = .control b := by
  have hget : Obj.get options "matches" = .control b := by
    unfold Obj.get
    rw [hm]
  unfold FormTextField.new
  rw [(FormTextField.fold_element options _).2]
  simp [FormTextField.init, hget, truthy]

theorem FormTextField.new_reqs_matches (dom0 : Dom) (el : Nat) (options : Obj) (b : Nat)
    (hnd : options.keys.Nodup) (hm : options.lookup "matches" = some (.control b)) :
    (FormTextField.new dom0 el options).1.reqs.get "matches" = .str (dom0 b).name := by
  have hget : Obj.get options "matches" = .control b := by
    unfold Obj.get
    rw [hm]
  have hinit : (FormTextField.init dom0 el options).reqs.get "matches" = .str (dom0 b).name := by
    simp only [FormTextField.init, hget, truthy, if_true, propName]
    rfl
  unfold FormTextField.new
  rw [FormTextField.fold_reqs_get options _ "matches" hnd (by rw [hinit]; simp), hinit]
  simp only [mergedReq, hm]

theorem FormTextField.validate_control (f : FormTextField) (dom : Dom) (b : Nat)
    (hm : f.«matches» = .control b) (hvalid : (dom f.element).nativeValid = true)
    (hclasses : f.checkClasses (dom f.element).value.toList FormTextField.regex = none) :
    f.validate dom =
      if (dom f.element).value = (dom b).value then
        (.returned true, setCustomValidity dom f.element "")
      else f.fail (setCustomValidity dom f.element "") "matches" := by
  unfold FormTextField.validate
  simp only [checkValidity_cleared, hvalid, Bool.not_true, Bool.false_eq_true, if_false, hm,
    propValue, hclasses]
  have hv : (setCustomValidity dom f.element "" b).value = (dom b).value := by
    unfold setCustomValidity
    by_cases hb : b = f.element
    · subst hb; simp
    · simp [Function.update_noteq hb]
  rw [hv]
  by_cases he : (dom f.element).value = (dom b).value
  · simp [he, strLooseEq]
  · simp [he, strLooseEq]

theorem interpolate_matches_default (reqs : Obj) :
    replacePlaceholders (fun key => (toStr (resolveKey reqs key)).toList)
        "This field must match the {matches} field.".toList 0
      = "This field must match the ".toList
          ++ ((toStr (resolveKey reqs "matches".toList)).toList ++ " field.".toList) := by
  rfl

/-- C8: for a text field A built from options with pairwise distinct keys, on a
control whose native check passes and whose value passes every class check:
with `matches` a control B, validation returns true exactly when the values of A
and B are equal; on a mismatch it returns false and sets the custom validity of A
to the interpolated `matches` message, in which `{matches}` resolves to the name
of B (by default "This field must match the <name of B> field."); with no
`matches` option validation returns true. -/
theorem C8_cross_field_matching (dom0 : Dom) (el : Nat) (options : Obj) (dom : Dom)
    (hnd : options.keys.Nodup) (hvalid : (dom el).nativeValid = true)
    (hclasses : (FormTextField.new dom0 el options).1.checkClasses (dom el).value.toList
      FormTextField.regex = none) :
    (∀ b, options.lookup "matches" = some (.control b) →
      ((((FormTextField.new dom0 el options).1.validate dom).1 = .returned true
          ↔ (dom el).value = (dom b).value)
        ∧ ((dom el).value ≠ (dom b).value →
            ∃ template, (FormTextField.new dom0 el options).1.msgs.get "matches" = .str template
              ∧ (FormTextField.new dom0 el options).1.validate dom
                = (.returned false, setCustomValidity dom el
                    (String.mk (interpolate (FormTextField.new dom0 el options).1.reqs
                      template.toList))))
        ∧ interpolate (FormTextField.new dom0 el options).1.reqs "{matches}".toList
            = (dom0 b).name.toList
        ∧ ((FormTextField.new dom0 el options).1.msgs.get "matches"
              = .str "This field must match the {matches} field." →
            (dom el).value ≠ (dom b).value →
            (FormTextField.new dom0 el options).1.validate dom
              = (.returned false, setCustomValidity dom el
                  ("This field must match the " ++ (dom0 b).name ++ " field.")))))
    ∧ (options.lookup "matches" = none →
        (FormTextField.new dom0 el options).1.validate dom
          = (.returned true, setCustomValidity dom el "")) := by
  have hel := FormTextField.new_element dom0 el options
  have hvalid' : (dom (FormTextField.new dom0 el options).1.element).nativeValid = true := by
    rw [hel]; exact hvalid
  have hclasses' : (FormTextField.new dom0 el options).1.checkClasses
      (dom (FormTextField.new dom0 el options).1.element).value.toList FormTextField.regex
      = none := by
    rw [hel]; exact hclasses
  constructor
  · intro b hb
    have hm := FormTextField.new_matches_control dom0 el options b hb
    have hreq := FormTextField.new_reqs_matches dom0 el options b hnd hb
    have hval := FormTextField.validate_control _ dom b hm hvalid' hclasses'
    rw [hel] at hval
    have hres : resolveKey (FormTextField.new dom0 el options).1.reqs "matches".toList
        = .str (dom0 b).name := by
      have h1 : String.mk "matches".toList = "matches" := rfl
      have hhas : (FormTextField.new dom0 el options).1.reqs.has "matches" = true :=
        Obj.has_of_get_ne_undefined _ _ (by rw [hreq]; simp)
      simp only [resolveKey, h1, hhas, if_true, hreq]
    have hfail : ∀ template,
        (FormTextField.new dom0 el options).1.msgs.get "matches" = .str template →
        (FormTextField.new dom0 el options).1.fail (setCustomValidity dom el "") "matches"
          = (.returned false, setCustomValidity dom el
              (String.mk (interpolate (FormTextField.new dom0 el options).1.reqs
                template.toList))) := by
      intro template ht
      simp only [FormTextField.fail, FormTextField.parseMsg, parseMsg, ht, hel,
        setCustomValidity_twice]
    obtain ⟨template, ht⟩ : ∃ t, (FormTextField.new dom0 el options).1.msgs.get "matches"
        = .str t := FormTextField.fold_msgs_str options _ "matches" ⟨_, rfl⟩
    refine ⟨?_, ?_, ?_, ?_⟩
    · rw [hval]
      by_cases he : (dom el).value = (dom b).value
      · simp [he]
      · simp only [he, if_false, iff_false]
        exact FormTextField.fail_ne_true _ _ _
    · intro hne
      refine ⟨template, ht, ?_⟩
      rw [hval, if_neg hne, hfail template ht]
    · have h0 : interpolate (FormTextField.new dom0 el options).1.reqs "{matches}".toList
          = (toStr (resolveKey (FormTextField.new dom0 el options).1.reqs
              "matches".toList)).toList ++ [] := rfl
      rw [h0, hres]
      simp [toStr]
    · intro hdef hne
      rw [hval, if_neg hne, hfail _ hdef]
      unfold interpolate
      rw [interpolate_matches_default, hres]
      congr 2
  · intro hno
    have hm : (FormTextField.new dom0 el options).1.«matches»
        = .control (FormTextField.new dom0 el options).1.element := by
      rw [hel]; exact FormTextField.new_matches_absent dom0 el options hno
    rw [FormTextField.validate_self _ dom hm hvalid', hclasses', hel]

theorem C8_cross_field_matching_witness :
    ((Obj.keys [("matches", .control 1)]).Nodup
      ∧ (pairDom "abc" "abd" 0).nativeValid = true
      ∧ (FormTextField.new (pairDom "" "") 0 [("matches", .control 1)]).1.checkClasses
          (pairDom "abc" "abd" 0).value.toList FormTextField.regex = none
      ∧ List.lookup "matches" [("matches", JSVal.control 1)] = some (.control 1)
      ∧ (FormTextField.new (pairDom "" "") 0 [("matches", .control 1)]).1.msgs.get "matches"
          = .str "This field must match the {matches} field."
      ∧ (pairDom "abc" "abd" 0).value ≠ (pairDom "abc" "abd" 1).value)
    ∧ (FormTextField.new (pairDom "" "") 0 [("matches", .control 1)]).1.validate
          (pairDom "abc" "abd")
        = (.returned false, setCustomValidity (pairDom "abc" "abd") 0
            ("This field must match the " ++ (pairDom "" "" 1).name ++ " field."))
    ∧ ("This field must match the " ++ (pairDom "" "" 1).name ++ " field.")
        = "This field must match the confirm field."
    ∧ ((FormTextField.new (pairDom "" "") 0 [("matches", .control 1)]).1.validate
          (pairDom "abc" "abc")).1 = .returned true :=
  ⟨by decide,
    ((C8_cross_field_matching (pairDom "" "") 0 [("matches", .control 1)] (pairDom "abc" "abd")
      (by decide) (by decide) (by decide)).1 1 (by decide)).2.2.2 (by decide) (by decide),
    by decide, by decide⟩

/-! ## Groups -/

theorem setValidityAll_apply (dom : Dom) (members : List Nat) (msg : String) (i : Nat) :
    setValidityAll dom members msg i
      = if i ∈ members then { dom i with customValidity := msg } else dom i := by
  induction members generalizing dom with
  | nil => simp [setValidityAll]
  | cons m ms ih =>
    have hstep : setValidityAll dom (m :: ms) msg
        = setValidityAll (setCustomValidity dom m msg) ms msg := rfl
    rw [hstep, ih]
    by_cases him : i = m
    · subst him
      by_cases hms : i ∈ ms
      · simp [hms, setCustomValidity]
      · simp [hms, setCustomValidity]
    · by_cases hms : i ∈ ms
      · simp [hms, him, setCustomValidity, Function.update_noteq him]
      · simp [hms, him, setCustomValidity, Function.update_noteq him]

theorem setValidityAll_twice (dom : Dom) (members : List Nat) (a b : String) :
    setValidityAll (setValidityAll dom members a) members b = setValidityAll dom members b := by
  funext i
  rw [setValidityAll_apply, setValidityAll_apply, setValidityAll_apply]
  by_cases h : i ∈ members <;> simp [h]

theorem setValidityAll_checked (dom : Dom) (members : List Nat) (msg : String) (i : Nat) :
    (setValidityAll dom members msg i).checked = (dom i).checked
      ∧ (setValidityAll dom members msg i).id = (dom i).id := by
  rw [setValidityAll_apply]
  by_cases h : i ∈ members <;> simp [h]

/-- C9: for a radio group with at least one member, `validate` returns true
exactly when `required` is falsy or some member is checked, and never throws;
when it returns false the custom validity of every member is the required
message (by default "Please select an option"), and when it returns true the
custom validity of every member is the empty string. -/
theorem C9_radio_group_required (f : FormRadioButton) (dom : Dom) (hne : f.element ≠ []) :
    ((f.validate dom).1 = .returned true ↔
        (truthy (f.settings.get "required") = false ∨ ∃ i ∈ f.element, (dom i).checked = true))
    ∧ ((f.validate dom).1 = .returned false ∨ (f.validate dom).1 = .returned true)
    ∧ ((f.validate dom).1 = .returned false →
        ∀ i ∈ f.element,
          ((f.validate dom).2 i).customValidity = toStr (f.settings.get "requiredMsg"))
    ∧ ((f.validate dom).1 = .returned true →
        ∀ i ∈ f.element, ((f.validate dom).2 i).customValidity = "")
    ∧ toStr (FormRadioButton.defaultSettings.get "requiredMsg") = "Please select an option" := by
  obtain ⟨element, assigned, settings⟩ := f
  cases element with
  | nil => exact absurd rfl hne
  | cons m ms =>
    have hany : (List.any (m :: ms) fun i => (setValidityAll dom (m :: ms) "" i).checked)
        = (List.any (m :: ms) fun i => (dom i).checked) := by
      congr 1
      funext i
      exact (setValidityAll_checked dom (m :: ms) "" i).1
    have hex : (List.any (m :: ms) fun i => (dom i).checked) = true
        ↔ ∃ i ∈ m :: ms, (dom i).checked = true := by
      simp only [List.any_eq_true]
    by_cases hreq : truthy (Obj.get settings "required") = true
    · by_cases hchk : (List.any (m :: ms) fun i => (dom i).checked) = true
      · have hv : FormRadioButton.validate ⟨m :: ms, assigned, settings⟩ dom
            = (.returned true, setValidityAll dom (m :: ms) "") := by
          unfold FormRadioButton.validate
          simp only [FormRadioButton.setValidity, hany, hreq, hchk, Bool.not_true,
            Bool.false_eq_true, if_false, if_true]
        rw [hv]
        refine ⟨?_, Or.inr rfl, ?_, ?_, rfl⟩
        · exact ⟨fun _ => Or.inr (hex.mp hchk), fun _ => rfl⟩
        · intro h; simp at h
        · intro _ i hi
          show (setValidityAll dom (m :: ms) "" i).customValidity = ""
          rw [setValidityAll_apply, if_pos hi]
      · have hv : FormRadioButton.validate ⟨m :: ms, assigned, settings⟩ dom
            = (.returned false, setValidityAll dom (m :: ms)
                (toStr (Obj.get settings "requiredMsg"))) := by
          unfold FormRadioButton.validate
          simp only [FormRadioButton.setValidity, hany, hreq, hchk, Bool.not_true,
            Bool.false_eq_true, if_false, setValidityAll_twice]
        rw [hv]
        refine ⟨?_, Or.inl rfl, ?_, ?_, rfl⟩
        · constructor
          · intro h; simp at h
          · rintro (h | h)
            · rw [hreq] at h; cases h
            · exact absurd (hex.mpr h) hchk
        · intro _ i hi
          show (setValidityAll dom (m :: ms) (toStr (Obj.get settings "requiredMsg"))
            i).customValidity = _
          rw [setValidityAll_apply, if_pos hi]
        · intro h; simp at h
    · have hv : FormRadioButton.validate ⟨m :: ms, assigned, settings⟩ dom
          = (.returned true, setValidityAll dom (m :: ms) "") := by
        unfold FormRadioButton.validate
        simp only [FormRadioButton.setValidity, hreq, Bool.not_false, if_true]
      rw [hv]
      refine ⟨?_, Or.inr rfl, ?_, ?_, rfl⟩
      · exact ⟨fun _ => Or.inl (by simpa using hreq), fun _ => rfl⟩
      · intro h; simp at h
      · intro _ i hi
        show (setValidityAll dom (m :: ms) "" i).customValidity = ""
        rw [setValidityAll_apply, if_pos hi]

theorem C9_radio_group_required_witness :
    (FormRadioButton.mk [0, 1, 2] [] [("required", .bool true),
        ("requiredMsg", .str "Please select an option")]).element ≠ []
    ∧ ((FormRadioButton.mk [0, 1, 2] [] [("required", .bool true),
          ("requiredMsg", .str "Please select an option")]).validate
            (boxDom false false false)).1 = .returned false
    ∧ ∀ i ∈ [0, 1, 2],
        (((FormRadioButton.mk [0, 1, 2] [] [("required", .bool true),
          ("requiredMsg", .str "Please select an option")]).validate
            (boxDom false false false)).2 i).customValidity
          = toStr (Obj.get [("required", .bool true),
              ("requiredMsg", .str "Please select an option")] "requiredMsg") :=
  ⟨by decide, by decide,
    (C9_radio_group_required (FormRadioButton.mk [0, 1, 2] [] [("required", .bool true),
      ("requiredMsg", .str "Please select an option")]) (boxDom false false false)
      (by decide)).2.2.1 (by decide)⟩

theorem FormCheckbox.scan_count (f : FormCheckbox) (dom : Dom) (l : List Nat) (n : Nat)
    (h : ∀ i ∈ l, (dom i).checked = false → f.atUnchecked dom i = none) :
    f.scan dom l n = .inr (n + checkedCount dom l) := by
  induction l generalizing n with
  | nil => simp [FormCheckbox.scan, checkedCount]
  | cons box rest ih =>
    have ih' := fun n => ih n (fun i hi => h i (List.mem_cons_of_mem _ hi))
    by_cases hc : (dom box).checked = true
    · rw [FormCheckbox.scan, if_pos hc, ih']
      simp only [checkedCount, List.countP_cons, hc, if_true]
      congr 1
      omega
    · have hc' : (dom box).checked = false := by simpa using hc
      rw [FormCheckbox.scan, if_neg hc, h box (List.mem_cons_self _ _) hc', ih']
      simp [checkedCount, List.countP_cons, hc']

theorem FormCheckbox.atUnchecked_none (f : FormCheckbox) (dom : Dom) (i : Nat)
    (hreq : match f.reqs.get "required" with
      | .str r => (dom i).id ≠ r
      | .arr ids => (dom i).id ∉ ids
      | .null => False
      | _ => True) :
    f.atUnchecked dom i = none := by
  unfold FormCheckbox.atUnchecked
  cases hr : f.reqs.get "required" with
  | str r =>
    rw [hr] at hreq
    have : (r == (dom i).id) = false := by
      simp only [beq_eq_false_iff_ne, ne_eq]
      exact fun h => hreq h.symm
    simp [this]
  | arr ids =>
    rw [hr] at hreq
    have : (ids.any fun r => r == (dom i).id) = false := by
      rw [List.any_eq_false]
      intro r hr' hbeq
      have e : r = (dom i).id := by simpa using hbeq
      exact hreq (e ▸ hr')
    simp [this]
  | null => rw [hr] at hreq; exact absurd hreq id
  | undefined => rfl
  | bool b => rfl
  | num n => rfl
  | control c => rfl
  | native nm => rfl

theorem FormCheckbox.groupFail_ne_true (f : FormCheckbox) (dom : Dom) (setting : String) :
    (f.fail dom setting).1 ≠ .returned true := by
  unfold FormCheckbox.fail
  split <;> simp

theorem FormCheckbox.fail_str (f : FormCheckbox) (dom : Dom) (setting template : String)
    (hne : f.element ≠ []) (ht : f.msgs.get setting = .str template) :
    f.fail (setValidityAll dom f.element "") setting
      = (.returned false, setValidityAll dom f.element
          (String.mk (interpolate f.reqs template.toList))) := by
  obtain ⟨element, assigned, reqs, msgs⟩ := f
  cases element with
  | nil => exact absurd rfl hne
  | cons m ms =>
    simp only at ht
    simp only [FormCheckbox.fail, FormCheckbox.parseMsg, FormValidator.parseMsg, ht,
      FormCheckbox.setValidity, setValidityAll_twice]

/-- C10: for a checkbox group with at least one member whose `required` names
no member (it is neither null, nor a string equal to the id of a member, nor an
array listing the id of a member) and whose `minSelect` and `maxSelect` are
numbers, `validate` returns true exactly when `minSelect <= c` and
(`maxSelect < 0` or `c <= maxSelect`), where `c` is the number of checked
members. When `c < minSelect` it returns false with the interpolated `minSelect`
message set on every member; otherwise, when `maxSelect >= 0` and
`c > maxSelect`, it returns false with the interpolated `maxSelect` message set
on every member. -/
theorem C10_checkbox_cardinality (f : FormCheckbox) (dom : Dom) (lo hi : Int)
    (hne : f.element ≠ [])
    (hreq : ∀ i ∈ f.element,
      match f.reqs.get "required" with
      | .str r => (dom i).id ≠ r
      | .arr ids => (dom i).id ∉ ids
      | .null => False
      | _ => True)
    (hmin : f.reqs.get "minSelect" = .num lo) (hmax : f.reqs.get "maxSelect" = .num hi) :
    ((f.validate dom).1 = .returned true ↔
        lo ≤ (checkedCount dom f.element : Int)
          ∧ (hi < 0 ∨ (checkedCount dom f.element : Int) ≤ hi))
    ∧ (∀ template, f.msgs.get "minSelect" = .str template →
        (checkedCount dom f.element : Int) < lo →
        f.validate dom = (.returned false, setValidityAll dom f.element
          (String.mk (interpolate f.reqs template.toList))))
    ∧ (∀ template, f.msgs.get "maxSelect" = .str template →
        lo ≤ (checkedCount dom f.element : Int) → 0 ≤ hi →
        hi < (checkedCount dom f.element : Int) →
        f.validate dom = (.returned false, setValidityAll dom f.element
          (String.mk (interpolate f.reqs template.toList))))
    ∧ (∀ msg, ∀ i ∈ f.element, (setValidityAll dom f.element msg i).customValidity = msg) := by
  have hcount : checkedCount (setValidityAll dom f.element "") f.element
      = checkedCount dom f.element := by
    unfold checkedCount
    congr 1
    funext i
    exact (setValidityAll_checked dom f.element "" i).1
  have hscan : f.scan (setValidityAll dom f.element "") f.element 0
      = .inr (checkedCount dom f.element) := by
    rw [FormCheckbox.scan_count, hcount, Nat.zero_add]
    intro i hi _
    apply FormCheckbox.atUnchecked_none
    rw [(setValidityAll_checked dom f.element "" i).2]
    exact hreq i hi
  have hval : f.validate dom =
      if (checkedCount dom f.element : Int) < lo then
        f.fail (setValidityAll dom f.element "") "minSelect"
      else if 0 ≤ hi ∧ hi < (checkedCount dom f.element : Int) then
        f.fail (setValidityAll dom f.element "") "maxSelect"
      else (.returned true, setValidityAll dom f.element "") := by
    unfold FormCheckbox.validate
    simp only [FormCheckbox.setValidity, hscan, hmin, hmax, jsLt_num, jsGe_num, jsGt_num,
      decide_eq_true_eq, Bool.and_eq_true]
  refine ⟨?_, ?_, ?_, ?_⟩
  · rw [hval]
    by_cases h1 : (checkedCount dom f.element : Int) < lo
    · rw [if_pos h1]
      constructor
      · intro h; exact absurd h (FormCheckbox.groupFail_ne_true _ _ _)
      · intro h; omega
    · rw [if_neg h1]
      by_cases h2 : 0 ≤ hi ∧ hi < (checkedCount dom f.element : Int)
      · rw [if_pos h2]
        constructor
        · intro h; exact absurd h (FormCheckbox.groupFail_ne_true _ _ _)
        · intro h; omega
      · rw [if_neg h2]
        constructor
        · intro _; constructor <;> omega
        · intro _; rfl
  · intro template ht h1
    rw [hval, if_pos h1, FormCheckbox.fail_str f dom _ template hne ht]
  · intro template ht h1 h2 h3
    rw [hval, if_neg (by omega), if_pos ⟨h2, h3⟩, FormCheckbox.fail_str f dom _ template hne ht]
  · intro msg i hi
    rw [setValidityAll_apply, if_pos hi]

theorem C10_checkbox_cardinality_witness :
    ((FormCheckbox.mk [0, 1, 2] []
          [("required", .bool false), ("minSelect", .num 2), ("maxSelect", .num (-1))]
          FormCheckbox.defaultMsgs).element ≠ []
      ∧ Obj.get [("required", .bool false), ("minSelect", .num 2), ("maxSelect", .num (-1))]
          "minSelect" = .num 2
      ∧ Obj.get [("required", .bool false), ("minSelect", .num 2), ("maxSelect", .num (-1))]
          "maxSelect" = .num (-1)
      ∧ Obj.get FormCheckbox.defaultMsgs "minSelect"
          = .str "You must select at least {minSelect} option{s-minSelect}."
      ∧ (checkedCount (boxDom true false false) [0, 1, 2] : Int) < 2)
    ∧ (FormCheckbox.mk [0, 1, 2] []
          [("required", .bool false), ("minSelect", .num 2), ("maxSelect", .num (-1))]
          FormCheckbox.defaultMsgs).validate (boxDom true false false)
        = (.returned false, setValidityAll (boxDom true false false) [0, 1, 2]
            (String.mk (interpolate
              [("required", .bool false), ("minSelect", .num 2), ("maxSelect", .num (-1))]
              "You must select at least {minSelect} option{s-minSelect}.".toList)))
    ∧ String.mk (interpolate
          [("required", .bool false), ("minSelect", .num 2), ("maxSelect", .num (-1))]
          "You must select at least {minSelect} option{s-minSelect}.".toList)
        = "You must select at least 2 options."
    ∧ ((FormCheckbox.mk [0, 1, 2] []
          [("required", .bool false), ("minSelect", .num 2), ("maxSelect", .num (-1))]
          FormCheckbox.defaultMsgs).validate (boxDom true false true)).1 = .returned true :=
  ⟨by decide,
    (C10_checkbox_cardinality (FormCheckbox.mk [0, 1, 2] []
        [("required", .bool false), ("minSelect", .num 2), ("maxSelect", .num (-1))]
        FormCheckbox.defaultMsgs) (boxDom true false false) 2 (-1) (by decide)
      (fun _ _ => True.intro) (by decide) (by decide)).2.1 _ (by decide) (by decide),
    by decide, by decide⟩

/-! ## Required boxes of a checkbox group -/

theorem FormCheckbox.scan_stop (f : FormCheckbox) (dom : Dom) (pre : List Nat) (box : Nat)
    (post : List Nat) (r : Outcome × Dom)
    (hpre : ∀ i ∈ pre, (dom i).checked = false → f.atUnchecked dom i = none)
    (hbox : (dom box).checked = false) (hstop : f.atUnchecked dom box = some r) (n : Nat) :
    f.scan dom (pre ++ box :: post) n = .inl r := by
  induction pre generalizing n with
  | nil => rw [List.nil_append, FormCheckbox.scan, if_neg (by simp [hbox]), hstop]
  | cons a rest ih =>
    have ih' := fun n => ih (fun i hi => hpre i (List.mem_cons_of_mem _ hi)) n
    by_cases hc : (dom a).checked = true
    · rw [List.cons_append, FormCheckbox.scan, if_pos hc, ih']
    · have hc' : (dom a).checked = false := by simpa using hc
      rw [List.cons_append, FormCheckbox.scan, if_neg hc, hpre a (List.mem_cons_self _ _) hc',
        ih']

theorem FormCheckbox.validate_counted (f : FormCheckbox) (dom : Dom)
    (h : ∀ i ∈ f.element, (dom i).checked = false →
      f.atUnchecked (setValidityAll dom f.element "") i = none) :
    f.validate dom =
      if jsLt (.num (checkedCount dom f.element)) (f.reqs.get "minSelect") then
        f.fail (setValidityAll dom f.element "") "minSelect"
      else if jsGe (f.reqs.get "maxSelect") (.num 0)
          && jsGt (.num (checkedCount dom f.element)) (f.reqs.get "maxSelect") then
        f.fail (setValidityAll dom f.element "") "maxSelect"
      else (.returned true, setValidityAll dom f.element "") := by
  have hcount : checkedCount (setValidityAll dom f.element "") f.element
      = checkedCount dom f.element := by
    unfold checkedCount
    congr 1
    funext i
    exact (setValidityAll_checked dom f.element "" i).1
  have hscan : f.scan (setValidityAll dom f.element "") f.element 0
      = .inr (checkedCount dom f.element) := by
    rw [FormCheckbox.scan_count, hcount, Nat.zero_add]
    intro i hi hc
    rw [(setValidityAll_checked dom f.element "" i).1] at hc
    exact h i hi hc
  unfold FormCheckbox.validate
  simp only [FormCheckbox.setValidity, hscan]

theorem FormCheckbox.atUnchecked_str_ne (f : FormCheckbox) (dom : Dom) (i : Nat) (s : String)
    (hs : f.reqs.get "required" = .str s) (hid : (dom i).id ≠ s) :
    f.atUnchecked dom i = none := by
  apply FormCheckbox.atUnchecked_none
  rw [hs]
  exact hid

/-- C11: for a checkbox group whose `required` is a string `s` and whose `required`
message is a string: when the first unchecked member with id `s` is `box`,
`validate` returns false whatever the other members and `minSelect`/`maxSelect`
are, `box` carries the interpolated `required` message and every other member the
empty custom validity; when every member with id `s` is checked the result is that
of the `minSelect`/`maxSelect` checks alone, which is true when they hold. -/
theorem C11_checkbox_required_by_id (f : FormCheckbox) (dom : Dom) (s : String)
    (hs : f.reqs.get "required" = .str s) :
    (∀ pre box post template, f.element = pre ++ box :: post →
        (∀ i ∈ pre, (dom i).checked = true ∨ (dom i).id ≠ s) →
        (dom box).checked = false → (dom box).id = s →
        f.msgs.get "required" = .str template →
        f.validate dom = (.returned false,
            setCustomValidity (setValidityAll dom f.element "") box
              (String.mk (interpolate f.reqs template.toList)))
          ∧ ((f.validate dom).2 box).customValidity
              = String.mk (interpolate f.reqs template.toList)
          ∧ ∀ i ∈ f.element, i ≠ box → ((f.validate dom).2 i).customValidity = "")
    ∧ ((∀ i ∈ f.element, (dom i).id = s → (dom i).checked = true) →
        (f.validate dom =
          if jsLt (.num (checkedCount dom f.element)) (f.reqs.get "minSelect") then
            f.fail (setValidityAll dom f.element "") "minSelect"
          else if jsGe (f.reqs.get "maxSelect") (.num 0)
              && jsGt (.num (checkedCount dom f.element)) (f.reqs.get "maxSelect") then
            f.fail (setValidityAll dom f.element "") "maxSelect"
          else (.returned true, setValidityAll dom f.element ""))
        ∧ ∀ lo hi : Int, f.reqs.get "minSelect" = .num lo → f.reqs.get "maxSelect" = .num hi →
            lo ≤ (checkedCount dom f.element : Int) →
            (hi < 0 ∨ (checkedCount dom f.element : Int) ≤ hi) →
            f.validate dom = (.returned true, setValidityAll dom f.element "")) := by
  constructor
  · intro pre box post template hel hpre hbox hid ht
    have hne : f.element ≠ [] := by rw [hel]; simp
    have hparse : f.parseMsg "required" = some (String.mk (interpolate f.reqs template.toList)) := by
      unfold FormCheckbox.parseMsg
      cases he : f.element with
      | nil => exact absurd he hne
      | cons a l => simp only [FormValidator.parseMsg, ht]
    have hidc := fun i => setValidityAll_checked dom f.element "" i
    have hstop : f.atUnchecked (setValidityAll dom f.element "") box
        = some (.returned false, setCustomValidity (setValidityAll dom f.element "") box
            (String.mk (interpolate f.reqs template.toList))) := by
      unfold FormCheckbox.atUnchecked
      rw [hs]
      simp only [(hidc box).2, hid, beq_self_eq_true, if_true, hparse]
    have hval : f.validate dom = (.returned false,
        setCustomValidity (setValidityAll dom f.element "") box
          (String.mk (interpolate f.reqs template.toList))) := by
      have hm := FormCheckbox.scan_stop f (setValidityAll dom f.element "") pre box post
        _ (fun i hi hc => by
          rw [(hidc i).1] at hc
          rcases hpre i hi with h | h
          · rw [h] at hc; cases hc
          · exact FormCheckbox.atUnchecked_str_ne f _ i s hs (by rw [(hidc i).2]; exact h))
        (by rw [(hidc box).1]; exact hbox) hstop 0
      unfold FormCheckbox.validate
      simp only [FormCheckbox.setValidity]
      rw [hel] at hm ⊢
      rw [hm]
    refine ⟨hval, ?_, ?_⟩
    · rw [hval]
      simp [setCustomValidity]
    · intro i hi hne'
      rw [hval]
      show (setCustomValidity (setValidityAll dom f.element "") box _ i).customValidity = ""
      unfold setCustomValidity
      rw [Function.update_noteq hne', setValidityAll_apply, if_pos hi]
  · intro hall
    have hval := FormCheckbox.validate_counted f dom (fun i hi hc => by
      apply FormCheckbox.atUnchecked_str_ne f _ i s hs
      rw [(setValidityAll_checked dom f.element "" i).2]
      intro hid
      rw [hall i hi hid] at hc
      cases hc)
    refine ⟨hval, ?_⟩
    intro lo hi hlo hhi h1 h2
    rw [hval, hlo, hhi, jsLt_num, jsGe_num, jsGt_num]
    have e1 : decide ((checkedCount dom f.element : Int) < lo) = false := by
      simp only [decide_eq_false_iff_not]; omega
    have e2 : (decide ((0 : Int) ≤ hi) && decide (hi < (checkedCount dom f.element : Int)))
        = false := by
      simp only [Bool.and_eq_false_imp, decide_eq_true_eq, decide_eq_false_iff_not]
      intro h; omega
    simp only [e1, e2, Bool.false_eq_true, if_false]

theorem C11_checkbox_required_by_id_witness :
    (Obj.get [("required", .str "opt2"), ("minSelect", .num 0), ("maxSelect", .num (-1))]
        "required" = .str "opt2"
      ∧ ([0, 1, 2] : List Nat) = [0] ++ 1 :: [2]
      ∧ (∀ i ∈ [0], (boxDom true false true i).checked = true
          ∨ (boxDom true false true i).id ≠ "opt2")
      ∧ (boxDom true false true 1).checked = false
      ∧ (boxDom true false true 1).id = "opt2"
      ∧ Obj.get FormCheckbox.defaultMsgs "required" = .str "Please select this checkbox.")
    ∧ ((FormCheckbox.mk [0, 1, 2] []
          [("required", .str "opt2"), ("minSelect", .num 0), ("maxSelect", .num (-1))]
          FormCheckbox.defaultMsgs).validate (boxDom true false true)
        = (.returned false, setCustomValidity (setValidityAll (boxDom true false true)
            [0, 1, 2] "") 1
            (String.mk (interpolate
              [("required", .str "opt2"), ("minSelect", .num 0), ("maxSelect", .num (-1))]
              "Please select this checkbox.".toList))))
    ∧ String.mk (interpolate
          [("required", .str "opt2"), ("minSelect", .num 0), ("maxSelect", .num (-1))]
          "Please select this checkbox.".toList) = "Please select this checkbox." :=
  ⟨by decide,
    ((C11_checkbox_required_by_id (FormCheckbox.mk [0, 1, 2] []
        [("required", .str "opt2"), ("minSelect", .num 0), ("maxSelect", .num (-1))]
        FormCheckbox.defaultMsgs) (boxDom true false true) "opt2" (by decide)).1
      [0] 1 [2] "Please select this checkbox." rfl (by decide) (by decide) (by decide)
      (by decide)).1,
    by decide⟩

/-- C12 (code defect): with `required` an array that lists the id of an unchecked
member, `validate` does not return false. The log line of that branch calls
`this.validator.item(0)`, which the form validator does not have, so a `TypeError`
is thrown before any message is set: with `required = ["opt2"]` and `opt2`
unchecked the call throws and every member is left with the empty custom
validity. The branch for a single string id returns false with the message. -/
theorem C12_required_sequence_throws :
    (FormCheckbox.new [0, 1, 2] [("required", .arr ["opt2"])]).map
        (fun f => (f.validate (boxDom true false true)).1) = some .threw
    ∧ (FormCheckbox.new [0, 1, 2] [("required", .arr ["opt2"])]).map
        (fun f => [0, 1, 2].map
          (fun i => ((f.validate (boxDom true false true)).2 i).customValidity))
        = some ["", "", ""]
    ∧ (FormCheckbox.new [0, 1, 2] [("required", .str "opt2")]).map
        (fun f => (f.validate (boxDom true false true)).1) = some (.returned false)
    ∧ (FormCheckbox.new [0, 1, 2] [("required", .str "opt2")]).map
        (fun f => [0, 1, 2].map
          (fun i => ((f.validate (boxDom true false true)).2 i).customValidity))
        = some ["", "Please select this checkbox.", ""] := by
  decide

/-! ## A boolean `required` on a checkbox group -/

theorem replacePlaceholders_congr (cb1 cb2 : List Char → List Char) (t : List Char) (skip : Nat)
    (h : ∀ key pre post, t = pre ++ '{' :: (key ++ '}' :: post) → cb1 key = cb2 key) :
    replacePlaceholders cb1 t skip = replacePlaceholders cb2 t skip := by
  induction t generalizing skip with
  | nil => rfl
  | cons c rest ih =>
    have ih' := fun skip => ih skip (fun key pre post hs => h key (c :: pre) post (by rw [hs]; rfl))
    cases skip with
    | succ n => simp only [replacePlaceholders, ih']
    | zero =>
      cases hm : matchPlaceholder (c :: rest) with
      | none => simp only [replacePlaceholders, hm, ih']
      | some key =>
        obtain ⟨rest', -, hs⟩ := matchPlaceholder_some _ _ hm
        simp only [replacePlaceholders, hm, ih', h key [] rest' hs]

theorem containsStr_infix (pat pre post : List Char) :
    containsStr pat (pre ++ (pat ++ post)) = true := by
  induction pre with
  | nil =>
    cases hp : pat ++ post with
    | nil =>
      have : pat = [] := (List.append_eq_nil.mp hp).1
      simp [containsStr, this]
    | cons c cs =>
      have hpre : pat.isPrefixOf (c :: cs) = true := by
        rw [← hp]
        exact List.isPrefixOf_iff_prefix.mpr (List.prefix_append _ _)
      simp [containsStr, hpre]
  | cons c rest ih =>
    rw [List.cons_append, containsStr, ih, Bool.or_true]

theorem jsGt_bool_one (b : Bool) : jsGt (.bool b) (.num 1) = false := by
  cases b <;> simp [jsGt, jsLess, toPrimitive, toNumber, Num.lt_integers]

theorem resolveKey_required (reqs : Obj) (b : Bool) (key : List Char)
    (hreq : reqs.get "required" = .bool b) (hkey : key ≠ "required".toList) (b' : Bool) :
    resolveKey (reqs.set "required" (.bool b')) key = resolveKey reqs key := by
  have hne : ¬ String.mk key = "required" := fun h => hkey (congrArg String.toList h)
  have hhasr : reqs.has "required" = true :=
    Obj.has_of_get_ne_undefined _ _ (by rw [hreq]; simp)
  have hhas : ∀ k, (reqs.set "required" (.bool b')).has k = reqs.has k := by
    intro k
    rw [Obj.has_set]
    by_cases hk : k = "required"
    · subst hk; simp [hhasr]
    · simp [hk]
  unfold resolveKey
  rw [hhas, Obj.get_set, if_neg hne, Obj.get_set]
  by_cases hd : String.mk (List.drop 2 key) = "required"
  · rw [if_pos hd, hd, hreq, jsGt_bool_one, jsGt_bool_one]
  · rw [if_neg hd]

theorem interpolate_required (reqs : Obj) (b b' : Bool) (t : List Char)
    (hreq : reqs.get "required" = .bool b)
    (ht : containsStr "{required}".toList t = false) :
    interpolate (reqs.set "required" (.bool b')) t = interpolate reqs t := by
  unfold interpolate
  apply replacePlaceholders_congr
  intro key pre post hs
  have hkey : key ≠ "required".toList := by
    intro hk
    subst hk
    have := containsStr_infix "{required}".toList pre post
    rw [hs] at ht
    have e : pre ++ '{' :: ("required".toList ++ '}' :: post)
        = pre ++ ("{required}".toList ++ post) := rfl
    rw [e, this] at ht
    cases ht
  rw [resolveKey_required reqs b key hreq hkey]

theorem FormCheckbox.atUnchecked_bool (f : FormCheckbox) (dom : Dom) (i : Nat) (b : Bool)
    (hreq : f.reqs.get "required" = .bool b) : f.atUnchecked dom i = none := by
  apply FormCheckbox.atUnchecked_none
  rw [hreq]
  trivial

theorem FormCheckbox.fail_required_outcome (f : FormCheckbox) (dom : Dom) (setting : String)
    (v : JSVal) :
    (({ f with reqs := f.reqs.set "required" v } : FormCheckbox).fail dom setting).1
      = (f.fail dom setting).1 := by
  unfold FormCheckbox.fail FormCheckbox.parseMsg FormValidator.parseMsg
  cases f.msgs.get setting <;> cases f.element <;> rfl

theorem FormCheckbox.fail_required (f : FormCheckbox) (dom : Dom) (setting : String)
    (b b' : Bool) (hreq : f.reqs.get "required" = .bool b)
    (ht : ∀ t, f.msgs.get setting = .str t → containsStr "{required}".toList t.toList = false) :
    ({ f with reqs := f.reqs.set "required" (.bool b') } : FormCheckbox).fail dom setting
      = f.fail dom setting := by
  unfold FormCheckbox.fail FormCheckbox.parseMsg FormValidator.parseMsg
  cases hm : f.msgs.get setting with
  | str t =>
    simp only [FormCheckbox.setValidity, interpolate_required f.reqs b b' t.toList hreq (ht t hm)]
  | _ => cases f.element <;> rfl

theorem FormCheckbox.defaultMsgs_lack_required :
    ∀ setting ∈ ["minSelect", "maxSelect"], ∀ t,
      FormCheckbox.defaultMsgs.get setting = .str t →
        containsStr "{required}".toList t.toList = false := by
  intro setting hs t ht
  simp only [List.mem_cons, List.mem_singleton, List.not_mem_nil, or_false] at hs
  rcases hs with rfl | rfl
  · have e : FormCheckbox.defaultMsgs.get "minSelect"
        = .str "You must select at least {minSelect} option{s-minSelect}." := rfl
    rw [e] at ht
    injection ht with ht
    subst ht
    decide
  · have e : FormCheckbox.defaultMsgs.get "maxSelect"
        = .str "You cannot select more than {maxSelect} option{s-maxSelect}." := rfl
    rw [e] at ht
    injection ht with ht
    subst ht
    decide

/-- C13 (counterexample): a group of three unchecked boxes with `minSelect = 1` and the
`minSelect` message "Select a box (required: {required}).". With `required = true`
and with `required = false` the call of `validate` returns false, but the custom
validity it leaves on the first box reads "(required: true)" in the one case and
"(required: false)" in the other: the custom validity is not the same. -/
theorem C13_required_placeholder_differs :
    (FormCheckbox.new [0, 1, 2] [("required", .bool true), ("minSelect", .num 1),
          ("minSelectMsg", .str "Select a box (required: {required}).")]).map
        (fun f => ((f.validate (boxDom false false false)).1,
          ((f.validate (boxDom false false false)).2 0).customValidity))
      = some (.returned false, "Select a box (required: true).")
    ∧ (FormCheckbox.new [0, 1, 2] [("required", .bool false), ("minSelect", .num 1),
          ("minSelectMsg", .str "Select a box (required: {required}).")]).map
        (fun f => ((f.validate (boxDom false false false)).1,
          ((f.validate (boxDom false false false)).2 0).customValidity))
      = some (.returned false, "Select a box (required: false).") := by
  decide

/-- C13 (amended): on a checkbox group `required = true` enforces nothing. A validator
whose `required` is `true` returns the same outcome as the validator with
`required = false` and otherwise equal; the documents they leave, and so the custom
validity of every member, are equal too provided the `minSelect` and `maxSelect`
message templates do not mention the placeholder `{required}` (the default templates
do not). In particular, with `required = true`, `minSelect = 0`, no maximum and no
box checked, validation passes. -/
theorem C13_boolean_required_no_effect (f : FormCheckbox) (dom : Dom)
    (hreq : f.reqs.get "required" = .bool true) :
    (f.validate dom).1
        = (({ f with reqs := f.reqs.set "required" (.bool false) } : FormCheckbox).validate dom).1
    ∧ ((∀ setting ∈ ["minSelect", "maxSelect"], ∀ t, f.msgs.get setting = .str t →
          containsStr "{required}".toList t.toList = false) →
        f.validate dom
          = ({ f with reqs := f.reqs.set "required" (.bool false) } : FormCheckbox).validate dom)
    ∧ (∀ setting ∈ ["minSelect", "maxSelect"], ∀ t,
        FormCheckbox.defaultMsgs.get setting = .str t →
          containsStr "{required}".toList t.toList = false)
    ∧ (∀ hi : Int, f.reqs.get "minSelect" = .num 0 → f.reqs.get "maxSelect" = .num hi →
        hi < 0 → f.validate dom = (.returned true, setValidityAll dom f.element "")) := by
  have hv := FormCheckbox.validate_counted f dom
    (fun i _ _ => FormCheckbox.atUnchecked_bool f _ i true hreq)
  have hreq' : (({ f with reqs := f.reqs.set "required" (.bool false) } : FormCheckbox).reqs).get
      "required" = .bool false := by
    simp only [Obj.get_set, if_true]
  have hv' := FormCheckbox.validate_counted
    ({ f with reqs := f.reqs.set "required" (.bool false) } : FormCheckbox) dom
    (fun i _ _ => FormCheckbox.atUnchecked_bool _ _ i false hreq')
  have hmin : (f.reqs.set "required" (.bool false)).get "minSelect" = f.reqs.get "minSelect" := by
    rw [Obj.get_set, if_neg (by decide)]
  have hmax : (f.reqs.set "required" (.bool false)).get "maxSelect" = f.reqs.get "maxSelect" := by
    rw [Obj.get_set, if_neg (by decide)]
  simp only [hmin, hmax] at hv'
  refine ⟨?_, ?_, ?_, ?_⟩
  · rw [hv, hv']
    split
    · exact (FormCheckbox.fail_required_outcome f _ _ _).symm
    · split
      · exact (FormCheckbox.fail_required_outcome f _ _ _).symm
      · rfl
  · intro hmsgs
    rw [hv, hv',
      FormCheckbox.fail_required f _ "minSelect" true false hreq
        (hmsgs "minSelect" (by simp)),
      FormCheckbox.fail_required f _ "maxSelect" true false hreq
        (hmsgs "maxSelect" (by simp))]
  · exact FormCheckbox.defaultMsgs_lack_required
  · intro hi hlo hhi hneg
    rw [hv, hlo, hhi, jsLt_num, jsGe_num, jsGt_num]
    have e1 : decide ((checkedCount dom f.element : Int) < 0) = false := by
      simp only [decide_eq_false_iff_not]; omega
    have e2 : decide ((0 : Int) ≤ hi) = false := by
      simp only [decide_eq_false_iff_not]; omega
    simp only [e1, e2, Bool.false_and, Bool.false_eq_true, if_false]

theorem C13_boolean_required_no_effect_witness :
    (Obj.get [("required", .bool true), ("minSelect", .num 0), ("maxSelect", .num (-1))]
        "required" = .bool true
      ∧ (∀ setting ∈ ["minSelect", "maxSelect"], ∀ t,
          FormCheckbox.defaultMsgs.get setting = .str t →
            containsStr "{required}".toList t.toList = false))
    ∧ (FormCheckbox.mk [0, 1, 2] []
          [("required", .bool true), ("minSelect", .num 0), ("maxSelect", .num (-1))]
          FormCheckbox.defaultMsgs).validate (boxDom false false false)
        = (FormCheckbox.mk [0, 1, 2] []
          (Obj.set [("required", .bool true), ("minSelect", .num 0), ("maxSelect", .num (-1))]
            "required" (.bool false))
          FormCheckbox.defaultMsgs).validate (boxDom false false false)
    ∧ (FormCheckbox.mk [0, 1, 2] []
          [("required", .bool true), ("minSelect", .num 0), ("maxSelect", .num (-1))]
          FormCheckbox.defaultMsgs).validate (boxDom false false false)
        = (.returned true, setValidityAll (boxDom false false false) [0, 1, 2] "") :=
  ⟨⟨by decide, FormCheckbox.defaultMsgs_lack_required⟩,
    (C13_boolean_required_no_effect (FormCheckbox.mk [0, 1, 2] []
        [("required", .bool true), ("minSelect", .num 0), ("maxSelect", .num (-1))]
        FormCheckbox.defaultMsgs) (boxDom false false false) (by decide)).2.1
      FormCheckbox.defaultMsgs_lack_required,
    (C13_boolean_required_no_effect (FormCheckbox.mk [0, 1, 2] []
        [("required", .bool true), ("minSelect", .num 0), ("maxSelect", .num (-1))]
        FormCheckbox.defaultMsgs) (boxDom false false false) (by decide)).2.2.2 (-1)
      (by decide) (by decide) (by decide)⟩

/-! ## Validation of a drop-down list -/

theorem jsLt_str_num (v : String) (n : Int) :
    jsLt (.str v) (.num n) = ((strToNumber v).lt (.fin n 0) == some true) := by
  unfold jsLt jsLess
  simp only [toPrimitive, toNumber]

theorem jsGt_str_num (v : String) (n : Int) :
    jsGt (.str v) (.num n) = (Num.lt (.fin n 0) (strToNumber v) == some true) := by
  unfold jsGt jsLess
  simp only [toPrimitive, toNumber]

theorem FormSelect.selectFail_str (f : FormSelect) (dom : Dom) (setting template : String)
    (ht : f.msgs.get setting = .str template) :
    f.fail (setCustomValidity dom f.element "") setting
      = (.returned false, setCustomValidity dom f.element
          (String.mk (interpolate f.reqs template.toList))) := by
  simp only [FormSelect.fail, FormSelect.parseMsg, FormValidator.parseMsg, ht,
    setCustomValidity_twice]

/-- C14: a drop-down list with numeric `minVal` and `maxVal`, for every value of the
control. When the control is required and its value is the empty string, `validate`
returns false with the fixed message "Please select an item in the list."; otherwise,
when the value is below `minVal`, false with the `minVal` message; otherwise, when
`maxVal >= 0` and the value is above `maxVal`, false with the `maxVal` message;
otherwise true with the custom validity cleared. Below and above are the operators
`<` and `>` between the string value and the number, which compare the Number value
of the string (NaN for a text that is no numeric literal, so that neither holds). -/
theorem C14_select_validate (f : FormSelect) (dom : Dom) (lo hi : Int)
    (hlo : f.reqs.get "minVal" = .num lo) (hhi : f.reqs.get "maxVal" = .num hi) :
    (((dom f.element).required = true ∧ (dom f.element).value = "") →
        f.validate dom = (.returned false,
          setCustomValidity dom f.element "Please select an item in the list."))
    ∧ (¬ ((dom f.element).required = true ∧ (dom f.element).value = "") →
        jsLt (.str (dom f.element).value) (.num lo) = true →
        ∀ template, f.msgs.get "minVal" = .str template →
          f.validate dom = (.returned false, setCustomValidity dom f.element
            (String.mk (interpolate f.reqs template.toList))))
    ∧ (¬ ((dom f.element).required = true ∧ (dom f.element).value = "") →
        jsLt (.str (dom f.element).value) (.num lo) = false →
        0 ≤ hi → jsGt (.str (dom f.element).value) (.num hi) = true →
        ∀ template, f.msgs.get "maxVal" = .str template →
          f.validate dom = (.returned false, setCustomValidity dom f.element
            (String.mk (interpolate f.reqs template.toList))))
    ∧ (¬ ((dom f.element).required = true ∧ (dom f.element).value = "") →
        jsLt (.str (dom f.element).value) (.num lo) = false →
        (hi < 0 ∨ jsGt (.str (dom f.element).value) (.num hi) = false) →
        f.validate dom = (.returned true, setCustomValidity dom f.element ""))
    ∧ (∀ (v : String) (n : Int),
        jsLt (.str v) (.num n) = ((strToNumber v).lt (.fin n 0) == some true)
        ∧ jsGt (.str v) (.num n) = (Num.lt (.fin n 0) (strToNumber v) == some true)
        ∧ (strToNumber v = .nan → jsLt (.str v) (.num n) = false ∧ jsGt (.str v) (.num n) = false)) := by
  have hval : (setCustomValidity dom f.element "" f.element).value = (dom f.element).value := by
    simp [setCustomValidity]
  have hrq : (setCustomValidity dom f.element "" f.element).required
      = (dom f.element).required := by
    simp [setCustomValidity]
  refine ⟨?_, ?_, ?_, ?_, ?_⟩
  · rintro ⟨h1, h2⟩
    unfold FormSelect.validate
    simp only [hval, hrq, h1, h2, beq_self_eq_true, Bool.and_self, if_true,
      setCustomValidity_twice]
  · intro hne hlt template ht
    have hc : ((dom f.element).required && (dom f.element).value == "") = false := by
      simp only [Bool.and_eq_false_imp, beq_eq_false_iff_ne, ne_eq]
      exact fun h1 h2 => hne ⟨h1, h2⟩
    unfold FormSelect.validate
    simp only [hval, hrq, hc, Bool.false_eq_true, if_false, hlo, hlt, if_true,
      FormSelect.selectFail_str f dom _ template ht]
  · intro hne hge hhi0 hgt template ht
    have hc : ((dom f.element).required && (dom f.element).value == "") = false := by
      simp only [Bool.and_eq_false_imp, beq_eq_false_iff_ne, ne_eq]
      exact fun h1 h2 => hne ⟨h1, h2⟩
    unfold FormSelect.validate
    simp only [hval, hrq, hc, Bool.false_eq_true, if_false, hlo, hhi, hge, hgt,
      jsGe_num, decide_eq_true hhi0, Bool.and_self, if_true,
      FormSelect.selectFail_str f dom _ template ht]
  · intro hne hge h2
    have hc : ((dom f.element).required && (dom f.element).value == "") = false := by
      simp only [Bool.and_eq_false_imp, beq_eq_false_iff_ne, ne_eq]
      exact fun h1 h2 => hne ⟨h1, h2⟩
    have e2 : (decide ((0 : Int) ≤ hi) && jsGt (.str (dom f.element).value) (.num hi)) = false := by
      rcases h2 with h | h
      · have : decide ((0 : Int) ≤ hi) = false := by
          simp only [decide_eq_false_iff_not]; omega
        rw [this, Bool.false_and]
      · rw [h, Bool.and_false]
    unfold FormSelect.validate
    simp only [hval, hrq, hc, Bool.false_eq_true, if_false, hlo, hhi, hge, jsGe_num, e2]
  · intro v n
    refine ⟨jsLt_str_num v n, jsGt_str_num v n, fun hnan => ?_⟩
    rw [jsLt_str_num, jsGt_str_num, hnan]
    exact ⟨rfl, rfl⟩

theorem C14_select_validate_witness :
    ((FormSelect.new (textDom "") 0 [("minVal", .num 5)]).1.reqs.get "minVal" = .num 5
      ∧ (FormSelect.new (textDom "") 0 [("minVal", .num 5)]).1.reqs.get "maxVal" = .num (-1)
      ∧ ¬ ((textDom "3" (FormSelect.new (textDom "") 0 [("minVal", .num 5)]).1.element).required
            = true
          ∧ (textDom "3" (FormSelect.new (textDom "") 0 [("minVal", .num 5)]).1.element).value
            = "")
      ∧ jsLt (.str (textDom "3" (FormSelect.new (textDom "") 0
          [("minVal", .num 5)]).1.element).value) (.num 5) = true
      ∧ (FormSelect.new (textDom "") 0 [("minVal", .num 5)]).1.msgs.get "minVal"
          = .str "The selected value is too low.")
    ∧ (FormSelect.new (textDom "") 0 [("minVal", .num 5)]).1.validate (textDom "3")
        = (.returned false, setCustomValidity (textDom "3")
            (FormSelect.new (textDom "") 0 [("minVal", .num 5)]).1.element
            (String.mk (interpolate (FormSelect.new (textDom "") 0 [("minVal", .num 5)]).1.reqs
              "The selected value is too low.".toList)))
    ∧ String.mk (interpolate (FormSelect.new (textDom "") 0 [("minVal", .num 5)]).1.reqs
          "The selected value is too low.".toList) = "The selected value is too low."
    ∧ (((FormSelect.new (textDom "") 0 [("minVal", .num 5)]).1.validate (textDom "10")).1
          = .returned true
        ∧ (((FormSelect.new (textDom "") 0 [("minVal", .num 5)]).1.validate
            (textDom "10")).2 0).customValidity = "")
    ∧ (((FormSelect.new (textDom "") 0 [("minVal", .num 5)]).1.validate (textDom "3.5")).1
          = .returned false
        ∧ (((FormSelect.new (textDom "") 0 [("minVal", .num 5)]).1.validate
            (textDom "3.5")).2 0).customValidity = "The selected value is too low.")
    ∧ (((FormSelect.new (textDom "") 0 [("minVal", .num 5)]).1.validate (textDom "red")).1
          = .returned true
        ∧ (((FormSelect.new (textDom "") 0 [("minVal", .num 5)]).1.validate
            (textDom "red")).2 0).customValidity = "")
    ∧ ((FormSelect.new (textDom "") 0 [("maxVal", .num 9007199254740992)]).1.validate
          (textDom "9007199254740993")).1 = .returned true :=
  ⟨by decide,
    (C14_select_validate (FormSelect.new (textDom "") 0 [("minVal", .num 5)]).1 (textDom "3")
      5 (-1) (by decide) (by decide)).2.1 (by decide) (by decide) _ (by decide),
    by decide, by decide, by decide, by decide, by decide⟩

/-! ## What a call of `validate` reads and writes -/

theorem setCustomValidity_eq_withValidity (dom : Dom) (el : Nat) (msg : String) :
    setCustomValidity dom el msg = withValidity dom [el] (fun _ => msg) := by
  funext i
  unfold setCustomValidity withValidity
  by_cases h : i = el
  · subst h; simp
  · simp [h, Function.update_noteq h]

theorem setValidityAll_eq_withValidity (dom : Dom) (cs : List Nat) (msg : String) :
    setValidityAll dom cs msg = withValidity dom cs (fun _ => msg) := by
  funext i
  rw [setValidityAll_apply]
  rfl

theorem withValidity_sameInputs (dom : Dom) (cs : List Nat) (msgOf : Nat → String) :
    sameInputs (withValidity dom cs msgOf) dom := by
  intro i
  unfold withValidity eraseValidity
  by_cases h : i ∈ cs <;> simp [h]

theorem withValidity_outside (dom : Dom) (cs : List Nat) (msgOf : Nat → String) (i : Nat)
    (h : i ∉ cs) : withValidity dom cs msgOf i = dom i := by
  simp [withValidity, h]

theorem withValidity_inside (dom : Dom) (cs : List Nat) (msgOf : Nat → String) (i : Nat)
    (h : i ∈ cs) : (withValidity dom cs msgOf i).customValidity = msgOf i := by
  simp [withValidity, h]

theorem sameInputs_fields (d1 d2 : Dom) (h : sameInputs d1 d2) (i : Nat) :
    (d1 i).value = (d2 i).value ∧ (d1 i).checked = (d2 i).checked
      ∧ (d1 i).required = (d2 i).required ∧ (d1 i).nativeValid = (d2 i).nativeValid
      ∧ (d1 i).id = (d2 i).id := by
  have h1 : (eraseValidity (d1 i)).value = (eraseValidity (d2 i)).value :=
    congrArg Control.value (h i)
  have h2 : (eraseValidity (d1 i)).checked = (eraseValidity (d2 i)).checked :=
    congrArg Control.checked (h i)
  have h3 : (eraseValidity (d1 i)).required = (eraseValidity (d2 i)).required :=
    congrArg Control.required (h i)
  have h4 : (eraseValidity (d1 i)).nativeValid = (eraseValidity (d2 i)).nativeValid :=
    congrArg Control.nativeValid (h i)
  have h5 : (eraseValidity (d1 i)).id = (eraseValidity (d2 i)).id :=
    congrArg Control.id (h i)
  exact ⟨h1, h2, h3, h4, h5⟩

theorem sameInputs_trans (d1 d2 d3 : Dom) (h12 : sameInputs d1 d2) (h23 : sameInputs d2 d3) :
    sameInputs d1 d3 := fun i => (h12 i).trans (h23 i)

theorem sameInputs_symm (d1 d2 : Dom) (h : sameInputs d1 d2) : sameInputs d2 d1 :=
  fun i => (h i).symm

theorem setValidityAll_congr (d1 d2 : Dom) (cs : List Nat) (msg : String)
    (h : sameInputs d1 d2) (hout : ∀ i ∉ cs, d1 i = d2 i) :
    setValidityAll d1 cs msg = setValidityAll d2 cs msg := by
  funext i
  rw [setValidityAll_apply, setValidityAll_apply]
  by_cases hi : i ∈ cs
  · rw [if_pos hi, if_pos hi]
    have := h i
    unfold eraseValidity at this
    have e : ({ d1 i with customValidity := msg } : Control)
        = { ({ d1 i with customValidity := "" } : Control) with customValidity := msg } := rfl
    rw [e, this]
  · rw [if_neg hi, if_neg hi, hout i hi]

theorem FormTextField.fail_shape (f : FormTextField) (dom : Dom) (setting : String) :
    ∃ msg, (f.fail (setCustomValidity dom f.element "") setting).2
        = setCustomValidity dom f.element msg
      ∧ (f.fail (setCustomValidity dom f.element "") setting).1 ≠ .returned true := by
  unfold FormTextField.fail
  cases f.parseMsg setting with
  | none => exact ⟨"", rfl, by simp⟩
  | some m => exact ⟨m, setCustomValidity_twice _ _ _ _, by simp⟩

theorem FormTextField.validate_shape_text (f : FormTextField) (dom : Dom) :
    ∃ msg, (f.validate dom).2 = setCustomValidity dom f.element msg
      ∧ ((f.validate dom).1 = .returned true → msg = "") := by
  unfold FormTextField.validate
  dsimp only
  split
  · exact ⟨"", rfl, fun _ => rfl⟩
  · split
    · rename_i setting _
      obtain ⟨msg, h1, h2⟩ := FormTextField.fail_shape f dom setting
      exact ⟨msg, h1, fun h => absurd h h2⟩
    · split
      · obtain ⟨msg, h1, h2⟩ := FormTextField.fail_shape f dom "matches"
        exact ⟨msg, h1, fun h => absurd h h2⟩
      · exact ⟨"", rfl, fun _ => rfl⟩

theorem FormSelect.fail_shape_select (f : FormSelect) (dom : Dom) (setting : String) :
    ∃ msg, (f.fail (setCustomValidity dom f.element "") setting).2
        = setCustomValidity dom f.element msg
      ∧ (f.fail (setCustomValidity dom f.element "") setting).1 ≠ .returned true := by
  unfold FormSelect.fail
  cases f.parseMsg setting with
  | none => exact ⟨"", rfl, by simp⟩
  | some m => exact ⟨m, setCustomValidity_twice _ _ _ _, by simp⟩

theorem FormSelect.validate_shape_select (f : FormSelect) (dom : Dom) :
    ∃ msg, (f.validate dom).2 = setCustomValidity dom f.element msg
      ∧ ((f.validate dom).1 = .returned true → msg = "") := by
  unfold FormSelect.validate
  dsimp only
  split
  · exact ⟨"Please select an item in the list.", setCustomValidity_twice _ _ _ _,
      fun h => by simp at h⟩
  · split
    · obtain ⟨msg, h1, h2⟩ := FormSelect.fail_shape_select f dom "minVal"
      exact ⟨msg, h1, fun h => absurd h h2⟩
    · split
      · obtain ⟨msg, h1, h2⟩ := FormSelect.fail_shape_select f dom "maxVal"
        exact ⟨msg, h1, fun h => absurd h h2⟩
      · exact ⟨"", rfl, fun _ => rfl⟩

theorem FormRadioButton.validate_shape_radio (f : FormRadioButton) (dom : Dom) :
    ∃ msg, (f.validate dom).2 = setValidityAll dom f.element msg
      ∧ ((f.validate dom).1 = .returned true → msg = "") := by
  unfold FormRadioButton.validate
  dsimp only [FormRadioButton.setValidity]
  split
  · exact ⟨"", rfl, fun _ => rfl⟩
  · split
    · exact ⟨"", rfl, fun _ => rfl⟩
    · split
      · exact ⟨"", rfl, fun _ => rfl⟩
      · exact ⟨_, setValidityAll_twice _ _ _ _, fun h => by simp at h⟩

theorem FormCheckbox.atUnchecked_shape (f : FormCheckbox) (d : Dom) (box : Nat)
    (r : Outcome × Dom) (h : f.atUnchecked d box = some r) :
    r.1 ≠ .returned true ∧ ∃ msg, r.2 = setCustomValidity d box msg := by
  have hid : d = setCustomValidity d box (d box).customValidity := by
    unfold setCustomValidity
    simp
  unfold FormCheckbox.atUnchecked at h
  split at h
  · split at h
    · split at h
      · injection h with h; subst h
        exact ⟨by simp, _, rfl⟩
      · injection h with h; subst h
        exact ⟨by simp, _, hid⟩
    · cases h
  · split at h
    · injection h with h; subst h
      exact ⟨by simp, _, hid⟩
    · cases h
  · injection h with h; subst h
    exact ⟨by simp, _, hid⟩
  · cases h

theorem FormCheckbox.scan_shape (f : FormCheckbox) (d : Dom) (l : List Nat) (n : Nat)
    (r : Outcome × Dom) (h : f.scan d l n = .inl r) :
    r.1 ≠ .returned true ∧ ∃ box msg, box ∈ l ∧ r.2 = setCustomValidity d box msg := by
  induction l generalizing n with
  | nil => simp [FormCheckbox.scan] at h
  | cons a rest ih =>
    rw [FormCheckbox.scan] at h
    split at h
    · obtain ⟨h1, box, msg, hb, h2⟩ := ih _ h
      exact ⟨h1, box, msg, List.mem_cons_of_mem _ hb, h2⟩
    · cases hu : f.atUnchecked d a with
      | none =>
        rw [hu] at h
        obtain ⟨h1, box, msg, hb, h2⟩ := ih _ h
        exact ⟨h1, box, msg, List.mem_cons_of_mem _ hb, h2⟩
      | some stop =>
        rw [hu] at h
        injection h with h
        subst h
        obtain ⟨h1, msg, h2⟩ := FormCheckbox.atUnchecked_shape f d a stop hu
        exact ⟨h1, a, msg, List.mem_cons_self _ _, h2⟩

theorem FormCheckbox.fail_shape_group (f : FormCheckbox) (dom : Dom) (setting : String) :
    ∃ msg, (f.fail (setValidityAll dom f.element "") setting).2
        = setValidityAll dom f.element msg
      ∧ (f.fail (setValidityAll dom f.element "") setting).1 ≠ .returned true := by
  unfold FormCheckbox.fail
  cases f.parseMsg setting with
  | none => exact ⟨"", rfl, by simp⟩
  | some m => exact ⟨m, setValidityAll_twice _ _ _ _, by simp⟩

theorem FormCheckbox.validate_shape_group (f : FormCheckbox) (dom : Dom) :
    ∃ msgOf, (f.validate dom).2 = withValidity dom f.element msgOf
      ∧ ((f.validate dom).1 = .returned true → ∀ i ∈ f.element, msgOf i = "") := by
  unfold FormCheckbox.validate
  dsimp only [FormCheckbox.setValidity]
  cases hs : f.scan (setValidityAll dom f.element "") f.element 0 with
  | inl stop =>
    obtain ⟨h1, box, msg, hb, h2⟩ := FormCheckbox.scan_shape f _ _ _ _ hs
    refine ⟨fun i => if i = box then msg else "", ?_, fun h => absurd h h1⟩
    dsimp only
    rw [h2]
    funext i
    unfold setCustomValidity withValidity
    by_cases hi : i = box
    · subst hi
      simp [hb, setValidityAll_apply]
    · rw [Function.update_noteq hi, setValidityAll_apply]
      by_cases hm : i ∈ f.element <;> simp [hm, hi]
  | inr numChecked =>
    dsimp only
    split
    · obtain ⟨msg, h1, h2⟩ := FormCheckbox.fail_shape_group f dom "minSelect"
      exact ⟨fun _ => msg, by rw [h1, setValidityAll_eq_withValidity], fun h => absurd h h2⟩
    · split
      · obtain ⟨msg, h1, h2⟩ := FormCheckbox.fail_shape_group f dom "maxSelect"
        exact ⟨fun _ => msg, by rw [h1, setValidityAll_eq_withValidity], fun h => absurd h h2⟩
      · exact ⟨fun _ => "", setValidityAll_eq_withValidity _ _ _, fun _ _ _ => rfl⟩

theorem FieldValidator.validate_shape (item : FieldValidator) (dom : Dom) :
    ∃ msgOf, (item.validate dom).2 = withValidity dom item.controls msgOf
      ∧ ((item.validate dom).1 = .returned true → ∀ i ∈ item.controls, msgOf i = "") := by
  cases item with
  | text f =>
    obtain ⟨msg, h1, h2⟩ := FormTextField.validate_shape_text f dom
    exact ⟨fun _ => msg, by
      simp only [FieldValidator.validate, FieldValidator.controls, h1,
        setCustomValidity_eq_withValidity], fun h _ _ => h2 h⟩
  | radio f =>
    obtain ⟨msg, h1, h2⟩ := FormRadioButton.validate_shape_radio f dom
    exact ⟨fun _ => msg, by
      simp only [FieldValidator.validate, FieldValidator.controls, h1,
        setValidityAll_eq_withValidity], fun h _ _ => h2 h⟩
  | checkbox f => exact FormCheckbox.validate_shape_group f dom
  | select f =>
    obtain ⟨msg, h1, h2⟩ := FormSelect.validate_shape_select f dom
    exact ⟨fun _ => msg, by
      simp only [FieldValidator.validate, FieldValidator.controls, h1,
        setCustomValidity_eq_withValidity], fun h _ _ => h2 h⟩

/-- C20: a passing validation clears stale errors. For a validator of any of the
four kinds and any document, when `validate` returns true the custom validity
message of each control it is bound to (each member, for a group) is the empty
string afterwards. -/
theorem C20_pass_clears_custom_validity (item : FieldValidator) (dom : Dom)
    (h : (item.validate dom).1 = .returned true) :
    ∀ i ∈ item.controls, ((item.validate dom).2 i).customValidity = "" := by
  obtain ⟨msgOf, h1, h2⟩ := FieldValidator.validate_shape item dom
  intro i hi
  rw [h1, withValidity_inside _ _ _ _ hi]
  exact h2 h i hi

theorem C20_pass_clears_custom_validity_witness :
    ((FieldValidator.text (FormTextField.new (textDom "") 0
        [("minLength", .num 1)]).1).validate
          (setCustomValidity (textDom "pw") 0 "stale")).1 = .returned true
    ∧ ∀ i ∈ (FieldValidator.text (FormTextField.new (textDom "") 0
          [("minLength", .num 1)]).1).controls,
        (((FieldValidator.text (FormTextField.new (textDom "") 0
          [("minLength", .num 1)]).1).validate
            (setCustomValidity (textDom "pw") 0 "stale")).2 i).customValidity = "" :=
  ⟨by decide,
    C20_pass_clears_custom_validity _ (setCustomValidity (textDom "pw") 0 "stale")
      (by decide)⟩

theorem setCustomValidity_fields (d : Dom) (el : Nat) (msg : String) (i : Nat) :
    (setCustomValidity d el msg i).value = (d i).value
      ∧ (setCustomValidity d el msg i).required = (d i).required := by
  unfold setCustomValidity
  by_cases h : i = el
  · subst h; simp
  · simp [Function.update_noteq h]

theorem FormTextField.fail_outcome (f : FormTextField) (d1 d2 : Dom) (setting : String) :
    (f.fail d1 setting).1 = (f.fail d2 setting).1 := by
  unfold FormTextField.fail
  cases f.parseMsg setting <;> rfl

theorem FormTextField.validate_outcome_congr_text (f : FormTextField) (d1 d2 : Dom)
    (h : sameInputs d1 d2) : (f.validate d1).1 = (f.validate d2).1 := by
  have e1 : (d1 f.element).value = (d2 f.element).value := (sameInputs_fields d1 d2 h _).1
  have e2 : checkValidity (setCustomValidity d1 f.element "") f.element
      = checkValidity (setCustomValidity d2 f.element "") f.element := by
    rw [checkValidity_cleared, checkValidity_cleared, (sameInputs_fields d1 d2 h _).2.2.2.1]
  have e3 : propValue (setCustomValidity d1 f.element "") f.«matches»
      = propValue (setCustomValidity d2 f.element "") f.«matches» := by
    cases f.«matches» <;> try rfl
    simp only [propValue, (setCustomValidity_fields _ _ _ _).1, (sameInputs_fields d1 d2 h _).1]
  unfold FormTextField.validate
  dsimp only
  rw [e1, e2, e3]
  by_cases hv : (!checkValidity (setCustomValidity d2 f.element "") f.element) = true
  · rw [if_pos hv, if_pos hv]
  · rw [if_neg hv, if_neg hv]
    cases f.checkClasses (d2 f.element).value.toList FormTextField.regex with
    | some setting => exact FormTextField.fail_outcome f _ _ setting
    | none =>
      dsimp only
      by_cases hm : (!strLooseEq (d2 f.element).value
          (propValue (setCustomValidity d2 f.element "") f.«matches»)) = true
      · rw [if_pos hm, if_pos hm]
        exact FormTextField.fail_outcome f _ _ _
      · rw [if_neg hm, if_neg hm]

theorem FormSelect.fail_outcome_select (f : FormSelect) (d1 d2 : Dom) (setting : String) :
    (f.fail d1 setting).1 = (f.fail d2 setting).1 := by
  unfold FormSelect.fail
  cases f.parseMsg setting <;> rfl

theorem FormSelect.validate_outcome_congr_select (f : FormSelect) (d1 d2 : Dom)
    (h : sameInputs d1 d2) : (f.validate d1).1 = (f.validate d2).1 := by
  have e1 : (setCustomValidity d1 f.element "" f.element).value
      = (setCustomValidity d2 f.element "" f.element).value := by
    rw [(setCustomValidity_fields _ _ _ _).1, (setCustomValidity_fields _ _ _ _).1,
      (sameInputs_fields d1 d2 h _).1]
  have e2 : (setCustomValidity d1 f.element "" f.element).required
      = (setCustomValidity d2 f.element "" f.element).required := by
    rw [(setCustomValidity_fields _ _ _ _).2, (setCustomValidity_fields _ _ _ _).2,
      (sameInputs_fields d1 d2 h _).2.2.1]
  unfold FormSelect.validate
  dsimp only
  rw [e1, e2]
  split
  · rfl
  · split
    · exact FormSelect.fail_outcome_select f _ _ _
    · split
      · exact FormSelect.fail_outcome_select f _ _ _
      · rfl

theorem FormRadioButton.validate_outcome_congr_radio (f : FormRadioButton) (d1 d2 : Dom)
    (h : sameInputs d1 d2) : (f.validate d1).1 = (f.validate d2).1 := by
  have e : (f.element.any fun i => (setValidityAll d1 f.element "" i).checked)
      = (f.element.any fun i => (setValidityAll d2 f.element "" i).checked) := by
    congr 1
    funext i
    rw [(setValidityAll_checked d1 _ _ i).1, (setValidityAll_checked d2 _ _ i).1,
      (sameInputs_fields d1 d2 h i).2.1]
  unfold FormRadioButton.validate
  dsimp only [FormRadioButton.setValidity]
  rw [e]
  split
  · rfl
  · split
    · rfl
    · cases f.element <;> rfl

theorem FormCheckbox.atUnchecked_outcome (f : FormCheckbox) (d1 d2 : Dom) (box : Nat)
    (hid : (d1 box).id = (d2 box).id) :
    (f.atUnchecked d1 box).map Prod.fst = (f.atUnchecked d2 box).map Prod.fst := by
  unfold FormCheckbox.atUnchecked
  rw [hid]
  cases f.reqs.get "required" with
  | str r =>
    dsimp only
    split
    · cases f.parseMsg "required" <;> rfl
    · rfl
  | arr ids =>
    dsimp only
    split <;> rfl
  | _ => rfl

theorem FormCheckbox.scan_outcome (f : FormCheckbox) (d1 d2 : Dom) (l : List Nat) (n : Nat)
    (h : ∀ i, (d1 i).checked = (d2 i).checked ∧ (d1 i).id = (d2 i).id) :
    Sum.map Prod.fst id (f.scan d1 l n) = Sum.map Prod.fst id (f.scan d2 l n) := by
  induction l generalizing n with
  | nil => rfl
  | cons a rest ih =>
    rw [FormCheckbox.scan, FormCheckbox.scan, (h a).1]
    split
    · exact ih _
    · have hu := FormCheckbox.atUnchecked_outcome f d1 d2 a (h a).2
      cases h1 : f.atUnchecked d1 a with
      | none =>
        cases h2 : f.atUnchecked d2 a with
        | none => exact ih _
        | some r2 => rw [h1, h2] at hu; cases hu
      | some r1 =>
        cases h2 : f.atUnchecked d2 a with
        | none => rw [h1, h2] at hu; cases hu
        | some r2 =>
          rw [h1, h2] at hu
          simp only [Option.map_some', Option.some.injEq] at hu
          simp only [Sum.map_inl, hu]

theorem FormCheckbox.fail_outcome_group (f : FormCheckbox) (d1 d2 : Dom) (setting : String) :
    (f.fail d1 setting).1 = (f.fail d2 setting).1 := by
  unfold FormCheckbox.fail
  cases f.parseMsg setting <;> rfl

theorem FormCheckbox.validate_outcome_congr_group (f : FormCheckbox) (d1 d2 : Dom)
    (h : sameInputs d1 d2) : (f.validate d1).1 = (f.validate d2).1 := by
  have hs := FormCheckbox.scan_outcome f (setValidityAll d1 f.element "")
    (setValidityAll d2 f.element "") f.element 0 (fun i => by
      rw [(setValidityAll_checked d1 _ _ i).1, (setValidityAll_checked d2 _ _ i).1,
        (setValidityAll_checked d1 _ _ i).2, (setValidityAll_checked d2 _ _ i).2]
      exact ⟨(sameInputs_fields d1 d2 h i).2.1, (sameInputs_fields d1 d2 h i).2.2.2.2⟩)
  unfold FormCheckbox.validate
  dsimp only [FormCheckbox.setValidity]
  cases h1 : f.scan (setValidityAll d1 f.element "") f.element 0 with
  | inl r1 =>
    cases h2 : f.scan (setValidityAll d2 f.element "") f.element 0 with
    | inl r2 =>
      rw [h1, h2] at hs
      simpa using hs
    | inr n2 => rw [h1, h2] at hs; cases hs
  | inr n1 =>
    cases h2 : f.scan (setValidityAll d2 f.element "") f.element 0 with
    | inl r2 => rw [h1, h2] at hs; cases hs
    | inr n2 =>
      rw [h1, h2] at hs
      have e : n1 = n2 := by simpa using hs
      subst e
      dsimp only
      split
      · exact FormCheckbox.fail_outcome_group f _ _ _
      · split
        · exact FormCheckbox.fail_outcome_group f _ _ _
        · rfl

theorem FieldValidator.validate_outcome_congr (item : FieldValidator) (d1 d2 : Dom)
    (h : sameInputs d1 d2) : (item.validate d1).1 = (item.validate d2).1 := by
  cases item with
  | text f => exact FormTextField.validate_outcome_congr_text f d1 d2 h
  | radio f => exact FormRadioButton.validate_outcome_congr_radio f d1 d2 h
  | checkbox f => exact FormCheckbox.validate_outcome_congr_group f d1 d2 h
  | select f => exact FormSelect.validate_outcome_congr_select f d1 d2 h

theorem FieldValidator.validate_sameInputs (item : FieldValidator) (dom : Dom) :
    sameInputs (item.validate dom).2 dom := by
  obtain ⟨msgOf, h1, -⟩ := FieldValidator.validate_shape item dom
  rw [h1]
  exact withValidity_sameInputs _ _ _

theorem FieldValidator.validate_outside (item : FieldValidator) (dom : Dom) (c : Nat)
    (hc : c ∉ item.controls) : (item.validate dom).2 c = dom c := by
  obtain ⟨msgOf, h1, -⟩ := FieldValidator.validate_shape item dom
  rw [h1]
  exact withValidity_outside _ _ _ _ hc

theorem setCustomValidity_congr (d1 d2 : Dom) (el : Nat) (msg : String)
    (h : sameInputs d1 d2) (hout : ∀ i ∉ [el], d1 i = d2 i) :
    setCustomValidity d1 el msg = setCustomValidity d2 el msg :=
  setValidityAll_congr d1 d2 [el] msg h hout

theorem FieldValidator.validate_congr (item : FieldValidator) (d1 d2 : Dom)
    (h : sameInputs d1 d2) (hout : ∀ i ∉ item.controls, d1 i = d2 i) :
    item.validate d1 = item.validate d2 := by
  cases item with
  | text f =>
    have e1 := setCustomValidity_congr d1 d2 f.element "" h hout
    have e2 : (d1 f.element).value = (d2 f.element).value := (sameInputs_fields d1 d2 h _).1
    simp only [FieldValidator.validate, FormTextField.validate, e1, e2]
  | radio f =>
    have e1 := setValidityAll_congr d1 d2 f.element "" h hout
    simp only [FieldValidator.validate, FormRadioButton.validate, FormRadioButton.setValidity, e1]
  | checkbox f =>
    have e1 := setValidityAll_congr d1 d2 f.element "" h hout
    simp only [FieldValidator.validate, FormCheckbox.validate, FormCheckbox.setValidity, e1]
  | select f =>
    have e1 := setCustomValidity_congr d1 d2 f.element "" h hout
    simp only [FieldValidator.validate, FormSelect.validate, e1]

/-- C17: `validate` is idempotent. For a validator of any of the four kinds and any
document, calling `validate` again on the document the first call left gives the
same outcome and leaves the same document, custom validity messages included.
More generally, on a document that differs from `dom` only in custom validity
messages the outcome is the same, and when the difference is confined to the
validator's own controls the document left is the same too; a call changes
nothing but custom validity messages. The validator itself (its requirements and
messages) is an argument that `validate` only reads. -/
theorem C17_validate_idempotent (item : FieldValidator) (dom : Dom) :
    item.validate (item.validate dom).2 = item.validate dom
    ∧ (∀ d, sameInputs d dom → (item.validate d).1 = (item.validate dom).1)
    ∧ (∀ d, sameInputs d dom → (∀ i ∉ item.controls, d i = dom i) →
        item.validate d = item.validate dom)
    ∧ sameInputs (item.validate dom).2 dom := by
  refine ⟨?_, ?_, ?_, FieldValidator.validate_sameInputs item dom⟩
  · exact FieldValidator.validate_congr item _ _ (FieldValidator.validate_sameInputs item dom)
      (fun i hi => FieldValidator.validate_outside item dom i hi)
  · intro d hd
    exact FieldValidator.validate_outcome_congr item d dom hd
  · intro d hd hout
    exact FieldValidator.validate_congr item d dom hd hout

theorem C17_validate_idempotent_witness :
    sameInputs ((FieldValidator.checkbox (FormCheckbox.mk [0, 1, 2] []
        [("required", .str "opt2"), ("minSelect", .num 0), ("maxSelect", .num (-1))]
        FormCheckbox.defaultMsgs)).validate (boxDom true false true)).2 (boxDom true false true)
    ∧ ((FieldValidator.checkbox (FormCheckbox.mk [0, 1, 2] []
        [("required", .str "opt2"), ("minSelect", .num 0), ("maxSelect", .num (-1))]
        FormCheckbox.defaultMsgs)).validate
          ((FieldValidator.checkbox (FormCheckbox.mk [0, 1, 2] []
            [("required", .str "opt2"), ("minSelect", .num 0), ("maxSelect", .num (-1))]
            FormCheckbox.defaultMsgs)).validate (boxDom true false true)).2).1
        = ((FieldValidator.checkbox (FormCheckbox.mk [0, 1, 2] []
            [("required", .str "opt2"), ("minSelect", .num 0), ("maxSelect", .num (-1))]
            FormCheckbox.defaultMsgs)).validate (boxDom true false true)).1 :=
  ⟨(C17_validate_idempotent _ _).2.2.2,
    (C17_validate_idempotent _ _).2.1 _ (C17_validate_idempotent _ _).2.2.2⟩

/-! ## The form validator -/

theorem FormValidator.validateItems_true_iff (items : List FieldValidator) (d dom : Dom)
    (h : sameInputs d dom) :
    (FormValidator.validateItems items d).1 = .returned true
      ↔ ∀ item ∈ items, (item.validate dom).1 = .returned true := by
  induction items generalizing d with
  | nil => simp [FormValidator.validateItems]
  | cons item rest ih =>
    have hout := FieldValidator.validate_outcome_congr item d dom h
    have hsame : sameInputs (item.validate d).2 dom :=
      sameInputs_trans _ _ _ (FieldValidator.validate_sameInputs item d) h
    rw [List.forall_mem_cons, ← hout, FormValidator.validateItems]
    cases hv : item.validate d with
    | mk o d1 =>
      rw [hv] at hsame
      cases o with
      | returned b =>
        cases b with
        | true => simp only [ih d1 hsame, true_and]
        | false => simp
      | threw => simp

theorem FormValidator.validateItems_stop (pre : List FieldValidator) (item : FieldValidator)
    (post : List FieldValidator) (d dom : Dom) (h : sameInputs d dom)
    (hpre : ∀ p ∈ pre, (p.validate dom).1 = .returned true)
    (hitem : (item.validate dom).1 = .returned false) :
    FormValidator.validateItems (pre ++ item :: post) d
        = FormValidator.validateItems (pre ++ [item]) d
      ∧ (FormValidator.validateItems (pre ++ item :: post) d).1 = .returned false := by
  induction pre generalizing d with
  | nil =>
    have hout := FieldValidator.validate_outcome_congr item d dom h
    rw [hitem] at hout
    simp only [List.nil_append, FormValidator.validateItems]
    cases hv : item.validate d with
    | mk o d1 =>
      rw [hv] at hout
      dsimp only at hout
      subst hout
      exact ⟨rfl, rfl⟩
  | cons p rest ih =>
    have hout := FieldValidator.validate_outcome_congr p d dom h
    rw [hpre p (List.mem_cons_self _ _)] at hout
    have hsame : sameInputs (p.validate d).2 dom :=
      sameInputs_trans _ _ _ (FieldValidator.validate_sameInputs p d) h
    simp only [List.cons_append, FormValidator.validateItems]
    cases hv : p.validate d with
    | mk o d1 =>
      rw [hv] at hout hsame
      dsimp only at hout
      subst hout
      exact ih d1 hsame (fun q hq => hpre q (List.mem_cons_of_mem _ hq))

theorem FormValidator.validateItems_outside (items : List FieldValidator) (d : Dom) (c : Nat)
    (hc : ∀ p ∈ items, c ∉ p.controls) :
    (FormValidator.validateItems items d).2 c = d c := by
  induction items generalizing d with
  | nil => rfl
  | cons item rest ih =>
    have h1 := FieldValidator.validate_outside item d c (hc item (List.mem_cons_self _ _))
    have ih' := fun d => ih d (fun p hp => hc p (List.mem_cons_of_mem _ hp))
    rw [FormValidator.validateItems]
    cases hv : item.validate d with
    | mk o d1 =>
      rw [hv] at h1
      cases o with
      | returned b =>
        cases b with
        | true => exact (ih' d1).trans h1
        | false => exact h1
      | threw => exact h1

theorem sameInputs_refl (d : Dom) : sameInputs d d := fun _ => rfl

/-- C15: `FormValidator.validate` returns true exactly when the `validate` of every
owned field validator returns true (each outcome is that on the document before
the call, since validators change custom validity messages only); with no
validator the result is true. When the validator at some position is the first
whose `validate` returns false, the result is false and is what the validators up
to that position alone produce: none behind it is invoked, and every control that
is bound to none of the validators up to that position is left as it was. -/
theorem C15_form_validate_short_circuit (v : FormValidator) (dom : Dom) :
    ((v.validate dom).1 = .returned true
        ↔ ∀ item ∈ v.items, (item.validate dom).1 = .returned true)
    ∧ (v.items = [] → v.validate dom = (.returned true, dom))
    ∧ (∀ pre item post, v.items = pre ++ item :: post →
        (∀ p ∈ pre, (p.validate dom).1 = .returned true) →
        (item.validate dom).1 = .returned false →
        (v.validate dom).1 = .returned false
        ∧ v.validate dom = FormValidator.validateItems (pre ++ [item]) dom
        ∧ ∀ c, (∀ p ∈ pre ++ [item], c ∉ p.controls) → (v.validate dom).2 c = dom c) := by
  refine ⟨?_, ?_, ?_⟩
  · exact FormValidator.validateItems_true_iff v.items dom dom (sameInputs_refl dom)
  · intro h
    unfold FormValidator.validate
    rw [h]
    rfl
  · intro pre item post hitems hpre hitem
    obtain ⟨h1, h2⟩ := FormValidator.validateItems_stop pre item post dom dom
      (sameInputs_refl dom) hpre hitem
    unfold FormValidator.validate
    rw [hitems]
    refine ⟨h2, h1, ?_⟩
    intro c hc
    rw [h1]
    exact FormValidator.validateItems_outside _ dom c hc

/-! ## The order of the checks of a text field -/

theorem FormTextField.violated_min (f : FormTextField) (dom : Dom) :
    f.violated dom "minLength"
        = jsLt (.num (jsLength (stripLeadingDot (dom f.element).value.toList)))
            (f.reqs.get "minLength")
    ∧ f.violated dom "minLetters"
        = jsLt (.num (jsLength (List.filter isLetter (dom f.element).value.toList)))
            (f.reqs.get "minLetters")
    ∧ f.violated dom "minUpperCase"
        = jsLt (.num (jsLength (List.filter isUpperCase (dom f.element).value.toList)))
            (f.reqs.get "minUpperCase")
    ∧ f.violated dom "minLowerCase"
        = jsLt (.num (jsLength (List.filter isLowerCase (dom f.element).value.toList)))
            (f.reqs.get "minLowerCase")
    ∧ f.violated dom "minNums"
        = jsLt (.num (jsLength (List.filter isNum (dom f.element).value.toList)))
            (f.reqs.get "minNums")
    ∧ f.violated dom "minSymbols"
        = jsLt (.num (jsLength (List.filter isSymbol (dom f.element).value.toList)))
            (f.reqs.get "minSymbols") :=
  ⟨rfl, rfl, rfl, rfl, rfl, rfl⟩

theorem FormTextField.violated_max (f : FormTextField) (dom : Dom) :
    f.violated dom "maxLength"
        = (jsGt (f.reqs.get "maxLength") (.num (-1))
          && jsGt (.num (jsLength (stripLeadingDot (dom f.element).value.toList)))
            (f.reqs.get "maxLength"))
    ∧ f.violated dom "maxLetters"
        = (jsGt (f.reqs.get "maxLetters") (.num (-1))
          && jsGt (.num (jsLength (List.filter isLetter (dom f.element).value.toList)))
            (f.reqs.get "maxLetters"))
    ∧ f.violated dom "maxUpperCase"
        = (jsGt (f.reqs.get "maxUpperCase") (.num (-1))
          && jsGt (.num (jsLength (List.filter isUpperCase (dom f.element).value.toList)))
            (f.reqs.get "maxUpperCase"))
    ∧ f.violated dom "maxLowerCase"
        = (jsGt (f.reqs.get "maxLowerCase") (.num (-1))
          && jsGt (.num (jsLength (List.filter isLowerCase (dom f.element).value.toList)))
            (f.reqs.get "maxLowerCase"))
    ∧ f.violated dom "maxNums"
        = (jsGt (f.reqs.get "maxNums") (.num (-1))
          && jsGt (.num (jsLength (List.filter isNum (dom f.element).value.toList)))
            (f.reqs.get "maxNums"))
    ∧ f.violated dom "maxSymbols"
        = (jsGt (f.reqs.get "maxSymbols") (.num (-1))
          && jsGt (.num (jsLength (List.filter isSymbol (dom f.element).value.toList)))
            (f.reqs.get "maxSymbols"))
    ∧ f.violated dom "matches"
        = !strLooseEq (dom f.element).value (propValue dom f.«matches») :=
  ⟨rfl, rfl, rfl, rfl, rfl, rfl, rfl⟩

theorem FormTextField.violated_class (f : FormTextField) (dom : Dom)
    (C : String × (List Char → List Char)) (hC : C ∈ FormTextField.regex) :
    f.violated dom ("min" ++ C.1)
        = jsLt (.num (jsLength (C.2 (dom f.element).value.toList))) (f.reqs.get ("min" ++ C.1))
    ∧ f.violated dom ("max" ++ C.1)
        = (jsGt (.num (jsLength (C.2 (dom f.element).value.toList))) (f.reqs.get ("max" ++ C.1))
          && jsGt (f.reqs.get ("max" ++ C.1)) (.num (-1))) := by
  simp only [FormTextField.regex, List.mem_cons, List.mem_singleton, List.not_mem_nil,
    or_false] at hC
  rcases hC with rfl | rfl | rfl | rfl | rfl | rfl
  · exact ⟨(FormTextField.violated_min f dom).1,
      (FormTextField.violated_max f dom).1.trans (Bool.and_comm _ _)⟩
  · exact ⟨(FormTextField.violated_min f dom).2.1,
      (FormTextField.violated_max f dom).2.1.trans (Bool.and_comm _ _)⟩
  · exact ⟨(FormTextField.violated_min f dom).2.2.1,
      (FormTextField.violated_max f dom).2.2.1.trans (Bool.and_comm _ _)⟩
  · exact ⟨(FormTextField.violated_min f dom).2.2.2.1,
      (FormTextField.violated_max f dom).2.2.2.1.trans (Bool.and_comm _ _)⟩
  · exact ⟨(FormTextField.violated_min f dom).2.2.2.2.1,
      (FormTextField.violated_max f dom).2.2.2.2.1.trans (Bool.and_comm _ _)⟩
  · exact ⟨(FormTextField.violated_min f dom).2.2.2.2.2,
      (FormTextField.violated_max f dom).2.2.2.2.2.1.trans (Bool.and_comm _ _)⟩

theorem FormTextField.find_checkClasses (f : FormTextField) (dom : Dom)
    (cls : List (String × (List Char → List Char))) (names : List String)
    (h : ∀ C ∈ cls, C ∈ FormTextField.regex) :
    List.find? (f.violated dom) ((cls.flatMap fun C => ["min" ++ C.1, "max" ++ C.1]) ++ names)
      = match f.checkClasses (dom f.element).value.toList cls with
        | some setting => some setting
        | none => List.find? (f.violated dom) names := by
  induction cls with
  | nil => rfl
  | cons C rest ih =>
    obtain ⟨h1, h2⟩ := FormTextField.violated_class f dom C (h C (List.mem_cons_self _ _))
    have ih' := ih (fun D hD => h D (List.mem_cons_of_mem _ hD))
    obtain ⟨key, keep⟩ := C
    simp only [List.flatMap_cons, List.cons_append, List.nil_append, List.find?_cons,
      FormTextField.checkClasses] at h1 h2 ih' ⊢
    rw [h1, h2]
    by_cases c1 : jsLt (.num (jsLength (keep (dom f.element).value.toList)))
        (f.reqs.get ("min" ++ key)) = true
    · simp only [c1, if_true]
    · have c1' : jsLt (.num (jsLength (keep (dom f.element).value.toList)))
          (f.reqs.get ("min" ++ key)) = false := by simpa using c1
      by_cases c2 : (jsGt (.num (jsLength (keep (dom f.element).value.toList)))
          (f.reqs.get ("max" ++ key)) && jsGt (f.reqs.get ("max" ++ key)) (.num (-1))) = true
      · simp only [c1', c2, Bool.false_eq_true, if_false, if_true]
      · have c2' : (jsGt (.num (jsLength (keep (dom f.element).value.toList)))
            (f.reqs.get ("max" ++ key)) && jsGt (f.reqs.get ("max" ++ key)) (.num (-1)))
            = false := by simpa using c2
        simp only [c1', c2', Bool.false_eq_true, if_false]
        exact ih'

theorem FormTextField.firstViolation_eq (f : FormTextField) (dom : Dom) :
    f.firstViolation dom
      = match f.checkClasses (dom f.element).value.toList FormTextField.regex with
        | some setting => some setting
        | none =>
          if !strLooseEq (dom f.element).value (propValue dom f.«matches») then some "matches"
          else none := by
  have horder : FormTextField.requirementOrder
      = (FormTextField.regex.flatMap fun C => ["min" ++ C.1, "max" ++ C.1]) ++ ["matches"] := by
    decide
  unfold FormTextField.firstViolation
  rw [horder, FormTextField.find_checkClasses f dom _ _ (fun _ h => h)]
  cases f.checkClasses (dom f.element).value.toList FormTextField.regex with
  | some setting => rfl
  | none =>
    simp only [List.find?_cons, (FormTextField.violated_max f dom).2.2.2.2.2.2, List.find?_nil]
    cases (!strLooseEq (dom f.element).value (propValue dom f.«matches»)) <;> rfl

theorem propValue_cleared (dom : Dom) (el : Nat) (msg : String) (v : JSVal) :
    propValue (setCustomValidity dom el msg) v = propValue dom v := by
  cases v <;> try rfl
  simp only [propValue, (setCustomValidity_fields _ _ _ _).1]

/-- C18: on a control whose native check passes, `validate` reports the first
violated requirement in the order minLength, maxLength, minLetters, maxLetters,
minUpperCase, maxUpperCase, minLowerCase, maxLowerCase, minNums, maxNums,
minSymbols, maxSymbols, matches. When a requirement is violated, `validate`
returns false and the one message it sets on the control is the interpolated
message of the first violated requirement, before which no requirement of the
order is violated; when none is violated it returns true. -/
theorem C18_first_violation_order (f : FormTextField) (dom : Dom)
    (hvalid : (dom f.element).nativeValid = true) :
    (f.validate dom =
        match f.firstViolation dom with
        | some requirement => f.fail (setCustomValidity dom f.element "") requirement
        | none => (.returned true, setCustomValidity dom f.element ""))
    ∧ (∀ requirement template, f.firstViolation dom = some requirement →
        f.msgs.get requirement = .str template →
        f.validate dom = (.returned false, setCustomValidity dom f.element
          (String.mk (interpolate f.reqs template.toList))))
    ∧ (∀ requirement, f.firstViolation dom = some requirement →
        f.violated dom requirement = true
        ∧ ∃ before after, FormTextField.requirementOrder = before ++ requirement :: after
          ∧ ∀ r ∈ before, f.violated dom r = false)
    ∧ (f.firstViolation dom = none ↔ ∀ r ∈ FormTextField.requirementOrder,
        f.violated dom r = false) := by
  have hval : f.validate dom =
      match f.firstViolation dom with
      | some requirement => f.fail (setCustomValidity dom f.element "") requirement
      | none => (.returned true, setCustomValidity dom f.element "") := by
    rw [FormTextField.firstViolation_eq]
    unfold FormTextField.validate
    simp only [checkValidity_cleared, hvalid, Bool.not_true, Bool.false_eq_true, if_false,
      propValue_cleared]
    cases f.checkClasses (dom f.element).value.toList FormTextField.regex with
    | some setting => rfl
    | none =>
      dsimp only
      cases (!strLooseEq (dom f.element).value (propValue dom f.«matches»)) <;> rfl
  refine ⟨hval, ?_, ?_, ?_⟩
  · intro requirement template hfirst ht
    rw [hval, hfirst]
    simp only [FormTextField.fail, FormTextField.parseMsg, FormValidator.parseMsg, ht,
      setCustomValidity_twice]
  · intro requirement hfirst
    unfold FormTextField.firstViolation at hfirst
    obtain ⟨h1, before, after, h2, h3⟩ := List.find?_eq_some.mp hfirst
    refine ⟨h1, before, after, h2, ?_⟩
    intro r hr
    simpa using h3 r hr
  · unfold FormTextField.firstViolation
    rw [List.find?_eq_none]
    constructor
    · intro h r hr
      simpa using h r hr
    · intro h r hr
      simp [h r hr]

theorem C18_first_violation_order_witness :
    (textDom "pw" (FormTextField.new (textDom "") 0
        [("minLength", .num 8), ("minNums", .num 1)]).1.element).nativeValid = true
    ∧ ((FormTextField.new (textDom "") 0
          [("minLength", .num 8), ("minNums", .num 1)]).1.firstViolation (textDom "pw")
        = some "minLength"
      ∧ (FormTextField.new (textDom "") 0
          [("minLength", .num 8), ("minNums", .num 1)]).1.msgs.get "minLength"
        = .str "This field must contain at least {minLength} character{s-minLength}.")
    ∧ (FormTextField.new (textDom "") 0
          [("minLength", .num 8), ("minNums", .num 1)]).1.validate (textDom "pw")
        = (.returned false, setCustomValidity (textDom "pw")
            (FormTextField.new (textDom "") 0
              [("minLength", .num 8), ("minNums", .num 1)]).1.element
            (String.mk (interpolate (FormTextField.new (textDom "") 0
                [("minLength", .num 8), ("minNums", .num 1)]).1.reqs
              "This field must contain at least {minLength} character{s-minLength}.".toList))) :=
  ⟨by decide, by decide,
    (C18_first_violation_order (FormTextField.new (textDom "") 0
        [("minLength", .num 8), ("minNums", .num 1)]).1 (textDom "pw") (by decide)).2.1
      "minLength" _ (by decide) (by decide)⟩

theorem C15_form_validate_short_circuit_witness :
    ((FormValidator.mk 0
          [.text (FormTextField.new (textDom "") 0 [("minLength", .num 8)]).1,
           .text (FormTextField.new (textDom "") 1 [("minLength", .num 1)]).1]).items
        = [] ++ FieldValidator.text (FormTextField.new (textDom "") 0 [("minLength", .num 8)]).1
            :: [.text (FormTextField.new (textDom "") 1 [("minLength", .num 1)]).1]
      ∧ ((FieldValidator.text (FormTextField.new (textDom "") 0
            [("minLength", .num 8)]).1).validate (textDom "pw")).1 = .returned false
      ∧ ((FieldValidator.text (FormTextField.new (textDom "") 1
            [("minLength", .num 1)]).1).validate (textDom "pw")).1 = .returned true
      ∧ ∀ p ∈ [] ++ [FieldValidator.text (FormTextField.new (textDom "") 0
            [("minLength", .num 8)]).1], 1 ∉ p.controls)
    ∧ ((FormValidator.mk 0
          [.text (FormTextField.new (textDom "") 0 [("minLength", .num 8)]).1,
           .text (FormTextField.new (textDom "") 1 [("minLength", .num 1)]).1]).validate
            (textDom "pw")).1 = .returned false
    ∧ ((FormValidator.mk 0
          [.text (FormTextField.new (textDom "") 0 [("minLength", .num 8)]).1,
           .text (FormTextField.new (textDom "") 1 [("minLength", .num 1)]).1]).validate
            (textDom "pw")).2 1 = textDom "pw" 1 :=
  ⟨by decide,
    ((C15_form_validate_short_circuit (FormValidator.mk 0
        [.text (FormTextField.new (textDom "") 0 [("minLength", .num 8)]).1,
         .text (FormTextField.new (textDom "") 1 [("minLength", .num 1)]).1])
      (textDom "pw")).2.2 [] _ _ rfl (by simp) (by decide)).1,
    ((C15_form_validate_short_circuit (FormValidator.mk 0
        [.text (FormTextField.new (textDom "") 0 [("minLength", .num 8)]).1,
         .text (FormTextField.new (textDom "") 1 [("minLength", .num 1)]).1])
      (textDom "pw")).2.2 [] _ _ rfl (by simp) (by decide)).2.2 1 (by decide)⟩

/-! ## The constructor of the form validator -/

theorem FormValidator.addField_unbound (write : PropertyWrite) (form : String → Option Bound)
    (st : List FieldValidator × Dom) (entry : String × Obj) (h : form entry.1 = none) :
    FormValidator.addField write form st entry = some st := by
  unfold FormValidator.addField
  rw [h]

/-- C16 (code defect): construction is not non-fatal. For an entry bound to a
single control that is not text-like, the constructor evaluates
`this.element[key].item(0)` on an element that has no `item` method and throws a
`TypeError`: a single control of kind `number` and a lone checkbox both abort the
constructor, and no validator is obtained for the well-formed entries either. An
entry whose name is not bound in the form is skipped as the claim says. This holds
on every platform. -/
theorem C16_constructor_throws_on_single_control (write : PropertyWrite) :
    (FormValidator.new write mixedForm mixedDom [("age", [])]).isNone = true
    ∧ (FormValidator.new write agreeForm (boxDom false false false) [("agree", [])]).isNone = true
    ∧ (FormValidator.new write mixedForm mixedDom [("name", []), ("age", [])]).isNone = true
    ∧ (FormValidator.new write mixedForm mixedDom [("name", [])]).isSome = true
    ∧ (FormValidator.new write mixedForm mixedDom [("nobody", []), ("name", [])]).map Prod.fst
        = (FormValidator.new write mixedForm mixedDom [("name", [])]).map Prod.fst := by
  refine ⟨rfl, rfl, rfl, rfl, rfl⟩

/-! ## Options passed through to the control -/

theorem FormTextField.loadOption_snd (st : FormTextField × Obj) (opt : String × JSVal) :
    (FormTextField.loadOption st opt).2
      = if st.1.accepts opt then st.2 else st.2 ++ [opt] := by
  unfold FormTextField.loadOption FormTextField.accepts
  by_cases c1 : (typeof opt.2 == "number" && st.1.reqs.get opt.1 != .undefined
      && jsGe opt.2 (.num 0)) = true
  · simp only [c1, if_true, Bool.true_or]
  · by_cases c2 : (typeof opt.2 == "string" && hasMsg opt.1
        && st.1.msgs.get (stripMsg opt.1) != .undefined) = true
    · simp only [c1, c2, if_true, Bool.or_true, Bool.false_eq_true, if_false]
    · have c1' : (typeof opt.2 == "number" && st.1.reqs.get opt.1 != .undefined
          && jsGe opt.2 (.num 0)) = false := by simpa using c1
      have c2' : (typeof opt.2 == "string" && hasMsg opt.1
          && st.1.msgs.get (stripMsg opt.1) != .undefined) = false := by simpa using c2
      simp only [c1', c2', Bool.false_eq_true, if_false, Bool.or_self]

theorem FormTextField.loadOption_reqs_defined (st : FormTextField × Obj) (opt : String × JSVal)
    (k : String) :
    ((FormTextField.loadOption st opt).1.reqs.get k != .undefined)
      = (st.1.reqs.get k != .undefined) := by
  by_cases h : st.1.reqs.get opt.1 ≠ .undefined ∧ ∃ n, opt.2 = .num n ∧ 0 ≤ n
  · rw [FormTextField.loadOption_reqs_pos st opt h, Obj.get_set]
    by_cases hk : k = opt.1
    · obtain ⟨h1, n, h2, -⟩ := h
      subst hk
      have e1 : (opt.2 != JSVal.undefined) = true := by rw [h2]; rfl
      have e2 : (st.1.reqs.get opt.1 != JSVal.undefined) = true := bne_iff_ne.mpr h1
      rw [if_pos rfl, e1, e2]
    · rw [if_neg hk]
  · rw [FormTextField.loadOption_reqs_neg st opt h]

theorem FormTextField.loadOption_msgs_defined (st : FormTextField × Obj) (opt : String × JSVal)
    (k : String) :
    ((FormTextField.loadOption st opt).1.msgs.get k != .undefined)
      = (st.1.msgs.get k != .undefined) := by
  unfold FormTextField.loadOption
  split
  · rfl
  · split
    · rename_i hc
      simp only [Bool.and_eq_true, bne_iff_ne, ne_eq] at hc
      obtain ⟨s, hs⟩ := (typeof_string_iff _).mp hc.1.1
      simp only [Obj.get_set]
      by_cases hk : k = stripMsg opt.1
      · subst hk
        have e1 : (opt.2 != JSVal.undefined) = true := by rw [hs]; rfl
        have e2 : (st.1.msgs.get (stripMsg opt.1) != JSVal.undefined) = true :=
          bne_iff_ne.mpr hc.2
        rw [if_pos rfl, e1, e2]
      · rw [if_neg hk]
    · rfl

theorem FormTextField.loadOption_accepts (st : FormTextField × Obj) (opt o : String × JSVal) :
    (FormTextField.loadOption st opt).1.accepts o = st.1.accepts o := by
  unfold FormTextField.accepts
  rw [FormTextField.loadOption_reqs_defined, FormTextField.loadOption_msgs_defined]

theorem FormTextField.fold_snd (opts : Obj) (st : FormTextField × Obj) :
    (opts.foldl FormTextField.loadOption st).2
      = st.2 ++ opts.filter fun o => !st.1.accepts o := by
  induction opts generalizing st with
  | nil => simp
  | cons o rest ih =>
    have hacc : (fun p => !(FormTextField.loadOption st o).1.accepts p)
        = (fun p => !st.1.accepts p) := by
      funext p
      rw [FormTextField.loadOption_accepts]
    rw [List.foldl_cons, ih, hacc, FormTextField.loadOption_snd, List.filter_cons]
    by_cases ha : st.1.accepts o = true
    · simp only [ha, if_true, Bool.not_true, Bool.false_eq_true, if_false]
    · have ha' : st.1.accepts o = false := by simpa using ha
      simp only [ha', Bool.false_eq_true, if_false, Bool.not_false, if_true,
        List.append_assoc, List.singleton_append]

theorem FormTextField.new_snd (dom : Dom) (el : Nat) (options : Obj) :
    (FormTextField.new dom el options).2
      = options.filter fun o => !(FormTextField.init dom el options).accepts o := by
  unfold FormTextField.new
  rw [FormTextField.fold_snd]
  rfl

theorem assignAll_frame (write : PropertyWrite) (el : Nat) (opts : Obj) (dom dom1 : Dom)
    (h : assignAll write dom el opts = some dom1) (i : Nat) (hi : i ≠ el) : dom1 i = dom i := by
  induction opts generalizing dom with
  | nil =>
    simp only [assignAll, Option.some.injEq] at h
    rw [← h]
  | cons o rest ih =>
    unfold assignAll at h
    cases hp : assignProp write dom el o.1 o.2 with
    | none => rw [hp] at h; simp at h
    | some d =>
      rw [hp] at h
      rw [ih d h]
      unfold assignProp at hp
      cases hw : write (dom el) o.1 o.2 with
      | none => rw [hw] at hp; simp at hp
      | some c =>
        rw [hw] at hp
        simp only [Option.map_some', Option.some.injEq] at hp
        rw [← hp, Function.update_noteq hi]

/-- C19 (counterexample): on a platform whose `maxLength` setter throws for a negative
number, as that of an HTML input element does, the constructor given `maxLength: -5`
ends with the exception: it returns no validator and nothing is assigned onto the
control. With `minLetters: -5`, which no setter guards, it completes, `reqs.minLetters`
keeps its default 0 and the control carries the property -5. -/
theorem C19_negative_maxLength_throws :
    (FormTextField.construct strictLengths (textDom "") 0 [("maxLength", .num (-5))]).isNone
        = true
    ∧ (FormTextField.construct strictLengths (textDom "") 0 [("minLetters", .num (-5))]).map
        (fun r => (r.1.reqs.get "minLetters", (r.2 0).assigned.get "minLetters"))
      = some (.num 0, .num (-5)) := by
  decide

/-- C19 (amended): the constructor of FormTextField executes `element[key] = value` for
exactly the options it does not accept as a numeric override or as a string message
override, in the order of the options, and touches no control in any other way: on
every platform the call ends as this sequence of assignments ends, with the document
they leave or with the exception of the first that throws, and a control other than
the bound one is left as it was. In particular a negative number given for one of
the twelve numeric requirement keys (such as `maxLength: -5`) is not accepted:
`reqs[key]` keeps its default and the one assignment `element[key] = value` decides
the call, which returns the validator when the platform accepts the assignment and
throws when the platform does. -/
theorem C19_pass_through_options (write : PropertyWrite) (dom : Dom) (el : Nat) (options : Obj) :
    (FormTextField.new dom el options).2
        = options.filter (fun o => !(FormTextField.init dom el options).accepts o)
    ∧ FormTextField.construct write dom el options
        = (assignAll write dom el
            (options.filter fun o => !(FormTextField.init dom el options).accepts o)).map
          (fun dom1 => ((FormTextField.new dom el options).1, dom1))
    ∧ (∀ f dom1, FormTextField.construct write dom el options = some (f, dom1) →
        ∀ i, i ≠ el → dom1 i = dom i)
    ∧ (∀ k d v, (k, d) ∈ FormTextField.numericDefaults → v < 0 →
        (FormTextField.new dom el [(k, .num v)]).1.reqs.get k = .num d
        ∧ FormTextField.construct write dom el [(k, .num v)]
          = (write (dom el) k (.num v)).map (fun c =>
              ((FormTextField.new dom el [(k, .num v)]).1, Function.update dom el c))) := by
  refine ⟨FormTextField.new_snd dom el options, ?_, ?_, ?_⟩
  · unfold FormTextField.construct
    rw [FormTextField.new_snd]
  · intro f dom1 h i hi
    unfold FormTextField.construct at h
    cases ha : assignAll write dom el (FormTextField.new dom el options).2 with
    | none => rw [ha] at h; simp at h
    | some d =>
      rw [ha] at h
      simp only [Option.map_some', Option.some.injEq, Prod.mk.injEq] at h
      rw [← h.2]
      exact assignAll_frame write el _ dom d ha i hi
  · intro k d v hk hv
    constructor
    · rw [FormTextField.new_reqs_get dom el _ k d hk (by simp [Obj.keys])]
      have : ¬ 0 ≤ v := by omega
      simp [mergedReq, lookup_cons_eq, this]
    · have hacc : (FormTextField.init dom el [(k, .num v)]).accepts (k, .num v) = false := by
        have : ¬ 0 ≤ v := by omega
        simp [FormTextField.accepts, jsGe_num, typeof, this]
      unfold FormTextField.construct
      rw [FormTextField.new_snd]
      simp only [List.filter_cons, hacc, Bool.not_false, if_true, List.filter_nil, assignAll,
        assignProp]
      cases write (dom el) k (.num v) <;> rfl

theorem C19_pass_through_options_witness :
    (("maxLength", (-1 : Int)) ∈ FormTextField.numericDefaults ∧ (-5 : Int) < 0)
    ∧ (FormTextField.new (textDom "") 0 [("maxLength", .num (-5))]).1.reqs.get "maxLength"
        = .num (-1)
    ∧ FormTextField.construct strictLengths (textDom "") 0 [("maxLength", .num (-5))]
        = (strictLengths (textDom "" 0) "maxLength" (.num (-5))).map fun c =>
            ((FormTextField.new (textDom "") 0 [("maxLength", .num (-5))]).1,
              Function.update (textDom "") 0 c) :=
  ⟨by decide,
    (C19_pass_through_options strictLengths (textDom "") 0 []).2.2.2 "maxLength" (-1) (-5)
      (by decide) (by decide)⟩

end FormValidator
